import Mathlib

/-!
Verification development for the Milo832 shader toolchain: the symbolic
assembler (`milo_asm.c`), the reference virtual machine (`milo_vm.c`) and the
shading-language compiler (`milo_glsl.c`).  The C sources are shallowly
embedded: machine words are `Nat` with explicit masks, C strings are
`List Char`, stateful code is explicit state passing, and libc floating-point
primitives (addition, multiplication, transcendentals, decimal conversion)
are threaded through as an explicit `FloatOps` parameter so that every
theorem holds for any platform float library.  Bit-level float facts the C
code itself decides (zero tests, sign tests) are embedded exactly.
-/

set_option maxRecDepth 100000

namespace Milo

/-! Arithmetic helpers for two's-complement 32-bit machine integers. -/

/-- Interpret a 32-bit pattern as a signed two's-complement integer
(the C read through `.i`). -/
def toInt32 (b : Nat) : Int :=
  if b % 4294967296 < 2147483648 then (b % 4294967296 : Int)
  else (b % 4294967296 : Int) - 4294967296

/-- Truncate a signed integer to its 32-bit pattern (C conversion to
`uint32_t` / storage into a 32-bit register cell). -/
def toBits32 (i : Int) : Nat := (i % 4294967296).toNat

/-- Nat `|||` of bit-disjoint summands is addition: used to reason about the
encoder, which assembles a word by OR-ing shifted fields. -/
theorem lor_eq_add (n x b : Nat) (hx : x % 2 ^ n = 0) (hb : b < 2 ^ n) :
    x ||| b = x + b := by
  obtain ⟨a, rfl⟩ : ∃ a, x = 2 ^ n * a :=
    ⟨x / 2 ^ n, by
      rw [Nat.mul_comm]
      exact (Nat.div_mul_cancel (Nat.dvd_of_mod_eq_zero hx)).symm⟩
  apply Nat.eq_of_testBit_eq
  intro j
  rw [Nat.testBit_lor, Nat.testBit_mul_pow_two_add a hb j, Nat.testBit_mul_pow_two]
  rcases Nat.lt_or_ge j n with h | h
  · simp [h, Nat.not_le_of_lt h]
  · simp [h, Nat.not_lt_of_le h,
      Nat.testBit_lt_two_pow (Nat.lt_of_lt_of_le hb (Nat.pow_le_pow_right (by norm_num) h))]

/-- Mask by an 8-bit pattern is mod 256. -/
theorem and_255 (x : Nat) : x &&& 255 = x % 256 := by
  have := Nat.and_pow_two_sub_one_eq_mod x 8
  norm_num at this
  omega

/-- Mask by a 4-bit pattern is mod 16. -/
theorem and_15 (x : Nat) : x &&& 15 = x % 16 := by
  have := Nat.and_pow_two_sub_one_eq_mod x 4
  norm_num at this
  omega

/-- Mask by a 20-bit pattern is mod 2^20. -/
theorem and_fffff (x : Nat) : x &&& 1048575 = x % 1048576 := by
  have := Nat.and_pow_two_sub_one_eq_mod x 20
  norm_num at this
  omega

/-- Mask by a 32-bit pattern is mod 2^32. -/
theorem and_ffffffff (x : Nat) : x &&& 4294967295 = x % 4294967296 := by
  have := Nat.and_pow_two_sub_one_eq_mod x 32
  norm_num at this
  omega

/-! Instruction words: `milo_inst_t`, `milo_encode_inst`, `milo_decode_inst`
from `milo_asm.c`.  Fields are `Nat`; in the C source they are `uint8_t`
(`opcode`, `rd`, `rs1`, `rs2`, `rs3`, `pred`) and `uint32_t` (`imm`), and
every constructor below respects those ranges. -/

/-- The `milo_inst_t` record of `milo_asm.h`. -/
structure milo_inst where
  opcode : Nat := 0
  rd : Nat := 0
  rs1 : Nat := 0
  rs2 : Nat := 0
  rs3 : Nat := 0
  pred : Nat := 0
  imm : Nat := 0
  has_imm : Bool := false
  has_rs3 : Bool := false
deriving Repr, DecidableEq

/-- `milo_encode_inst` of `milo_asm.c`: assembles the 64-bit word by OR-ing
the shifted fields; the predicate guard defaults to 0x7 when the record's
`pred` is zero, and is placed at bits 31..28 in both operand forms. -/
def milo_encode_inst (inst : milo_inst) : Nat :=
  let word := 0 ||| (inst.opcode <<< 56)
  let word := word ||| (inst.rd <<< 48)
  let word := word ||| (inst.rs1 <<< 40)
  let word := word ||| (inst.rs2 <<< 32)
  let pred := if inst.pred ≠ 0 then inst.pred else 7
  if inst.has_rs3 then
    let word := word ||| ((pred &&& 15) <<< 28)
    let word := word ||| (inst.rs3 <<< 20)
    word ||| (inst.imm &&& 1048575)
  else
    let word := word ||| ((pred &&& 15) <<< 28)
    word ||| (inst.imm &&& 1048575)

/-- `milo_decode_inst` of `milo_asm.c`: extracts opcode and the three register
ids, stores the whole low 32 bits in `imm`, and zeroes `pred`, `rs3` and the
form flags. -/
def milo_decode_inst (word : Nat) : milo_inst where
  opcode := (word >>> 56) &&& 255
  rd := (word >>> 48) &&& 255
  rs1 := (word >>> 40) &&& 255
  rs2 := (word >>> 32) &&& 255
  imm := word &&& 4294967295
  pred := 0
  rs3 := 0
  has_imm := false
  has_rs3 := false

/-- OR-accumulation of the five fixed fields is plain addition. -/
theorem five_field_sum (o d s1 s2 p : Nat) (ho : o < 256) (hd : d < 256)
    (h1 : s1 < 256) (h2 : s2 < 256) (hp : p < 16) :
    o * 2 ^ 56 ||| d * 2 ^ 48 ||| s1 * 2 ^ 40 ||| s2 * 2 ^ 32 ||| p * 2 ^ 28 =
      o * 2 ^ 56 + d * 2 ^ 48 + s1 * 2 ^ 40 + s2 * 2 ^ 32 + p * 2 ^ 28 := by
  rw [lor_eq_add 56 (o * 2 ^ 56) (d * 2 ^ 48) (by omega) (by omega),
      lor_eq_add 48 (o * 2 ^ 56 + d * 2 ^ 48) (s1 * 2 ^ 40) (by omega) (by omega),
      lor_eq_add 40 (o * 2 ^ 56 + d * 2 ^ 48 + s1 * 2 ^ 40) (s2 * 2 ^ 32)
        (by omega) (by omega),
      lor_eq_add 32 (o * 2 ^ 56 + d * 2 ^ 48 + s1 * 2 ^ 40 + s2 * 2 ^ 32)
        (p * 2 ^ 28) (by omega) (by omega)]

/-- Closed arithmetic form of the encoder, for bounded field values. -/
theorem milo_encode_inst_arith (inst : milo_inst)
    (ho : inst.opcode < 256) (hd : inst.rd < 256)
    (h1 : inst.rs1 < 256) (h2 : inst.rs2 < 256) (h3 : inst.rs3 < 256) :
    milo_encode_inst inst =
      inst.opcode * 2 ^ 56 + inst.rd * 2 ^ 48 + inst.rs1 * 2 ^ 40 +
      inst.rs2 * 2 ^ 32 +
      (if inst.pred ≠ 0 then inst.pred % 16 else 7) * 2 ^ 28 +
      (if inst.has_rs3 then inst.rs3 * 2 ^ 20 else 0) + inst.imm % 2 ^ 20 := by
  unfold milo_encode_inst
  simp only [Nat.shiftLeft_eq, Nat.zero_or, and_15, and_fffff]
  set o := inst.opcode with ho'
  set d := inst.rd with hd'
  set s1 := inst.rs1 with hs1'
  set s2 := inst.rs2 with hs2'
  set r3 := inst.rs3 with hr3'
  set i := inst.imm with hi'
  by_cases hp : inst.pred = 0 <;> cases hr3 : inst.has_rs3 <;>
    simp only [hp, hr3, ne_eq, not_true_eq_false, not_false_eq_true, ite_true,
      ite_false, if_true, if_false, Bool.false_eq_true, Bool.true_eq_false]
  · rw [show (7 : Nat) % 16 = 7 from rfl,
        five_field_sum o d s1 s2 7 ho hd h1 h2 (by omega),
        lor_eq_add 20 _ (i % 1048576) (by omega) (by omega)]
    omega
  · rw [show (7 : Nat) % 16 = 7 from rfl,
        five_field_sum o d s1 s2 7 ho hd h1 h2 (by omega),
        lor_eq_add 28 _ (r3 * 2 ^ 20) (by omega) (by omega),
        lor_eq_add 20 _ (i % 1048576) (by omega) (by omega)]
    omega
  · rw [five_field_sum o d s1 s2 (inst.pred % 16) ho hd h1 h2 (by omega),
        lor_eq_add 20 _ (i % 1048576) (by omega) (by omega)]
    omega
  · rw [five_field_sum o d s1 s2 (inst.pred % 16) ho hd h1 h2 (by omega),
        lor_eq_add 28 _ (r3 * 2 ^ 20) (by omega) (by omega),
        lor_eq_add 20 _ (i % 1048576) (by omega) (by omega)]
    omega

/-- Bound for masked bytes. -/
theorem and_255_lt (x : Nat) : x &&& 255 < 256 := by
  rw [and_255]; omega

/-- Extracting an aligned field out of a packed word. -/
theorem div_mod_extract (q k r m : Nat) (hr : r < 2 ^ k) :
    (q * 2 ^ k + r) / 2 ^ k % m = q % m := by
  rw [Nat.mul_comm q, Nat.mul_add_div (Nat.pos_pow_of_pos k (by norm_num)),
    Nat.div_eq_of_lt hr, Nat.add_zero]

/-- Opcode field of the re-encoded word. -/
theorem poly_f56 (o d s1 s2 i : Nat) (ho : o < 256) (hd : d < 256)
    (h1 : s1 < 256) (h2 : s2 < 256) (hi : i < 1048576) :
    (o * 2 ^ 56 + d * 2 ^ 48 + s1 * 2 ^ 40 + s2 * 2 ^ 32 + 7 * 2 ^ 28 + 0 + i)
      / 2 ^ 56 % 256 = o := by
  rw [show o * 2 ^ 56 + d * 2 ^ 48 + s1 * 2 ^ 40 + s2 * 2 ^ 32 + 7 * 2 ^ 28 + 0 + i =
      o * 2 ^ 56 + (d * 2 ^ 48 + s1 * 2 ^ 40 + s2 * 2 ^ 32 + 7 * 2 ^ 28 + i) by ring,
    div_mod_extract o 56 _ 256 (by omega)]
  omega

/-- Destination-register field of the re-encoded word. -/
theorem poly_f48 (o d s1 s2 i : Nat) (ho : o < 256) (hd : d < 256)
    (h1 : s1 < 256) (h2 : s2 < 256) (hi : i < 1048576) :
    (o * 2 ^ 56 + d * 2 ^ 48 + s1 * 2 ^ 40 + s2 * 2 ^ 32 + 7 * 2 ^ 28 + 0 + i)
      / 2 ^ 48 % 256 = d := by
  rw [show o * 2 ^ 56 + d * 2 ^ 48 + s1 * 2 ^ 40 + s2 * 2 ^ 32 + 7 * 2 ^ 28 + 0 + i =
      (o * 2 ^ 8 + d) * 2 ^ 48 + (s1 * 2 ^ 40 + s2 * 2 ^ 32 + 7 * 2 ^ 28 + i) by ring,
    div_mod_extract _ 48 _ 256 (by omega)]
  omega

/-- First-source field of the re-encoded word. -/
theorem poly_f40 (o d s1 s2 i : Nat) (ho : o < 256) (hd : d < 256)
    (h1 : s1 < 256) (h2 : s2 < 256) (hi : i < 1048576) :
    (o * 2 ^ 56 + d * 2 ^ 48 + s1 * 2 ^ 40 + s2 * 2 ^ 32 + 7 * 2 ^ 28 + 0 + i)
      / 2 ^ 40 % 256 = s1 := by
  rw [show o * 2 ^ 56 + d * 2 ^ 48 + s1 * 2 ^ 40 + s2 * 2 ^ 32 + 7 * 2 ^ 28 + 0 + i =
      (o * 2 ^ 16 + d * 2 ^ 8 + s1) * 2 ^ 40 + (s2 * 2 ^ 32 + 7 * 2 ^ 28 + i) by ring,
    div_mod_extract _ 40 _ 256 (by omega)]
  omega

/-- Second-source field of the re-encoded word. -/
theorem poly_f32 (o d s1 s2 i : Nat) (ho : o < 256) (hd : d < 256)
    (h1 : s1 < 256) (h2 : s2 < 256) (hi : i < 1048576) :
    (o * 2 ^ 56 + d * 2 ^ 48 + s1 * 2 ^ 40 + s2 * 2 ^ 32 + 7 * 2 ^ 28 + 0 + i)
      / 2 ^ 32 % 256 = s2 := by
  rw [show o * 2 ^ 56 + d * 2 ^ 48 + s1 * 2 ^ 40 + s2 * 2 ^ 32 + 7 * 2 ^ 28 + 0 + i =
      (o * 2 ^ 24 + d * 2 ^ 16 + s1 * 2 ^ 8 + s2) * 2 ^ 32 + (7 * 2 ^ 28 + i) by ring,
    div_mod_extract _ 32 _ 256 (by omega)]
  omega

/-- Predicate nibble of the re-encoded word is the default 0x7. -/
theorem poly_pred (o d s1 s2 i : Nat) (hi : i < 1048576) :
    (o * 2 ^ 56 + d * 2 ^ 48 + s1 * 2 ^ 40 + s2 * 2 ^ 32 + 7 * 2 ^ 28 + 0 + i)
      / 2 ^ 28 % 16 = 7 := by
  rw [show o * 2 ^ 56 + d * 2 ^ 48 + s1 * 2 ^ 40 + s2 * 2 ^ 32 + 7 * 2 ^ 28 + 0 + i =
      (o * 2 ^ 28 + d * 2 ^ 20 + s1 * 2 ^ 12 + s2 * 2 ^ 4 + 7) * 2 ^ 28 + i by ring,
    div_mod_extract _ 28 _ 16 (by omega)]
  omega

/-- The rs3 byte of the re-encoded word is zero. -/
theorem poly_rs3 (o d s1 s2 i : Nat) (hi : i < 1048576) :
    (o * 2 ^ 56 + d * 2 ^ 48 + s1 * 2 ^ 40 + s2 * 2 ^ 32 + 7 * 2 ^ 28 + 0 + i)
      / 2 ^ 20 % 256 = 0 := by
  rw [show o * 2 ^ 56 + d * 2 ^ 48 + s1 * 2 ^ 40 + s2 * 2 ^ 32 + 7 * 2 ^ 28 + 0 + i =
      (o * 2 ^ 36 + d * 2 ^ 28 + s1 * 2 ^ 20 + s2 * 2 ^ 12 + 7 * 2 ^ 8) * 2 ^ 20 + i by ring,
    div_mod_extract _ 20 _ 256 (by omega)]
  omega

/-- Low 20 bits of the re-encoded word. -/
theorem poly_imm (o d s1 s2 i : Nat) (hi : i < 1048576) :
    (o * 2 ^ 56 + d * 2 ^ 48 + s1 * 2 ^ 40 + s2 * 2 ^ 32 + 7 * 2 ^ 28 + 0 + i)
      % 1048576 = i := by
  rw [show o * 2 ^ 56 + d * 2 ^ 48 + s1 * 2 ^ 40 + s2 * 2 ^ 32 + 7 * 2 ^ 28 + 0 + i =
      1048576 * (o * 2 ^ 36 + d * 2 ^ 28 + s1 * 2 ^ 20 + s2 * 2 ^ 12 + 7 * 2 ^ 8) + i by ring,
    Nat.mul_add_mod]
  omega

/-- C3 (amended): for every 64-bit word `w`, `milo_encode_inst
(milo_decode_inst w)` agrees with `w` on the opcode (bits 63..56), rd
(55..48), rs1 (47..40), rs2 (39..32) and the low 20 immediate bits, while
the re-encoded predicate nibble at bits 31..28 is always `0x7` (decode
zeroes `pred` and the encoder substitutes the default) and bits 27..20 are
always zero (decode drops `rs3`, reporting a 2-operand form).  Hence the
predicate nibble round-trips exactly when `w`'s bits 31..28 were `0x7`,
not for every word. -/
theorem C3_encode_decode_fields (w : Nat) :
    (milo_encode_inst (milo_decode_inst w) >>> 56) &&& 255 = (w >>> 56) &&& 255 ∧
    (milo_encode_inst (milo_decode_inst w) >>> 48) &&& 255 = (w >>> 48) &&& 255 ∧
    (milo_encode_inst (milo_decode_inst w) >>> 40) &&& 255 = (w >>> 40) &&& 255 ∧
    (milo_encode_inst (milo_decode_inst w) >>> 32) &&& 255 = (w >>> 32) &&& 255 ∧
    milo_encode_inst (milo_decode_inst w) &&& 1048575 = w &&& 1048575 ∧
    (milo_encode_inst (milo_decode_inst w) >>> 28) &&& 15 = 7 ∧
    (milo_encode_inst (milo_decode_inst w) >>> 20) &&& 255 = 0 := by
  have harith := milo_encode_inst_arith (milo_decode_inst w)
    (and_255_lt _) (and_255_lt _) (and_255_lt _) (and_255_lt _)
    (by simp [milo_decode_inst])
  simp only [milo_decode_inst, ne_eq, not_true_eq_false, not_false_eq_true,
    ite_false, ite_true, Bool.false_eq_true, if_false] at harith ⊢
  rw [harith]
  simp only [Nat.shiftRight_eq_div_pow, and_255, and_15, and_fffff, and_ffffffff]
  refine ⟨poly_f56 _ _ _ _ _ (by omega) (by omega) (by omega) (by omega) (by omega),
    poly_f48 _ _ _ _ _ (by omega) (by omega) (by omega) (by omega) (by omega),
    poly_f40 _ _ _ _ _ (by omega) (by omega) (by omega) (by omega) (by omega),
    poly_f32 _ _ _ _ _ (by omega) (by omega) (by omega) (by omega) (by omega),
    ?_,
    poly_pred _ _ _ _ _ (by omega),
    poly_rs3 _ _ _ _ _ (by omega)⟩
  rw [poly_imm _ _ _ _ _ (by omega)]
  omega

/-! Assembler: `milo_asm_line`, `milo_asm_resolve`, `milo_asm_source` from
`milo_asm.c`.  C strings are `List Char`; the libc decimal/hex parsing of
`strtol` is embedded directly; `strtof` (used only for immediate operands
containing a dot) is a platform float routine and is threaded through as an
explicit parameter `fp`.  The C module keeps the unresolved-label array in
module-level static storage; here it is a field of the assembler state. -/

/-- Decidable equality for `Except`, so that concrete assembler and loader
runs can be checked by `decide`. -/
instance {ε α : Type} [DecidableEq ε] [DecidableEq α] : DecidableEq (Except ε α) := fun a b =>
  match a, b with
  | .ok x, .ok y =>
    if h : x = y then isTrue (h ▸ rfl) else isFalse fun hh => h (Except.ok.inj hh)
  | .error x, .error y =>
    if h : x = y then isTrue (h ▸ rfl) else isFalse fun hh => h (Except.error.inj hh)
  | .ok _, .error _ => isFalse Except.noConfusion
  | .error _, .ok _ => isFalse Except.noConfusion

/-- C `isspace` on the ASCII character set. -/
def c_isspace (c : Char) : Bool :=
  c = ' ' || c = '\t' || c = '\n' || c = '\x0b' || c = '\x0c' || c = '\r'

/-- C `tolower` on ASCII. -/
def c_tolower (c : Char) : Char :=
  if 'A' ≤ c && c ≤ 'Z' then Char.ofNat (c.toNat + 32) else c

/-- The `trim` helper of `milo_asm.c`: strip leading and trailing blanks. -/
def trim (s : List Char) : List Char :=
  ((s.dropWhile c_isspace).reverse.dropWhile c_isspace).reverse

/-- Digit-consuming loop of `strtol` in base 10. -/
def strtol_digits : List Char → Nat → Nat × List Char
  | [], acc => (acc, [])
  | c :: cs, acc =>
    if c.isDigit then strtol_digits cs (acc * 10 + (c.toNat - 48)) else (acc, c :: cs)

/-- Value of a hexadecimal digit. -/
def hexVal? (c : Char) : Option Nat :=
  if '0' ≤ c && c ≤ '9' then some (c.toNat - 48)
  else if 'a' ≤ c && c ≤ 'f' then some (c.toNat - 87)
  else if 'A' ≤ c && c ≤ 'F' then some (c.toNat - 55)
  else none

/-- Digit-consuming loop of `strtol` in base 16. -/
def strtol_hexdigits : List Char → Nat → Nat × List Char
  | [], acc => (acc, [])
  | c :: cs, acc =>
    match hexVal? c with
    | some v => strtol_hexdigits cs (acc * 16 + v)
    | none => (acc, c :: cs)

/-- C `strtol(s, &endp, 10)`: skip blanks, optional sign, decimal digits;
returns the value and the end pointer (the original string when no digit
was consumed). -/
def strtol10 (s : List Char) : Int × List Char :=
  let s1 := s.dropWhile c_isspace
  let signAndRest : Bool × List Char :=
    match s1 with
    | '-' :: r => (true, r)
    | '+' :: r => (false, r)
    | _ => (false, s1)
  match h : signAndRest.2 with
  | c :: _ =>
    if c.isDigit then
      let (n, e) := strtol_digits signAndRest.2 0
      ((if signAndRest.1 then -(n : Int) else (n : Int)), e)
    else (0, s)
  | [] => (0, s)

/-- C `strtol(s, &endp, 16)`: skip blanks, optional sign, optional `0x`
followed by hex digits.  A lone `0x` with no hex digit after it consumes
only the `0`. -/
def strtol16 (s : List Char) : Int × List Char :=
  let s1 := s.dropWhile c_isspace
  let signAndRest : Bool × List Char :=
    match s1 with
    | '-' :: r => (true, r)
    | '+' :: r => (false, r)
    | _ => (false, s1)
  let neg := signAndRest.1
  match signAndRest.2 with
  | '0' :: x :: r =>
    if x = 'x' || x = 'X' then
      if (r.head?.map fun c => (hexVal? c).isSome).getD false then
        let (n, e) := strtol_hexdigits r 0
        ((if neg then -(n : Int) else (n : Int)), e)
      else (0, x :: r)
    else
      let (n, e) := strtol_hexdigits ('0' :: x :: r) 0
      ((if neg then -(n : Int) else (n : Int)), e)
  | c :: r =>
    if (hexVal? c).isSome then
      let (n, e) := strtol_hexdigits (c :: r) 0
      ((if neg then -(n : Int) else (n : Int)), e)
    else (0, s)
  | [] => (0, s)

/-- `parse_register` of `milo_asm.c`: `r` or `R` followed by a decimal
number in 0..63, with nothing after it. -/
def parse_register (s : List Char) : Option Nat :=
  match s with
  | c :: rest =>
    if c = 'r' || c = 'R' then
      let (v, e) := strtol10 rest
      if e = [] ∧ 0 ≤ v ∧ v ≤ 63 then some v.toNat else none
    else none
  | [] => none

/-- `parse_immediate` of `milo_asm.c`: hex when the text begins `0x`/`0X`,
decimal otherwise; the `long` value is stored into a `uint32_t`. -/
def parse_immediate (s : List Char) : Option Nat :=
  let ve : Int × List Char :=
    match s with
    | '0' :: x :: _ => if x = 'x' || x = 'X' then strtol16 s else strtol10 s
    | _ => strtol10 s
  if ve.2 = [] then some (toBits32 ve.1) else none

/-- Opcode numbers from `milo_asm.h`. -/
def OP_NOP : Nat := 0x00
def OP_MOV : Nat := 0x07
def OP_EXIT : Nat := 0xFF
def OP_ADD : Nat := 0x01
def OP_SUB : Nat := 0x02
def OP_MUL : Nat := 0x03
def OP_IMAD : Nat := 0x05
def OP_NEG : Nat := 0x06
def OP_IDIV : Nat := 0x36
def OP_IREM : Nat := 0x37
def OP_IABS : Nat := 0x38
def OP_IMIN : Nat := 0x39
def OP_IMAX : Nat := 0x3A
def OP_SLT : Nat := 0x04
def OP_SLE : Nat := 0x70
def OP_SEQ : Nat := 0x71
def OP_AND : Nat := 0x50
def OP_OR : Nat := 0x51
def OP_XOR : Nat := 0x52
def OP_NOT : Nat := 0x53
def OP_SHL : Nat := 0x60
def OP_SHR : Nat := 0x61
def OP_SHA : Nat := 0x62
def OP_LDR : Nat := 0x10
def OP_STR : Nat := 0x11
def OP_LDS : Nat := 0x12
def OP_STS : Nat := 0x13
def OP_BEQ : Nat := 0x20
def OP_BNE : Nat := 0x21
def OP_BRA : Nat := 0x22
def OP_SSY : Nat := 0x23
def OP_JOIN : Nat := 0x24
def OP_BAR : Nat := 0x25
def OP_TID : Nat := 0x26
def OP_CALL : Nat := 0x27
def OP_RET : Nat := 0x28
def OP_FADD : Nat := 0x30
def OP_FSUB : Nat := 0x31
def OP_FMUL : Nat := 0x32
def OP_FDIV : Nat := 0x33
def OP_FTOI : Nat := 0x34
def OP_FFMA : Nat := 0x35
def OP_FMIN : Nat := 0x3B
def OP_FMAX : Nat := 0x3C
def OP_FABS : Nat := 0x3D
def OP_ITOF : Nat := 0x3E
def OP_FNEG : Nat := 0x54
def OP_FSLT : Nat := 0x72
def OP_FSLE : Nat := 0x73
def OP_FSEQ : Nat := 0x74
def OP_POPC : Nat := 0x68
def OP_CLZ : Nat := 0x69
def OP_BREV : Nat := 0x6A
def OP_CNOT : Nat := 0x6B
def OP_ISETP : Nat := 0x80
def OP_FSETP : Nat := 0x81
def OP_SELP : Nat := 0x82
def OP_SFU_SIN : Nat := 0x40
def OP_SFU_COS : Nat := 0x41
def OP_SFU_EX2 : Nat := 0x42
def OP_SFU_LG2 : Nat := 0x43
def OP_SFU_RCP : Nat := 0x44
def OP_SFU_RSQ : Nat := 0x45
def OP_SFU_SQRT : Nat := 0x46
def OP_SFU_TANH : Nat := 0x47
def OP_TEX : Nat := 0x90
def OP_TXL : Nat := 0x91
def OP_TXB : Nat := 0x92

/-- One row of the assembler's mnemonic table. -/
structure opcode_entry where
  name : String
  opcode : Nat
  num_args : Nat
  format : String
deriving Repr, DecidableEq

set_option maxHeartbeats 1000000 in
/-- The `opcode_table` of `milo_asm.c`, in source order. -/
def opcode_table : List opcode_entry := [
  ⟨"nop", OP_NOP, 0, ""⟩, ⟨"exit", OP_EXIT, 0, ""⟩, ⟨"mov", OP_MOV, 2, "rr"⟩,
  ⟨"add", OP_ADD, 3, "rrr"⟩, ⟨"sub", OP_SUB, 3, "rrr"⟩, ⟨"mul", OP_MUL, 3, "rrr"⟩,
  ⟨"imad", OP_IMAD, 4, "rrrr"⟩, ⟨"neg", OP_NEG, 2, "rr"⟩,
  ⟨"idiv", OP_IDIV, 3, "rrr"⟩, ⟨"irem", OP_IREM, 3, "rrr"⟩,
  ⟨"iabs", OP_IABS, 2, "rr"⟩, ⟨"imin", OP_IMIN, 3, "rrr"⟩, ⟨"imax", OP_IMAX, 3, "rrr"⟩,
  ⟨"slt", OP_SLT, 3, "rrr"⟩, ⟨"sle", OP_SLE, 3, "rrr"⟩, ⟨"seq", OP_SEQ, 3, "rrr"⟩,
  ⟨"and", OP_AND, 3, "rrr"⟩, ⟨"or", OP_OR, 3, "rrr"⟩, ⟨"xor", OP_XOR, 3, "rrr"⟩,
  ⟨"not", OP_NOT, 2, "rr"⟩,
  ⟨"shl", OP_SHL, 3, "rrr"⟩, ⟨"shr", OP_SHR, 3, "rrr"⟩, ⟨"sha", OP_SHA, 3, "rrr"⟩,
  ⟨"ldr", OP_LDR, 2, "rr"⟩, ⟨"str", OP_STR, 2, "rr"⟩,
  ⟨"lds", OP_LDS, 2, "rr"⟩, ⟨"sts", OP_STS, 2, "rr"⟩,
  ⟨"beq", OP_BEQ, 3, "rrl"⟩, ⟨"bne", OP_BNE, 3, "rrl"⟩, ⟨"bra", OP_BRA, 1, "l"⟩,
  ⟨"ssy", OP_SSY, 1, "l"⟩, ⟨"join", OP_JOIN, 0, ""⟩, ⟨"bar", OP_BAR, 1, "i"⟩,
  ⟨"tid", OP_TID, 1, "r"⟩, ⟨"call", OP_CALL, 1, "l"⟩, ⟨"ret", OP_RET, 0, ""⟩,
  ⟨"fadd", OP_FADD, 3, "rrr"⟩, ⟨"fsub", OP_FSUB, 3, "rrr"⟩, ⟨"fmul", OP_FMUL, 3, "rrr"⟩,
  ⟨"fdiv", OP_FDIV, 3, "rrr"⟩, ⟨"ffma", OP_FFMA, 4, "rrrr"⟩,
  ⟨"ftoi", OP_FTOI, 2, "rr"⟩, ⟨"itof", OP_ITOF, 2, "rr"⟩,
  ⟨"fmin", OP_FMIN, 3, "rrr"⟩, ⟨"fmax", OP_FMAX, 3, "rrr"⟩,
  ⟨"fabs", OP_FABS, 2, "rr"⟩, ⟨"fneg", OP_FNEG, 2, "rr"⟩,
  ⟨"fslt", OP_FSLT, 3, "rrr"⟩, ⟨"fsle", OP_FSLE, 3, "rrr"⟩, ⟨"fseq", OP_FSEQ, 3, "rrr"⟩,
  ⟨"popc", OP_POPC, 2, "rr"⟩, ⟨"clz", OP_CLZ, 2, "rr"⟩,
  ⟨"brev", OP_BREV, 2, "rr"⟩, ⟨"cnot", OP_CNOT, 2, "rr"⟩,
  ⟨"isetp", OP_ISETP, 3, "rrr"⟩, ⟨"fsetp", OP_FSETP, 3, "rrr"⟩,
  ⟨"selp", OP_SELP, 4, "rrrr"⟩,
  ⟨"sin", OP_SFU_SIN, 2, "rr"⟩, ⟨"cos", OP_SFU_COS, 2, "rr"⟩,
  ⟨"ex2", OP_SFU_EX2, 2, "rr"⟩, ⟨"lg2", OP_SFU_LG2, 2, "rr"⟩,
  ⟨"rcp", OP_SFU_RCP, 2, "rr"⟩, ⟨"rsq", OP_SFU_RSQ, 2, "rr"⟩,
  ⟨"sqrt", OP_SFU_SQRT, 2, "rr"⟩, ⟨"tanh", OP_SFU_TANH, 2, "rr"⟩,
  ⟨"tex", OP_TEX, 3, "rrr"⟩, ⟨"txl", OP_TXL, 4, "rrrr"⟩, ⟨"txb", OP_TXB, 4, "rrrr"⟩,
  ⟨"addi", OP_ADD, 3, "rri"⟩, ⟨"subi", OP_SUB, 3, "rri"⟩, ⟨"muli", OP_MUL, 3, "rri"⟩,
  ⟨"andi", OP_AND, 3, "rri"⟩, ⟨"ori", OP_OR, 3, "rri"⟩, ⟨"xori", OP_XOR, 3, "rri"⟩,
  ⟨"shli", OP_SHL, 3, "rri"⟩, ⟨"shri", OP_SHR, 3, "rri"⟩, ⟨"shai", OP_SHA, 3, "rri"⟩]

/-- `find_opcode`: the mnemonic has already been lowered character by
character, and every table name is lowercase, so `strcasecmp` is equality. -/
def find_opcode (m : List Char) : Option opcode_entry :=
  List.find? (fun e => e.name.toList == m) opcode_table

/-- An entry of the module-static `unresolved` array of `milo_asm.c`. -/
structure unresolved_t where
  address : Nat
  label : List Char
  line : Nat
deriving Repr, DecidableEq

/-- The `milo_asm_t` state, together with the module-static unresolved-label
array, which the C keeps outside the struct. -/
structure milo_asm_state where
  code : List Nat := []
  labels : List (List Char × Nat) := []
  unresolved : List unresolved_t := []
deriving Repr, DecidableEq

/-- Split a character list at every comma (the operand splitting loop of
`milo_asm_line`, which overwrites each comma with a terminator). -/
def splitComma : List Char → List (List Char)
  | [] => [[]]
  | c :: cs =>
    if c = ',' then [] :: splitComma cs
    else
      match splitComma cs with
      | p :: ps => (c :: p) :: ps
      | [] => [[c]]

/-- The operand-to-field loop of `milo_asm_line`: format character `j` maps
the `j`-th operand onto `rd`, `rs1`, `rs2`, then `rs3`; `i` operands parse
as floats when they contain a dot (via the platform routine `fp`) and as
integers otherwise; `l` operands record an unresolved label against the
current code index and leave a zero placeholder immediate. -/
def asm_apply_fmt (fp : List Char → Option Nat) (line_num : Nat) :
    List Char → List (List Char) → Nat → milo_inst → milo_asm_state →
    Except (String × Nat) (milo_inst × milo_asm_state)
  | [], _, _, inst, st => .ok (inst, st)
  | _, [], _, inst, st => .ok (inst, st)
  | f :: fs, arg :: rest, j, inst, st =>
    if f = 'r' then
      match parse_register arg with
      | none => .error ("Invalid register: " ++ String.mk arg, line_num)
      | some reg =>
        let inst := if j = 0 then { inst with rd := reg }
          else if j = 1 then { inst with rs1 := reg }
          else if j = 2 then { inst with rs2 := reg }
          else { inst with rs3 := reg, has_rs3 := true }
        asm_apply_fmt fp line_num fs rest (j + 1) inst st
    else if f = 'i' then
      if arg.contains '.' then
        match fp arg with
        | none => .error ("Invalid float: " ++ String.mk arg, line_num)
        | some bits =>
          asm_apply_fmt fp line_num fs rest (j + 1)
            { inst with imm := bits, has_imm := true } st
      else
        match parse_immediate arg with
        | none => .error ("Invalid immediate: " ++ String.mk arg, line_num)
        | some v =>
          asm_apply_fmt fp line_num fs rest (j + 1)
            { inst with imm := v, has_imm := true } st
    else if f = 'l' then
      if 256 ≤ st.unresolved.length then
        .error ("Too many unresolved labels", line_num)
      else
        asm_apply_fmt fp line_num fs rest (j + 1)
          { inst with imm := 0, has_imm := true }
          { st with unresolved :=
              st.unresolved ++ [⟨st.code.length, arg.take 63, line_num⟩] }
    else
      asm_apply_fmt fp line_num fs rest (j + 1) inst st

/-- Mnemonic lookup and instruction emission half of `milo_asm_line`
(everything after label handling). -/
def milo_asm_line_inst (fp : List Char → Option Nat) (as : milo_asm_state)
    (p : List Char) (line_num : Nat) : Except (String × Nat) milo_asm_state :=
  let mnem_raw := p.takeWhile fun c => ¬ c_isspace c
  let consumed := min mnem_raw.length 31
  let mnemonic := (mnem_raw.take 31).map c_tolower
  let rest := (p.drop consumed).dropWhile c_isspace
  match find_opcode mnemonic with
  | none => .error ("Unknown instruction: " ++ String.mk mnemonic, line_num)
  | some op =>
    let operands := if rest.isEmpty then [] else ((splitComma rest).take 4).map trim
    match asm_apply_fmt fp line_num op.format.toList operands 0 { opcode := op.opcode } as with
    | .error e => .error e
    | .ok (inst, st) =>
      if 4096 ≤ st.code.length then .error ("Code too large", line_num)
      else .ok { st with code := st.code ++ [milo_encode_inst inst] }

/-- `milo_asm_line` of `milo_asm.c`: truncate to the line buffer size, strip
`;` and `#` comments, trim, record an optional `label:` at the current code
index, then assemble the mnemonic and operands. -/
def milo_asm_line (fp : List Char → Option Nat) (as : milo_asm_state)
    (line : List Char) (line_num : Nat) : Except (String × Nat) milo_asm_state :=
  let buf := ((line.take 255).takeWhile fun c => c ≠ ';').takeWhile fun c => c ≠ '#'
  let p := trim buf
  if p.isEmpty then .ok as
  else
    let pre := p.takeWhile fun c => c ≠ ':'
    if pre.length < p.length then
      if 256 ≤ as.labels.length then .error ("Too many labels", line_num)
      else
        let as := { as with labels := as.labels ++ [((trim pre).take 63, as.code.length)] }
        let p2 := trim (p.drop (pre.length + 1))
        if p2.isEmpty then .ok as
        else milo_asm_line_inst fp as p2 line_num
    else milo_asm_line_inst fp as p line_num

/-- Patch loop of `milo_asm_resolve`: for each unresolved reference, find
the first matching label and OR its address into the cleared low 32 bits of
the referencing instruction. -/
def milo_asm_resolve_go (labels : List (List Char × Nat)) :
    List unresolved_t → List Nat → Except (String × Nat) (List Nat)
  | [], code => .ok code
  | u :: us, code =>
    match labels.find? fun l => l.1 == u.label with
    | some l =>
      milo_asm_resolve_go labels us
        (code.set u.address ((code.getD u.address 0 &&& 18446744069414584320) ||| l.2))
    | none => .error ("Undefined label: " ++ String.mk u.label, u.line)

/-- `milo_asm_resolve` of `milo_asm.c`. -/
def milo_asm_resolve (as : milo_asm_state) : Except (String × Nat) milo_asm_state :=
  match milo_asm_resolve_go as.labels as.unresolved as.code with
  | .ok code => .ok { as with code := code, unresolved := [] }
  | .error e => .error e

/-- Line extraction of `milo_asm_source`: lines end at a newline or at the
255-character line-buffer limit (an overlong line continues as the next
line).  Structured with fuel so that the definition computes; fuel
`length + 1` always suffices since each step consumes at least a char. -/
def splitLines : Nat → List Char → List (List Char)
  | 0, _ => []
  | _, [] => []
  | fuel + 1, cs =>
    let pre := cs.takeWhile fun c => c ≠ '\n'
    if 255 < pre.length then cs.take 255 :: splitLines fuel (cs.drop 255)
    else if pre.length = cs.length then [pre]
    else pre :: splitLines fuel (cs.drop (pre.length + 1))

/-- Per-line fold of `milo_asm_source`, then label resolution. -/
def asm_source_go (fp : List Char → Option Nat) :
    milo_asm_state → List (List Char) → Nat → Except (String × Nat) milo_asm_state
  | as, [], _ => milo_asm_resolve as
  | as, l :: ls, n =>
    match milo_asm_line fp as l n with
    | .error e => .error e
    | .ok as' => asm_source_go fp as' ls (n + 1)

/-- `milo_asm_source` of `milo_asm.c`: reset the unresolved list, assemble
line by line from line number 1, then resolve labels. -/
def milo_asm_source (fp : List Char → Option Nat) (as : milo_asm_state)
    (source : List Char) : Except (String × Nat) milo_asm_state :=
  asm_source_go fp { as with unresolved := [] }
    (splitLines (source.length + 1) source) 1

/-! Virtual machine: `milo_vm.c`.  Register cells, memory cells and
uniforms hold 32-bit patterns as `Nat`.  Arithmetic libc float operations
are a `FloatOps` parameter; the bit-level float facts that the C source
itself branches on (zero tests, sign tests, NaN-ness, the literal patterns
of `0.0f` and `INFINITY`) are embedded exactly from IEEE-754 binary32. -/

/-- Pointwise function update for register and memory files. -/
def updFn (f : Nat → Nat) (i v : Nat) : Nat → Nat :=
  fun j => if j = i then v else f j

/-- Sign bit of a binary32 pattern. -/
def signF (b : Nat) : Nat := b / 2147483648 % 2

/-- Exponent field of a binary32 pattern. -/
def expF (b : Nat) : Nat := b / 8388608 % 256

/-- Mantissa field of a binary32 pattern. -/
def manF (b : Nat) : Nat := b % 8388608

/-- The C comparison `x == 0.0f` at the bit level: the two float zeros are
exactly the patterns with all low 31 bits clear. -/
def isZeroF (b : Nat) : Bool := b % 2147483648 == 0

/-- NaN patterns: exponent all ones with a nonzero mantissa. -/
def isNaNF (b : Nat) : Bool := expF b == 255 && manF b != 0

/-- The C comparison `x <= 0.0f` at the bit level (false on NaN). -/
def leZeroF (b : Nat) : Bool := !isNaNF b && (isZeroF b || signF b == 1)

/-- The C comparison `x < 0.0f` at the bit level (false on NaN and on both
zeros). -/
def ltZeroF (b : Nat) : Bool := !isNaNF b && signF b == 1 && !isZeroF b

/-- Bit pattern of `INFINITY` as binary32. -/
def INF_BITS : Nat := 2139095040

/-- Bit pattern of `-INFINITY` as binary32. -/
def NEG_INF_BITS : Nat := 4286578688

/-- Exact rational value of a finite binary32 pattern, used only where the
VM hands register contents to the texture sampler.  Infinities are mapped
to `±2^128` and NaN to `0`; no verified claim exercises those cases. -/
def qOfBits (b : Nat) : ℚ :=
  let s : ℚ := if signF b = 1 then -1 else 1
  if expF b = 255 then (if manF b = 0 then s * 2 ^ 128 else 0)
  else if expF b = 0 then s * (manF b : ℚ) / 2 ^ 149
  else s * ((2 ^ 23 + manF b : ℚ)) * 2 ^ expF b / 2 ^ 150

/-- The platform float routines the VM calls (libm and C float arithmetic),
threaded through as opaque 32-bit-pattern functions.  `fdiv` is consulted
only with a nonzero divisor, and each SFU entry only after the guard the C
source places in front of it.  `chan` is the pattern of `(float)n / 255.0f`
used by the texture unpack. -/
structure FloatOps where
  fadd : Nat → Nat → Nat
  fsub : Nat → Nat → Nat
  fmul : Nat → Nat → Nat
  fdiv : Nat → Nat → Nat
  ffma : Nat → Nat → Nat → Nat
  fneg : Nat → Nat
  fabs : Nat → Nat
  fmin : Nat → Nat → Nat
  fmax : Nat → Nat → Nat
  ftoi : Nat → Nat
  itof : Nat → Nat
  flt : Nat → Nat → Bool
  fle : Nat → Nat → Bool
  feq : Nat → Nat → Bool
  sin : Nat → Nat
  cos : Nat → Nat
  ex2 : Nat → Nat
  lg2 : Nat → Nat
  rcp : Nat → Nat
  rsq : Nat → Nat
  sqrtf : Nat → Nat
  tanh : Nat → Nat
  chan : Nat → Nat

/-- A do-nothing float library used to instantiate witnesses; the theorems
hold for every `FloatOps`. -/
def zeroFloatOps : FloatOps where
  fadd := fun _ _ => 0
  fsub := fun _ _ => 0
  fmul := fun _ _ => 0
  fdiv := fun _ _ => 0
  ffma := fun _ _ _ => 0
  fneg := fun _ => 0
  fabs := fun _ => 0
  fmin := fun _ _ => 0
  fmax := fun _ _ => 0
  ftoi := fun _ => 0
  itof := fun _ => 0
  flt := fun _ _ => false
  fle := fun _ _ => false
  feq := fun _ _ => false
  sin := fun _ => 0
  cos := fun _ => 0
  ex2 := fun _ => 0
  lg2 := fun _ => 0
  rcp := fun _ => 0
  rsq := fun _ => 0
  sqrtf := fun _ => 0
  tanh := fun _ => 0
  chan := fun _ => 0

/-! Texture sampling (`milo_texture_sample` of `milo_vm.c`).  Coordinates
are modelled in exact rational arithmetic: on the nearest-neighbour path
every C float operation involved (clamp, `u - floorf(u)`, multiplication by
the integer `dim-1`, adding `0.5f`, truncating to `int`) is computed here
without rounding. -/

/-- The `milo_texture_t` record.  A NULL `pixels` pointer is modelled as the
empty list. -/
structure milo_texture where
  pixels : List Nat
  width : Int
  height : Int
  wrap_s : Bool
  wrap_t : Bool
  filter : Bool

/-- C truncation `(int)q` of a rational value: rounds toward zero. -/
def ctrunc (q : ℚ) : Int := Int.tdiv q.num (q.den : Int)

/-- One channel of the bilinear interpolation loop. -/
def bilerp_chan (p00 p10 p01 p11 : Nat) (dx dy : ℚ) (c : Nat) : Nat :=
  let shift := c * 8
  let c00 : ℚ := ((p00 >>> shift) &&& 255 : Nat)
  let c10 : ℚ := ((p10 >>> shift) &&& 255 : Nat)
  let c01 : ℚ := ((p01 >>> shift) &&& 255 : Nat)
  let c11 : ℚ := ((p11 >>> shift) &&& 255 : Nat)
  let c0 := c00 + dx * (c10 - c00)
  let c1 := c01 + dx * (c11 - c01)
  let cf := c0 + dy * (c1 - c0)
  let ci := ctrunc (cf + 1 / 2)
  let ci := if ci < 0 then 0 else ci
  let ci := if 255 < ci then 255 else ci
  ci.toNat <<< shift

/-- `milo_texture_sample` of `milo_vm.c` in exact rational arithmetic. -/
def milo_texture_sample (tex : milo_texture) (u v : ℚ) : Nat :=
  if tex.pixels = [] then 4294902015
  else
    let u := if tex.wrap_s then u - (⌊u⌋ : ℚ) else max 0 (min 1 u)
    let v := if tex.wrap_t then v - (⌊v⌋ : ℚ) else max 0 (min 1 v)
    let fx : ℚ := u * ((tex.width - 1 : Int) : ℚ)
    let fy : ℚ := v * ((tex.height - 1 : Int) : ℚ)
    if tex.filter then
      let x0 := ⌊fx⌋
      let y0 := ⌊fy⌋
      let x1 := if tex.width ≤ x0 + 1 then tex.width - 1 else x0 + 1
      let y1 := if tex.height ≤ y0 + 1 then tex.height - 1 else y0 + 1
      let dx := fx - (x0 : ℚ)
      let dy := fy - (y0 : ℚ)
      let p00 := tex.pixels.getD (y0 * tex.width + x0).toNat 0
      let p10 := tex.pixels.getD (y0 * tex.width + x1).toNat 0
      let p01 := tex.pixels.getD (y1 * tex.width + x0).toNat 0
      let p11 := tex.pixels.getD (y1 * tex.width + x1).toNat 0
      bilerp_chan p00 p10 p01 p11 dx dy 0 |||
        bilerp_chan p00 p10 p01 p11 dx dy 1 |||
        bilerp_chan p00 p10 p01 p11 dx dy 2 |||
        bilerp_chan p00 p10 p01 p11 dx dy 3
    else
      let x := ctrunc (fx + 1 / 2)
      let y := ctrunc (fy + 1 / 2)
      let x := if tex.width ≤ x then tex.width - 1 else x
      let y := if tex.height ≤ y then tex.height - 1 else y
      tex.pixels.getD (y * tex.width + x).toNat 0

/-- The `milo_vm_t` state.  The C register array has 64 cells indexed by
8-bit instruction fields; the file is modelled as a total map (the
assembler only produces indices 0..63).  The divergence and return stacks
are lists with their top at the head. -/
structure milo_vm where
  regs : Nat → Nat
  code : List Nat
  pc : Nat
  div_stack : List Nat
  ret_stack : List Nat
  uniforms : Nat → Nat
  textures : Nat → Option milo_texture
  mem : Nat → Nat
  running : Bool
  discarded : Bool
  cycle_count : Nat
  max_cycles : Nat
  error : Option String

/-- `milo_vm_init`: zero everything, then set the watchdog. -/
def milo_vm_init : milo_vm where
  regs := fun _ => 0
  code := []
  pc := 0
  div_stack := []
  ret_stack := []
  uniforms := fun _ => 0
  textures := fun _ => none
  mem := fun _ => 0
  running := false
  discarded := false
  cycle_count := 0
  max_cycles := 100000
  error := none

/-- Store into a register cell: the C cell is 32 bits wide, so the stored
pattern is reduced mod `2^32`. -/
def wreg (vm : milo_vm) (r v : Nat) : milo_vm :=
  { vm with regs := updFn vm.regs r (v % 4294967296) }

/-- Store into a memory word cell (also 32 bits wide). -/
def wmem (vm : milo_vm) (i v : Nat) : milo_vm :=
  { vm with mem := updFn vm.mem i (v % 4294967296) }

/-- `inst_imm` of `milo_vm.c`: the low 20 bits sign-extended to a 32-bit
pattern. -/
def inst_imm (w : Nat) : Nat :=
  let v := w &&& 1048575
  if v &&& 524288 ≠ 0 then v ||| 4293918720 else v

/-- The `while (v) { count += v & 1; v >>= 1; }` loop of `OP_POPC`;
32 iterations suffice for any 32-bit register value. -/
def popc_loop : Nat → Nat → Nat
  | 0, _ => 0
  | fuel + 1, v => if v = 0 then 0 else v % 2 + popc_loop fuel (v / 2)

/-- The count-down loop of `OP_CLZ`: count leading zero bits from bit 31. -/
def clz_loop (v : Nat) : Nat → Nat
  | 0 => 0
  | k + 1 => if v.testBit k then 0 else 1 + clz_loop v k

/-- The bit-reversal loop of `OP_BREV`. -/
def brev_loop (v : Nat) : Nat → Nat
  | 0 => 0
  | k + 1 => brev_loop v k ||| (((v >>> k) &&& 1) <<< (31 - k))

/-- The opcode dispatch of `vm_step` (`milo_vm.c`): `vm` is the machine
state with register 0 forced to zero and `pc` and the cycle counter already
advanced, and the decoded fields and source values are passed in.  A `.inl`
result is an early `return`; a `.inr` result falls through to the bottom of
`vm_step`. -/
def vm_dispatch (fops : FloatOps) (vm : milo_vm)
    (op rd rs1 rs2 rs3 imm u1 u2 : Nat) (i1 i2 : Int) :
    Sum (Bool × milo_vm) milo_vm :=
  if op = OP_NOP then .inr vm
      else if op = OP_EXIT then .inl (false, { vm with running := false })
      else if op = OP_MOV then .inr (wreg vm rd u1)
      else if op = OP_ADD then
        .inr (wreg vm rd (if imm ≠ 0 then toBits32 (i1 + toInt32 imm) else toBits32 (i1 + i2)))
      else if op = OP_SUB then .inr (wreg vm rd (toBits32 (i1 - i2)))
      else if op = OP_MUL then .inr (wreg vm rd (toBits32 (i1 * i2)))
      else if op = OP_NEG then .inr (wreg vm rd (toBits32 (-i1)))
      else if op = OP_IDIV then
        .inr (wreg vm rd (if i2 = 0 then 0 else toBits32 (Int.tdiv i1 i2)))
      else if op = OP_IREM then
        .inr (wreg vm rd (if i2 = 0 then 0 else toBits32 (Int.tmod i1 i2)))
      else if op = OP_IABS then
        .inr (wreg vm rd (toBits32 (if i1 < 0 then -i1 else i1)))
      else if op = OP_IMIN then
        .inr (wreg vm rd (toBits32 (if i1 < i2 then i1 else i2)))
      else if op = OP_IMAX then
        .inr (wreg vm rd (toBits32 (if i2 < i1 then i1 else i2)))
      else if op = OP_IMAD then
        .inr (wreg vm rd (toBits32 (i1 * i2 + toInt32 (vm.regs rs3))))
      else if op = OP_SLT then .inr (wreg vm rd (if i1 < i2 then 1 else 0))
      else if op = OP_SLE then .inr (wreg vm rd (if i1 ≤ i2 then 1 else 0))
      else if op = OP_SEQ then .inr (wreg vm rd (if i1 = i2 then 1 else 0))
      else if op = OP_AND then .inr (wreg vm rd (u1 &&& u2))
      else if op = OP_OR then .inr (wreg vm rd (u1 ||| u2))
      else if op = OP_XOR then .inr (wreg vm rd (u1 ^^^ u2))
      else if op = OP_NOT then .inr (wreg vm rd (u1 ^^^ 4294967295))
      else if op = OP_SHL then .inr (wreg vm rd (u1 <<< (u2 % 32)))
      else if op = OP_SHR then .inr (wreg vm rd (u1 >>> (u2 % 32)))
      else if op = OP_SHA then .inr (wreg vm rd (toBits32 (Int.shiftRight i1 (u2 % 32))))
      else if op = OP_FADD then .inr (wreg vm rd (fops.fadd u1 u2))
      else if op = OP_FSUB then .inr (wreg vm rd (fops.fsub u1 u2))
      else if op = OP_FMUL then .inr (wreg vm rd (fops.fmul u1 u2))
      else if op = OP_FDIV then
        .inr (wreg vm rd (if isZeroF u2 then 0 else fops.fdiv u1 u2))
      else if op = OP_FFMA then .inr (wreg vm rd (fops.ffma u1 u2 (vm.regs rs3)))
      else if op = OP_FNEG then .inr (wreg vm rd (fops.fneg u1))
      else if op = OP_FABS then .inr (wreg vm rd (fops.fabs u1))
      else if op = OP_FMIN then .inr (wreg vm rd (fops.fmin u1 u2))
      else if op = OP_FMAX then .inr (wreg vm rd (fops.fmax u1 u2))
      else if op = OP_FTOI then .inr (wreg vm rd (fops.ftoi u1))
      else if op = OP_ITOF then .inr (wreg vm rd (fops.itof u1))
      else if op = OP_FSLT then .inr (wreg vm rd (if fops.flt u1 u2 then 1 else 0))
      else if op = OP_FSLE then .inr (wreg vm rd (if fops.fle u1 u2 then 1 else 0))
      else if op = OP_FSEQ then .inr (wreg vm rd (if fops.feq u1 u2 then 1 else 0))
      else if op = OP_SFU_SIN then .inr (wreg vm rd (fops.sin u1))
      else if op = OP_SFU_COS then .inr (wreg vm rd (fops.cos u1))
      else if op = OP_SFU_EX2 then .inr (wreg vm rd (fops.ex2 u1))
      else if op = OP_SFU_LG2 then
        .inr (wreg vm rd (if leZeroF u1 then NEG_INF_BITS else fops.lg2 u1))
      else if op = OP_SFU_RCP then
        .inr (wreg vm rd (if isZeroF u1 then INF_BITS else fops.rcp u1))
      else if op = OP_SFU_RSQ then
        .inr (wreg vm rd (if leZeroF u1 then INF_BITS else fops.rsq u1))
      else if op = OP_SFU_SQRT then
        .inr (wreg vm rd (if ltZeroF u1 then 0 else fops.sqrtf u1))
      else if op = OP_SFU_TANH then .inr (wreg vm rd (fops.tanh u1))
      else if op = OP_POPC then .inr (wreg vm rd (popc_loop 32 u1))
      else if op = OP_CLZ then .inr (wreg vm rd (clz_loop u1 32))
      else if op = OP_BREV then .inr (wreg vm rd (brev_loop u1 32))
      else if op = OP_CNOT then .inr (wreg vm rd (if u1 = 0 then 1 else 0))
      else if op = OP_SELP then
        .inr (wreg vm rd (if toInt32 (vm.regs rs3) ≠ 0 then u1 else u2))
      else if op = OP_BRA then .inr { vm with pc := imm }
      else if op = OP_BEQ then .inr (if i1 = i2 then { vm with pc := imm } else vm)
      else if op = OP_BNE then .inr (if i1 ≠ i2 then { vm with pc := imm } else vm)
      else if op = OP_SSY then
        .inr (if vm.div_stack.length < 256 then
          { vm with div_stack := imm :: vm.div_stack } else vm)
      else if op = OP_JOIN then .inr { vm with div_stack := vm.div_stack.tail }
      else if op = OP_CALL then
        .inr { vm with
          ret_stack := if vm.ret_stack.length < 256 then vm.pc :: vm.ret_stack
            else vm.ret_stack,
          pc := imm }
      else if op = OP_RET then
        match vm.ret_stack with
        | [] => .inl (false, { vm with running := false })
        | a :: rest => .inr { vm with pc := a, ret_stack := rest }
      else if op = OP_TID then .inr (wreg vm rd 0)
      else if op = OP_BAR then .inr vm
      else if op = OP_TEX then
        let unit := toInt32 u1
        if h : 0 ≤ unit ∧ unit < 8 then
          match vm.textures unit.toNat with
          | some tex =>
            let rgba := milo_texture_sample tex (qOfBits u2) (qOfBits (vm.regs (rs2 + 1)))
            let vm := wreg vm rd (fops.chan ((rgba >>> 0) &&& 255))
            let vm := wreg vm (rd + 1) (fops.chan ((rgba >>> 8) &&& 255))
            let vm := wreg vm (rd + 2) (fops.chan ((rgba >>> 16) &&& 255))
            .inr (wreg vm (rd + 3) (fops.chan ((rgba >>> 24) &&& 255)))
          | none =>
            let vm := wreg vm rd 1065353216
            let vm := wreg vm (rd + 1) 0
            let vm := wreg vm (rd + 2) 1065353216
            .inr (wreg vm (rd + 3) 1065353216)
        else
          let vm := wreg vm rd 1065353216
          let vm := wreg vm (rd + 1) 0
          let vm := wreg vm (rd + 2) 1065353216
          .inr (wreg vm (rd + 3) 1065353216)
      else if op = OP_LDR then
        let addr := (u1 + imm) % 4294967296
        .inr (wreg vm rd (if addr < 8192 then vm.mem (addr / 4) else 0))
      else if op = OP_STR then
        let addr := (u1 + imm) % 4294967296
        .inr (if addr < 8192 then wmem vm (addr / 4) u2 else vm)
      else if op = OP_LDS then .inr vm
      else if op = OP_STS then .inr vm
      else
        let msg := "Unknown opcode: " ++ toString op ++ " at PC " ++ toString (vm.pc - 1)
        .inl (false, { vm with error := some msg })

/-- One step of the interpreter (`vm_step` of `milo_vm.c`): bounds-check the
program counter, fetch and decode, force register 0 to zero, read the
sources, advance `pc` and the cycle counter, dispatch on the opcode, and
force register 0 to zero again on every non-halting path. -/
def vm_step (fops : FloatOps) (vm0 : milo_vm) : Bool × milo_vm :=
  if vm0.code.length ≤ vm0.pc then
    (false, { vm0 with error := some ("PC out of bounds: " ++ toString vm0.pc) })
  else
    let inst := vm0.code.getD vm0.pc 0
    let op := (inst >>> 56) &&& 255
    let rd := (inst >>> 48) &&& 255
    let rs1 := (inst >>> 40) &&& 255
    let rs2 := (inst >>> 32) &&& 255
    let imm := inst_imm inst
    let rs3 := (inst >>> 20) &&& 255
    let vm := { vm0 with regs := updFn vm0.regs 0 0 }
    let u1 := vm.regs rs1
    let u2 := vm.regs rs2
    let i1 := toInt32 u1
    let i2 := toInt32 u2
    let vm := { vm with pc := vm.pc + 1, cycle_count := vm.cycle_count + 1 }
    match vm_dispatch fops vm op rd rs1 rs2 rs3 imm u1 u2 i1 i2 with
    | .inl r => r
    | .inr vm' => (true, { vm' with regs := updFn vm'.regs 0 0 })

/-- The fetch-execute loop of `milo_vm_exec_fragment` /
`milo_vm_exec_vertex`: run while `running` and under the cycle budget,
stopping when a step reports a halt.  A fuel of `max_cycles + 1` is always
enough, since every continuing step increments `cycle_count`. -/
def vm_run (fops : FloatOps) : Nat → milo_vm → milo_vm
  | 0, vm => vm
  | fuel + 1, vm =>
    if vm.running = true ∧ vm.cycle_count < vm.max_cycles then
      match vm_step fops vm with
      | (true, vm') => vm_run fops fuel vm'
      | (false, vm') => vm'
    else vm

/-- `milo_vm_load_binary` of `milo_vm.c`. -/
def milo_vm_load_binary (vm : milo_vm) (code : List Nat) : Bool × milo_vm :=
  if 4096 < code.length then
    let msg := "Code too large (" ++ toString code.length ++ " > 4096)"
    (false, { vm with error := some msg })
  else (true, { vm with code := code })

/-- The hand-rolled hex-digit loop of the `.data` scan in
`milo_vm_load_asm`; the accumulator is a C `uint32_t`. -/
def scan_hexdigits : List Char → Nat → Nat × List Char
  | [], acc => (acc, [])
  | c :: cs, acc =>
    match hexVal? c with
    | some v => scan_hexdigits cs ((acc * 16 + v) % 4294967296)
    | none => (acc, c :: cs)

/-- Address/value parsing of the `.data` scan: a hex number is consumed
only after a literal `0x`; otherwise the cursor does not move and the
parsed number is zero. -/
def scan_hex_after : List Char → Nat × List Char
  | '0' :: x :: r =>
    if x = 'x' || x = 'X' then scan_hexdigits r 0 else (0, '0' :: x :: r)
  | cs => (0, cs)

/-- C `strstr`: the suffix starting at the first occurrence of `pat`. -/
def findSub (pat : List Char) : Nat → List Char → Option (List Char)
  | 0, _ => none
  | _ + 1, [] => if pat.isEmpty then some [] else none
  | fuel + 1, c :: cs =>
    if pat.isPrefixOf (c :: cs) then some (c :: cs)
    else findSub pat fuel cs

/-- The `.data` directive scan of `milo_vm_load_asm`: for every occurrence
of `".data "` in the raw assembly text, parse a hex address and a hex
value and store the value into the memory word at `addr / 4` when the
address is in range. -/
def dataScan : Nat → (Nat → Nat) → List Char → (Nat → Nat)
  | 0, mem, _ => mem
  | fuel + 1, mem, cs =>
    match findSub ".data ".toList (cs.length + 1) cs with
    | none => mem
    | some suffix =>
      let p := (suffix.drop 6).dropWhile fun c => c = ' ' || c = '\t'
      let (addr, p1) := scan_hex_after p
      let p2 := p1.dropWhile fun c => c = ',' || c = ' ' || c = '\t'
      let (value, p3) := scan_hex_after p2
      let mem := if addr < 8192 then updFn mem (addr / 4) value else mem
      dataScan fuel mem p3

/-- `milo_vm_load_asm` of `milo_vm.c`: assemble the text with a fresh
assembler state, load the words, then scan the raw text for `.data`
directives. -/
def milo_vm_load_asm (fp : List Char → Option Nat) (vm : milo_vm)
    (asm_text : List Char) : Bool × milo_vm :=
  match milo_asm_source fp {} asm_text with
  | .error e =>
    let msg := "Assembly error: Line " ++ toString e.2 ++ ": " ++ e.1
    (false, { vm with error := some msg })
  | .ok as =>
    match milo_vm_load_binary vm as.code with
    | (false, vm') => (false, vm')
    | (true, vm') =>
      (true, { vm' with mem := dataScan (asm_text.length + 1) vm'.mem asm_text })

/-- Fragment-shader inputs (`milo_fragment_in_t`), as binary32 patterns. -/
structure milo_fragment_in where
  x : Nat := 0
  y : Nat := 0
  z : Nat := 0
  u : Nat := 0
  v : Nat := 0
  r : Nat := 0
  g : Nat := 0
  b : Nat := 0
  a : Nat := 0
  nx : Nat := 0
  ny : Nat := 0
  nz : Nat := 0

/-- Fragment-shader outputs (`milo_fragment_out_t`), as binary32 patterns. -/
structure milo_fragment_out where
  r : Nat
  g : Nat
  b : Nat
  a : Nat
  depth : Nat
  discard : Bool
deriving Repr, DecidableEq

/-- The state-reset-and-input-binding prologue of `milo_vm_exec_fragment`:
clear the register file, the program counter, both stacks, the run flags,
the cycle counter and the error, then bind `v_texcoord` to r2-r3,
`v_normal` to r4-r6 and `v_color` to r7-r10.  Memory, uniforms, the loaded
code and the texture bindings are untouched. -/
def frag_reset (vm : milo_vm) (fin : milo_fragment_in) : milo_vm :=
  let regs := fun (_ : Nat) => 0
  let regs := updFn regs 2 (fin.u % 4294967296)
  let regs := updFn regs 3 (fin.v % 4294967296)
  let regs := updFn regs 4 (fin.nx % 4294967296)
  let regs := updFn regs 5 (fin.ny % 4294967296)
  let regs := updFn regs 6 (fin.nz % 4294967296)
  let regs := updFn regs 7 (fin.r % 4294967296)
  let regs := updFn regs 8 (fin.g % 4294967296)
  let regs := updFn regs 9 (fin.b % 4294967296)
  let regs := updFn regs 10 (fin.a % 4294967296)
  { vm with
    regs := regs, pc := 0, div_stack := [], ret_stack := [],
    running := true, discarded := false, cycle_count := 0, error := none }

/-- `milo_vm_exec_fragment` of `milo_vm.c`: reset, bind inputs, run to
halt or cycle exhaustion; on exhaustion the output struct is not written
(`none` here); otherwise the output is read from r4..r7 and the success
flag reports an empty error string. -/
def milo_vm_exec_fragment (fops : FloatOps) (vm : milo_vm)
    (fin : milo_fragment_in) : Bool × milo_vm × Option milo_fragment_out :=
  let vm := frag_reset vm fin
  let vm := vm_run fops (vm.max_cycles + 1) vm
  if vm.max_cycles ≤ vm.cycle_count then
    let msg := "Exceeded max cycles (" ++ toString vm.max_cycles ++ ")"
    (false, { vm with error := some msg }, none)
  else
    (vm.error.isNone, vm,
      some { r := vm.regs 4, g := vm.regs 5, b := vm.regs 6, a := vm.regs 7,
             depth := fin.z, discard := vm.discarded })

/-! Compiler: `milo_glsl.c`.  The lexer, parser and code generator are
embedded over `List Char`; the only libc numeric routines involved,
`strtol` with base 0 and `strtof`, are embedded exactly (`strtof` as
correctly rounded decimal-to-binary32 conversion, which is what the C
standard specifies and glibc implements). -/

/-- String literal to character list. -/
def chars (s : String) : List Char := s.data

/-- Decimal rendering of a natural (C `%d` on a non-negative value). -/
def natStr (n : Nat) : List Char := (Nat.repr n).data

/-- Decimal rendering of an integer (C `%d`). -/
def intStr (i : Int) : List Char := (Int.repr i).data

/-- Uppercase hexadecimal rendering, zero-padded to `width` digits
(C `%04X` / `%08X`). -/
def hexStr (n width : Nat) : List Char :=
  let rec go : Nat → Nat → List Char
    | 0, _ => []
    | fuel + 1, m =>
      if m = 0 then []
      else go fuel (m / 16) ++ ["0123456789ABCDEF".data.getD (m % 16) '0']
  let ds := if n = 0 then ['0'] else go 32 n
  List.replicate (width - ds.length) '0' ++ ds

/-- Round-to-nearest, ties-to-even integer division. -/
def rneDiv (a b : Nat) : Nat :=
  let q := a / b
  let r := a % b
  if b < 2 * r then q + 1
  else if 2 * r < b then q
  else if q % 2 = 1 then q + 1 else q

/-- Does `N * 10^E ≥ 2^e` hold?  Exact comparison over integers. -/
def ge2pow (N : Nat) (E e : Int) : Bool :=
  10 ^ (-E).toNat * 2 ^ e.toNat ≤ N * 10 ^ E.toNat * 2 ^ (-e).toNat

/-- Binary exponent search for decimal-to-float conversion: the largest
`e ≥ lo` with `2^e ≤ N * 10^E`, scanning downward from `hi`. -/
def findExp (N : Nat) (E : Int) : Nat → Int → Int
  | 0, lo => lo
  | fuel + 1, e => if ge2pow N E e then e else findExp N E fuel (e - 1)

/-- Correctly rounded conversion of the positive decimal `N * 10^E` to a
binary32 pattern (round to nearest, ties to even); this is the value
`strtof` must produce for an in-range decimal literal. -/
def decimalToBits32 (N : Nat) (E : Int) : Nat :=
  if N = 0 then 0
  else
    let e := findExp N E 280 128
    if 128 ≤ e then INF_BITS
    else if -126 ≤ e then
      let pnum := N * 10 ^ E.toNat * 2 ^ (23 - e).toNat
      let pden := 10 ^ (-E).toNat * 2 ^ (e - 23).toNat
      let m := rneDiv pnum pden
      let em := if m = 16777216 then (e + 1, 8388608) else (e, m)
      if 127 < em.1 then INF_BITS
      else ((em.1 + 127).toNat * 8388608 + (em.2 - 8388608))
    else
      rneDiv (N * 10 ^ E.toNat * 2 ^ 149) (10 ^ (-E).toNat)

/-- Fixed-point rendering of a binary32 pattern with six fractional digits
(C `%.6f`, as printed into generated-assembly comments; those comments are
stripped by the assembler, so nothing downstream depends on them). -/
def fmt6 (bits : Nat) : List Char :=
  let s := signF bits
  let e := expF bits
  let man := manF bits
  if e = 255 then (if man = 0 then (if s = 1 then chars "-inf" else chars "inf") else chars "nan")
  else
    let ME : Nat × Int := if e = 0 then (man, -149) else (8388608 + man, (e : Int) - 150)
    let r := if 0 ≤ ME.2 then ME.1 * 2 ^ ME.2.toNat * 1000000
      else rneDiv (ME.1 * 1000000) (2 ^ (-ME.2).toNat)
    let frac := natStr (r % 1000000)
    (if s = 1 then ['-'] else []) ++ natStr (r / 1000000) ++ ['.'] ++
      List.replicate (6 - frac.length) '0' ++ frac

/-- Token kinds of `milo_glsl.h`. -/
inductive milo_token_type where
  | TOK_EOF | TOK_ERROR
  | TOK_INT_LIT | TOK_FLOAT_LIT | TOK_IDENT
  | TOK_VOID | TOK_FLOAT | TOK_INT
  | TOK_VEC2 | TOK_VEC3 | TOK_VEC4 | TOK_MAT3 | TOK_MAT4 | TOK_SAMPLER2D
  | TOK_IN | TOK_OUT | TOK_UNIFORM | TOK_CONST
  | TOK_IF | TOK_ELSE | TOK_FOR | TOK_WHILE
  | TOK_RETURN | TOK_BREAK | TOK_CONTINUE | TOK_DISCARD
  | TOK_TRUE | TOK_FALSE
  | TOK_PRECISION | TOK_HIGHP | TOK_MEDIUMP | TOK_LOWP
  | TOK_VERSION | TOK_LAYOUT | TOK_LOCATION
  | TOK_PLUS | TOK_MINUS | TOK_STAR | TOK_SLASH | TOK_PERCENT
  | TOK_EQ | TOK_NE | TOK_LT | TOK_GT | TOK_LE | TOK_GE
  | TOK_AND | TOK_OR | TOK_NOT
  | TOK_ASSIGN | TOK_PLUS_ASSIGN | TOK_MINUS_ASSIGN | TOK_STAR_ASSIGN | TOK_SLASH_ASSIGN
  | TOK_INC | TOK_DEC
  | TOK_LPAREN | TOK_RPAREN | TOK_LBRACE | TOK_RBRACE
  | TOK_LBRACKET | TOK_RBRACKET
  | TOK_COMMA | TOK_SEMICOLON | TOK_DOT | TOK_QUESTION | TOK_COLON | TOK_HASH
deriving Repr, DecidableEq

open milo_token_type

/-- A lexer token: kind, source text window, line, and literal payload
(`int_val` for integer literals, `float_val` as binary32 bits for float
literals; the C stores these in a union). -/
structure milo_token where
  type : milo_token_type := TOK_EOF
  text : List Char := []
  line : Nat := 1
  int_val : Int := 0
  float_val : Nat := 0
deriving Repr, DecidableEq

/-- Scalar and vector types of the source language. -/
inductive milo_type where
  | TYPE_VOID | TYPE_FLOAT | TYPE_INT
  | TYPE_VEC2 | TYPE_VEC3 | TYPE_VEC4
  | TYPE_MAT3 | TYPE_MAT4 | TYPE_SAMPLER2D
deriving Repr, DecidableEq

open milo_type

/-- AST nodes (`milo_node_t`): one constructor per node kind; the C
next-sibling child chains are owned lists, and every child pointer the C
parser can leave NULL is an `Option`. -/
inductive milo_node where
  | program (decls : List milo_node)
  | function (name : List Char) (return_type : milo_type)
      (params : List milo_node) (body : Option milo_node)
  | var_decl (name : List Char) (var_type : milo_type)
      (is_uniform is_in is_out : Bool) (location : Int) (init : Option milo_node)
  | param (name : List Char) (var_type : milo_type)
  | block (stmts : List milo_node)
  | if_stmt (cond : Option milo_node) (then_branch : Option milo_node)
      (else_branch : Option milo_node)
  | for_stmt (finit : Option milo_node) (cond : Option milo_node)
      (post : Option milo_node) (body : Option milo_node)
  | while_stmt (cond : Option milo_node) (body : Option milo_node)
  | ret (value : Option milo_node)
  | discard_stmt
  | break_stmt
  | continue_stmt
  | expr_stmt (value : Option milo_node)
  | binary (op : milo_token_type) (left right : milo_node)
  | unary (op : milo_token_type) (operand : Option milo_node) (isPre : Bool)
  | call (name : List Char) (args : List milo_node)
  | index_node (object : milo_node) (idx : Option milo_node)
  | member (object : milo_node) (memb : List Char)
  | ident (name : List Char)
  | int_lit (val : Int)
  | float_lit (bits : Nat)
  | assign (target : milo_node) (op : milo_token_type) (value : Option milo_node)
  | ternary (cond : milo_node) (thenE elseE : Option milo_node)
  | ctor (con_type : milo_type) (args : List milo_node)
deriving Repr

/-- A symbol-table entry (`milo_symbol_t`). -/
structure milo_symbol where
  name : List Char
  type : milo_type
  reg : Int
  is_uniform : Bool := false
  is_in : Bool := false
  is_out : Bool := false
  location : Int := -1
deriving Repr

/-- The compiler state (`milo_compiler_t`): lexer cursor, token lookahead,
symbol table, emitted assembly lines, register/label counters, interned
constants and collected errors. -/
structure milo_compiler where
  current : List Char := []
  line : Nat := 1
  current_token : milo_token := {}
  peek_token : milo_token := {}
  symtab : List milo_symbol := []
  code : List (List Char) := []
  next_reg : Int := 2
  next_label : Int := 0
  constants : List Nat := []
  errors : List (List Char) := []
  is_vertex : Bool := false
  is_fragment : Bool := false

/-- The `error` reporter of `milo_glsl.c`: record `Line N: message` with
the lexer's current line, up to 32 messages. -/
def comp_error (c : milo_compiler) (msg : List Char) : milo_compiler :=
  if 32 ≤ c.errors.length then c
  else { c with errors :=
    c.errors ++ [(chars "Line " ++ natStr c.line ++ chars ": " ++ msg).take 255] }

/-- The whitespace-and-comment skipping loop of the lexer; consumes blank
characters, `//` comments up to the newline, and `/* */` block comments,
counting newlines. -/
def skip_ws_go : Nat → List Char → Nat → List Char × Nat
  | 0, cs, ln => (cs, ln)
  | fuel + 1, cs, ln =>
    match cs with
    | ' ' :: r => skip_ws_go fuel r ln
    | '\t' :: r => skip_ws_go fuel r ln
    | '\r' :: r => skip_ws_go fuel r ln
    | '\n' :: r => skip_ws_go fuel r (ln + 1)
    | '/' :: '/' :: r => skip_ws_go fuel (r.dropWhile fun c => c ≠ '\n') ln
    | '/' :: '*' :: r => skip_block fuel r ln
    | _ => (cs, ln)
where
  /-- Block-comment consumption with newline counting. -/
  skip_block : Nat → List Char → Nat → List Char × Nat
  | 0, cs, ln => (cs, ln)
  | fuel + 1, cs, ln =>
    match cs with
    | '*' :: '/' :: r => skip_ws_go fuel r ln
    | '\n' :: r => skip_block fuel r (ln + 1)
    | _ :: r => skip_block fuel r ln
    | [] => ([], ln)

/-- The keyword table of `check_keyword`. -/
def keyword_table : List (String × milo_token_type) := [
  ("void", TOK_VOID), ("float", TOK_FLOAT), ("int", TOK_INT),
  ("vec2", TOK_VEC2), ("vec3", TOK_VEC3), ("vec4", TOK_VEC4),
  ("mat3", TOK_MAT3), ("mat4", TOK_MAT4), ("sampler2D", TOK_SAMPLER2D),
  ("in", TOK_IN), ("out", TOK_OUT), ("uniform", TOK_UNIFORM),
  ("const", TOK_CONST), ("if", TOK_IF), ("else", TOK_ELSE),
  ("for", TOK_FOR), ("while", TOK_WHILE), ("return", TOK_RETURN),
  ("break", TOK_BREAK), ("continue", TOK_CONTINUE), ("discard", TOK_DISCARD),
  ("true", TOK_TRUE), ("false", TOK_FALSE),
  ("precision", TOK_PRECISION), ("highp", TOK_HIGHP),
  ("mediump", TOK_MEDIUMP), ("lowp", TOK_LOWP),
  ("layout", TOK_LAYOUT), ("location", TOK_LOCATION)]

/-- `check_keyword` of `milo_glsl.c`. -/
def check_keyword (text : List Char) : milo_token_type :=
  match List.find? (fun kv => kv.1.toList == text) keyword_table with
  | some kv => kv.2
  | none => TOK_IDENT

/-- Octal digit loop of `strtol` with base detection. -/
def strtol_octdigits : List Char → Nat → Nat × List Char
  | [], acc => (acc, [])
  | c :: cs, acc =>
    if '0' ≤ c && c ≤ '7' then strtol_octdigits cs (acc * 8 + (c.toNat - 48))
    else (acc, c :: cs)

/-- Value computed by `strtol(s, NULL, 0)` at a position known to start
with a digit: `0x` selects hexadecimal, a leading `0` octal, otherwise
decimal.  Note the C lexer re-parses from the token start, so the input
here is the remaining source text, not just the token. -/
def strtol0 (s : List Char) : Int :=
  match s with
  | '0' :: x :: r =>
    if x = 'x' || x = 'X' then ((strtol_hexdigits r 0).1 : Int)
    else ((strtol_octdigits (x :: r) 0).1 : Int)
  | _ => ((strtol_digits s 0).1 : Int)

/-- Decimal significand/exponent reading for `strtof`: digits, an optional
fraction, and an optional exponent that requires at least one digit. -/
def strtofVal (s : List Char) : Nat :=
  let ip := s.takeWhile Char.isDigit
  let N0 := (strtol_digits ip 0).1
  let s1 := s.drop ip.length
  let frAnd : List Char × List Char :=
    match s1 with
    | '.' :: r => (r.takeWhile Char.isDigit, r.drop (r.takeWhile Char.isDigit).length)
    | _ => ([], s1)
  let fr := frAnd.1
  let N := N0 * 10 ^ fr.length + (strtol_digits fr 0).1
  let s2 := frAnd.2
  let expPart : Int :=
    match s2 with
    | e :: r =>
      if e = 'e' || e = 'E' then
        let sd : Bool × List Char :=
          match r with
          | '-' :: r2 => (true, r2)
          | '+' :: r2 => (false, r2)
          | _ => (false, r)
        let ds := sd.2.takeWhile Char.isDigit
        if ds.isEmpty then 0
        else if sd.1 then -((strtol_digits ds 0).1 : Int) else ((strtol_digits ds 0).1 : Int)
      else 0
    | [] => 0
  decimalToBits32 N (expPart - fr.length)

/-- Length in characters of the numeric token the lexer consumes starting
at a digit: digits, optional `.digits`, optional exponent, optional `f`
suffix; also reports whether the token is a float literal. -/
def numTokenScan (s : List Char) : Nat × Bool :=
  let ip := s.takeWhile Char.isDigit
  let s1 := s.drop ip.length
  let fr : Nat × Bool × List Char :=
    match s1 with
    | '.' :: r =>
      let ds := r.takeWhile Char.isDigit
      (ip.length + 1 + ds.length, true, r.drop ds.length)
    | _ => (ip.length, false, s1)
  let ex : Nat × Bool × List Char :=
    match fr.2.2 with
    | e :: r =>
      if e = 'e' || e = 'E' then
        let sgn : Nat × List Char :=
          match r with
          | '-' :: r2 => (1, r2)
          | '+' :: r2 => (1, r2)
          | _ => (0, r)
        let ds := sgn.2.takeWhile Char.isDigit
        (fr.1 + 1 + sgn.1 + ds.length, true, sgn.2.drop ds.length)
      else (fr.1, fr.2.1, fr.2.2)
    | [] => (fr.1, fr.2.1, fr.2.2)
  match ex.2.2 with
  | 'f' :: _ => (ex.1 + 1, ex.2.1)
  | 'F' :: _ => (ex.1 + 1, ex.2.1)
  | _ => (ex.1, ex.2.1)

/-- Identifier-start characters of the lexer (`is_alpha`). -/
def glsl_is_alpha (c : Char) : Bool :=
  ('a' ≤ c && c ≤ 'z') || ('A' ≤ c && c ≤ 'Z') || c = '_'

/-- Identifier-continuation characters of the lexer (`is_alnum`). -/
def glsl_is_alnum (c : Char) : Bool := glsl_is_alpha c || c.isDigit

/-- `scan_token` of `milo_glsl.c`: skip blanks and comments, then produce
one token, consuming its characters.  Integer literal values re-parse the
remaining source with `strtol(start, NULL, 0)`; float literal values are
the correctly rounded `strtof` of the remaining source. -/
def scan_token (c0 : milo_compiler) : milo_compiler × milo_token :=
  let (csW, lnW) := skip_ws_go (c0.current.length + 1) c0.current c0.line
  let c := { c0 with current := csW, line := lnW }
  match h : c.current with
  | [] => (c, { type := TOK_EOF, text := [], line := c.line })
  | ch :: rest =>
    let one := fun (t : milo_token_type) =>
      ({ c with current := rest }, ({ type := t, text := [ch], line := c.line } : milo_token))
    let two := fun (t : milo_token_type) (r2 : List Char) =>
      ({ c with current := r2 },
        ({ type := t, text := c.current.take 2, line := c.line } : milo_token))
    if ch = '(' then one TOK_LPAREN
    else if ch = ')' then one TOK_RPAREN
    else if ch = '{' then one TOK_LBRACE
    else if ch = '}' then one TOK_RBRACE
    else if ch = '[' then one TOK_LBRACKET
    else if ch = ']' then one TOK_RBRACKET
    else if ch = ',' then one TOK_COMMA
    else if ch = ';' then one TOK_SEMICOLON
    else if ch = '.' then one TOK_DOT
    else if ch = '?' then one TOK_QUESTION
    else if ch = ':' then one TOK_COLON
    else if ch = '#' then one TOK_HASH
    else if ch = '+' then
      match rest with
      | '+' :: r2 => two TOK_INC r2
      | '=' :: r2 => two TOK_PLUS_ASSIGN r2
      | _ => one TOK_PLUS
    else if ch = '-' then
      match rest with
      | '-' :: r2 => two TOK_DEC r2
      | '=' :: r2 => two TOK_MINUS_ASSIGN r2
      | _ => one TOK_MINUS
    else if ch = '*' then
      match rest with
      | '=' :: r2 => two TOK_STAR_ASSIGN r2
      | _ => one TOK_STAR
    else if ch = '/' then
      match rest with
      | '=' :: r2 => two TOK_SLASH_ASSIGN r2
      | _ => one TOK_SLASH
    else if ch = '%' then one TOK_PERCENT
    else if ch = '=' then
      match rest with
      | '=' :: r2 => two TOK_EQ r2
      | _ => one TOK_ASSIGN
    else if ch = '!' then
      match rest with
      | '=' :: r2 => two TOK_NE r2
      | _ => one TOK_NOT
    else if ch = '<' then
      match rest with
      | '=' :: r2 => two TOK_LE r2
      | _ => one TOK_LT
    else if ch = '>' then
      match rest with
      | '=' :: r2 => two TOK_GE r2
      | _ => one TOK_GT
    else if ch = '&' && (rest.head?.getD ' ') = '&' then two TOK_AND (rest.drop 1)
    else if ch = '|' && (rest.head?.getD ' ') = '|' then two TOK_OR (rest.drop 1)
    else if ch.isDigit then
      let sc := numTokenScan c.current
      let tok : milo_token :=
        if sc.2 then
          { type := TOK_FLOAT_LIT, text := c.current.take sc.1, line := c.line,
            float_val := strtofVal c.current }
        else
          { type := TOK_INT_LIT, text := c.current.take sc.1, line := c.line,
            int_val := toInt32 (toBits32 (strtol0 c.current)) }
      ({ c with current := c.current.drop sc.1 }, tok)
    else if glsl_is_alpha ch then
      let text := ch :: rest.takeWhile glsl_is_alnum
      ({ c with current := rest.dropWhile glsl_is_alnum },
        { type := check_keyword text, text := text, line := c.line })
    else
      let c := comp_error c (chars "Unexpected character: '" ++ [ch] ++ chars "'")
      ({ c with current := rest }, { type := TOK_ERROR, text := [ch], line := c.line })

/-- `advance`: shift the lookahead window by one token. -/
def advance (c : milo_compiler) : milo_compiler :=
  let (c', t) := scan_token c
  { c' with current_token := c.peek_token, peek_token := t }

/-- `check`: does the current token have the given kind. -/
def check (c : milo_compiler) (t : milo_token_type) : Bool :=
  c.current_token.type == t

/-- `match` of `milo_glsl.c` (renamed: `match` is a Lean keyword). -/
def match_tok (c : milo_compiler) (t : milo_token_type) : milo_compiler × Bool :=
  if check c t then (advance c, true) else (c, false)

/-- `expect`: like `match` but records `Expected MSG` on failure. -/
def expect (c : milo_compiler) (t : milo_token_type) (msg : List Char) :
    milo_compiler × Bool :=
  if check c t then (advance c, true)
  else (comp_error c (chars "Expected " ++ msg), false)

/-- `parse_type` of `milo_glsl.c`: consume the current token and map it to
a type, recording an error on a non-type token. -/
def parse_type (c0 : milo_compiler) : milo_compiler × milo_type :=
  let t := c0.current_token.type
  let c := advance c0
  match t with
  | TOK_VOID => (c, TYPE_VOID)
  | TOK_FLOAT => (c, TYPE_FLOAT)
  | TOK_INT => (c, TYPE_INT)
  | TOK_VEC2 => (c, TYPE_VEC2)
  | TOK_VEC3 => (c, TYPE_VEC3)
  | TOK_VEC4 => (c, TYPE_VEC4)
  | TOK_MAT3 => (c, TYPE_MAT3)
  | TOK_MAT4 => (c, TYPE_MAT4)
  | TOK_SAMPLER2D => (c, TYPE_SAMPLER2D)
  | _ => (comp_error c (chars "Expected type"), TYPE_VOID)

/-- `is_type_token` of `milo_glsl.c`. -/
def is_type_token (t : milo_token_type) : Bool :=
  t == TOK_VOID || t == TOK_FLOAT || t == TOK_INT ||
  t == TOK_VEC2 || t == TOK_VEC3 || t == TOK_VEC4 ||
  t == TOK_MAT3 || t == TOK_MAT4 || t == TOK_SAMPLER2D

/-- `get_precedence` of `milo_glsl.c`. -/
def get_precedence (t : milo_token_type) : Nat :=
  match t with
  | TOK_OR => 1
  | TOK_AND => 2
  | TOK_EQ => 3
  | TOK_NE => 3
  | TOK_LT => 4
  | TOK_GT => 4
  | TOK_LE => 4
  | TOK_GE => 4
  | TOK_PLUS => 5
  | TOK_MINUS => 5
  | TOK_STAR => 6
  | TOK_SLASH => 6
  | TOK_PERCENT => 6
  | _ => 0

/-! The recursive-descent parser of `milo_glsl.c`.  The C parser is a set
of mutually recursive functions; they are embedded as one fuel-indexed
dispatcher `parse_go` (a query `parse_q` names the function being entered,
a `parse_r` carries its result), with one body definition per C function
and named wrappers restoring the C signatures.  Every call of one parser
function by another spends one unit of fuel; fuel exhaustion yields the
failed-parse result of the function being entered and is never reached on
the inputs any theorem evaluates (the C recursion instead consumes
tokens). -/

/-- One query per parser function of `milo_glsl.c`, carrying that
function's extra arguments. -/
inductive parse_q where
  | expr
  | assignment
  | ternary
  | binary (min_prec : Nat)
  | binary_loop (min_prec : Nat) (left : milo_node)
  | unary
  | postfix_e
  | postfix_loop (e : milo_node)
  | args (acc : List milo_node)
  | primary
  | var_decl (is_uniform is_in is_out : Bool) (location : Int)
  | if_stmt
  | for_stmt
  | while_stmt
  | block_stmts (acc : List milo_node)
  | block
  | stmt
  | fn_params (acc : List milo_node)
  | function

/-- A parser result: a node option (most parser functions), a node-list
option (argument and parameter lists) or a bare node list (the statement
loop of a block). -/
inductive parse_r where
  | node : Option milo_node → parse_r
  | nodes : Option (List milo_node) → parse_r
  | list : List milo_node → parse_r

/-- The node-option component of a parser result. -/
def parse_r.n : parse_r → Option milo_node
  | .node e => e
  | _ => none

/-- The node-list-option component of a parser result. -/
def parse_r.ns : parse_r → Option (List milo_node)
  | .nodes l => l
  | _ => none

/-- The node-list component of a parser result. -/
def parse_r.l : parse_r → List milo_node
  | .list l => l
  | _ => []

/-- Fuel exhaustion mirrors each parser function's failure result. -/
def parse_q.zero : parse_q → parse_r
  | .binary_loop _ left => .node (some left)
  | .postfix_loop e => .node (some e)
  | .block_stmts acc => .list acc
  | .args _ => .nodes none
  | .fn_params _ => .nodes none
  | _ => .node none

/-- `parse_expr`: assignment is the lowest-precedence expression form. -/
def parse_expr_body (rec : parse_q → milo_compiler → milo_compiler × parse_r)
    (c : milo_compiler) : milo_compiler × parse_r :=
  rec .assignment c

/-- `parse_assignment`: right-associative `= += -= *= /=`. -/
def parse_assignment_body (rec : parse_q → milo_compiler → milo_compiler × parse_r)
    (c : milo_compiler) : milo_compiler × parse_r :=
  let (c, t) := rec .ternary c
  match t.n with
  | none => (c, .node none)
  | some left =>
    if check c TOK_ASSIGN || check c TOK_PLUS_ASSIGN || check c TOK_MINUS_ASSIGN ||
        check c TOK_STAR_ASSIGN || check c TOK_SLASH_ASSIGN then
      let op := c.current_token.type
      let c := advance c
      let (c, v) := rec .assignment c
      (c, .node (some (.assign left op v.n)))
    else (c, .node (some left))

/-- `parse_ternary`: `?:` between binary expressions and assignment. -/
def parse_ternary_body (rec : parse_q → milo_compiler → milo_compiler × parse_r)
    (c : milo_compiler) : milo_compiler × parse_r :=
  let (c, b) := rec (.binary 1) c
  match b.n with
  | none => (c, .node none)
  | some cond =>
    let (c, m) := match_tok c TOK_QUESTION
    if m then
      let (c, thenE) := rec .expr c
      let (c, _) := expect c TOK_COLON (chars "':'")
      let (c, elseE) := rec .ternary c
      (c, .node (some (.ternary cond thenE.n elseE.n)))
    else (c, .node (some cond))

/-- `parse_binary`: precedence climbing from `min_prec`. -/
def parse_binary_body (rec : parse_q → milo_compiler → milo_compiler × parse_r)
    (min_prec : Nat) (c : milo_compiler) : milo_compiler × parse_r :=
  let (c, u) := rec .unary c
  match u.n with
  | none => (c, .node none)
  | some left => rec (.binary_loop min_prec left) c

/-- The `while (true)` operator loop inside `parse_binary`. -/
def parse_binary_loop_body (rec : parse_q → milo_compiler → milo_compiler × parse_r)
    (min_prec : Nat) (left : milo_node) (c : milo_compiler) :
    milo_compiler × parse_r :=
  let prec := get_precedence c.current_token.type
  if prec < min_prec then (c, .node (some left))
  else
    let op := c.current_token.type
    let c := advance c
    let (c, r) := rec (.binary (prec + 1)) c
    match r.n with
    | none => (c, .node none)
    | some right => rec (.binary_loop min_prec (.binary op left right)) c

/-- `parse_unary`: prefix `-`, `!`, `++`, `--`. -/
def parse_unary_body (rec : parse_q → milo_compiler → milo_compiler × parse_r)
    (c : milo_compiler) : milo_compiler × parse_r :=
  if check c TOK_MINUS || check c TOK_NOT || check c TOK_INC || check c TOK_DEC then
    let op := c.current_token.type
    let c := advance c
    let (c, operand) := rec .unary c
    (c, .node (some (.unary op operand.n true)))
  else rec .postfix_e c

/-- `parse_postfix`: primary expression followed by postfix forms. -/
def parse_postfix_body (rec : parse_q → milo_compiler → milo_compiler × parse_r)
    (c : milo_compiler) : milo_compiler × parse_r :=
  let (c, p) := rec .primary c
  match p.n with
  | none => (c, .node none)
  | some e => rec (.postfix_loop e) c

/-- The postfix `while (true)` loop: `.member`, `[index]`, `x++`, `x--`.
As in the C source, the operator recorded for a postfix `++`/`--` is read
from the token after the operator (the `match` call has already advanced),
so it is `TOK_INC` only if the next token happens to be `++`. -/
def parse_postfix_loop_body (rec : parse_q → milo_compiler → milo_compiler × parse_r)
    (e : milo_node) (c : milo_compiler) : milo_compiler × parse_r :=
  let (c, md) := match_tok c TOK_DOT
  if md then
    if check c TOK_IDENT then
      let memb := c.current_token.text.take 7
      let c := advance c
      rec (.postfix_loop (.member e memb)) c
    else (comp_error c (chars "Expected member name"), .node none)
  else
    let (c, mb) := match_tok c TOK_LBRACKET
    if mb then
      let (c, idx) := rec .expr c
      let (c, _) := expect c TOK_RBRACKET (chars "']'")
      rec (.postfix_loop (.index_node e idx.n)) c
    else
      let (c, mi) := match_tok c TOK_INC
      if mi then
        let op := if c.current_token.type == TOK_INC then TOK_INC else TOK_DEC
        rec (.postfix_loop (.unary op (some e) false)) c
      else
        let (c, mdd) := match_tok c TOK_DEC
        if mdd then
          let op := if c.current_token.type == TOK_INC then TOK_INC else TOK_DEC
          rec (.postfix_loop (.unary op (some e) false)) c
        else (c, .node (some e))

/-- The argument-list loop shared by constructor and call syntax. -/
def parse_args_body (rec : parse_q → milo_compiler → milo_compiler × parse_r)
    (acc : List milo_node) (c : milo_compiler) : milo_compiler × parse_r :=
  if !check c TOK_RPAREN && !check c TOK_EOF then
    let (c, a) := rec .expr c
    match a.n with
    | none => (c, .nodes none)
    | some arg =>
      let (c, m) := match_tok c TOK_COMMA
      if m then rec (.args (acc ++ [arg])) c
      else (c, .nodes (some (acc ++ [arg])))
  else (c, .nodes (some acc))

/-- `parse_primary`: literals, constructors, identifiers and calls,
parenthesised expressions. -/
def parse_primary_body (rec : parse_q → milo_compiler → milo_compiler × parse_r)
    (c : milo_compiler) : milo_compiler × parse_r :=
  if check c TOK_INT_LIT then
    let v := c.current_token.int_val
    (advance c, .node (some (.int_lit v)))
  else if check c TOK_FLOAT_LIT then
    let v := c.current_token.float_val
    (advance c, .node (some (.float_lit v)))
  else if check c TOK_TRUE || check c TOK_FALSE then
    let v : Int := if check c TOK_TRUE then 1 else 0
    (advance c, .node (some (.int_lit v)))
  else if is_type_token c.current_token.type && !(c.current_token.type == TOK_VOID) then
    let (c, ty) := parse_type c
    let (c, okL) := expect c TOK_LPAREN (chars "'('")
    if !okL then (c, .node none)
    else
      let (c, la) := rec (.args []) c
      match la.ns with
      | none => (c, .node none)
      | some args =>
        let (c, _) := expect c TOK_RPAREN (chars "')'")
        (c, .node (some (.ctor ty args)))
  else if check c TOK_IDENT then
    let name := c.current_token.text.take 63
    let c := advance c
    if check c TOK_LPAREN then
      let c := advance c
      let (c, la) := rec (.args []) c
      match la.ns with
      | none => (c, .node none)
      | some args =>
        let (c, _) := expect c TOK_RPAREN (chars "')'")
        (c, .node (some (.call name args)))
    else (c, .node (some (.ident name)))
  else
    let (c, mL) := match_tok c TOK_LPAREN
    if mL then
      let (c, e) := rec .expr c
      let (c, _) := expect c TOK_RPAREN (chars "')'")
      (c, .node e.n)
    else (comp_error c (chars "Expected expression"), .node none)

/-- `parse_var_decl`. -/
def parse_var_decl_body (rec : parse_q → milo_compiler → milo_compiler × parse_r)
    (is_uniform is_in is_out : Bool) (location : Int) (c : milo_compiler) :
    milo_compiler × parse_r :=
  let (c, ty) := parse_type c
  if !check c TOK_IDENT then (comp_error c (chars "Expected variable name"), .node none)
  else
    let name := c.current_token.text.take 63
    let c := advance c
    let (c, m) := match_tok c TOK_ASSIGN
    let (c, ini) :=
      if m then
        let (c, e) := rec .expr c
        (c, e.n)
      else (c, (none : Option milo_node))
    let (c, _) := expect c TOK_SEMICOLON (chars "';'")
    (c, .node (some (.var_decl name ty is_uniform is_in is_out location ini)))

/-- `parse_if`. -/
def parse_if_body (rec : parse_q → milo_compiler → milo_compiler × parse_r)
    (c : milo_compiler) : milo_compiler × parse_r :=
  let (c, _) := expect c TOK_LPAREN (chars "'('")
  let (c, cond) := rec .expr c
  let (c, _) := expect c TOK_RPAREN (chars "')'")
  let (c, thenB) := rec .stmt c
  let (c, m) := match_tok c TOK_ELSE
  if m then
    let (c, elseB) := rec .stmt c
    (c, .node (some (.if_stmt cond.n thenB.n elseB.n)))
  else (c, .node (some (.if_stmt cond.n thenB.n none)))

/-- `parse_for`. -/
def parse_for_body (rec : parse_q → milo_compiler → milo_compiler × parse_r)
    (c : milo_compiler) : milo_compiler × parse_r :=
  let (c, _) := expect c TOK_LPAREN (chars "'('")
  let (c, finit) :=
    if !check c TOK_SEMICOLON then
      if is_type_token c.current_token.type then
        let (c, d) := rec (.var_decl false false false (-1)) c
        (c, d.n)
      else
        let (c, e) := rec .expr c
        let (c, _) := expect c TOK_SEMICOLON (chars "';'")
        (c, some (.expr_stmt e.n))
    else (advance c, none)
  let (c, cond) :=
    if !check c TOK_SEMICOLON then
      let (c, e) := rec .expr c
      (c, e.n)
    else (c, (none : Option milo_node))
  let (c, _) := expect c TOK_SEMICOLON (chars "';'")
  let (c, post) :=
    if !check c TOK_RPAREN then
      let (c, e) := rec .expr c
      (c, e.n)
    else (c, (none : Option milo_node))
  let (c, _) := expect c TOK_RPAREN (chars "')'")
  let (c, body) := rec .stmt c
  (c, .node (some (.for_stmt finit cond post body.n)))

/-- `parse_while`. -/
def parse_while_body (rec : parse_q → milo_compiler → milo_compiler × parse_r)
    (c : milo_compiler) : milo_compiler × parse_r :=
  let (c, _) := expect c TOK_LPAREN (chars "'('")
  let (c, cond) := rec .expr c
  let (c, _) := expect c TOK_RPAREN (chars "')'")
  let (c, body) := rec .stmt c
  (c, .node (some (.while_stmt cond.n body.n)))

/-- The statement loop of `parse_block`. -/
def parse_block_stmts_body (rec : parse_q → milo_compiler → milo_compiler × parse_r)
    (acc : List milo_node) (c : milo_compiler) : milo_compiler × parse_r :=
  if !check c TOK_RBRACE && !check c TOK_EOF then
    let (c, s) := rec .stmt c
    match s.n with
    | some stmt => rec (.block_stmts (acc ++ [stmt])) c
    | none => rec (.block_stmts acc) c
  else (c, .list acc)

/-- `parse_block`. -/
def parse_block_body (rec : parse_q → milo_compiler → milo_compiler × parse_r)
    (c : milo_compiler) : milo_compiler × parse_r :=
  let (c, stmts) := rec (.block_stmts []) c
  let (c, _) := expect c TOK_RBRACE (chars "'\x7d'")
  (c, .node (some (.block stmts.l)))

/-- `parse_stmt`. -/
def parse_stmt_body (rec : parse_q → milo_compiler → milo_compiler × parse_r)
    (c : milo_compiler) : milo_compiler × parse_r :=
  let (c1, m1) := match_tok c TOK_LBRACE
  if m1 then rec .block c1
  else
    let (c2, m2) := match_tok c1 TOK_IF
    if m2 then rec .if_stmt c2
    else
      let (c3, m3) := match_tok c2 TOK_FOR
      if m3 then rec .for_stmt c3
      else
        let (c4, m4) := match_tok c3 TOK_WHILE
        if m4 then rec .while_stmt c4
        else
          let (c5, m5) := match_tok c4 TOK_RETURN
          if m5 then
            let (c, v) :=
              if !check c5 TOK_SEMICOLON then
                let (c, e) := rec .expr c5
                (c, e.n)
              else (c5, (none : Option milo_node))
            let (c, _) := expect c TOK_SEMICOLON (chars "';'")
            (c, .node (some (.ret v)))
          else
            let (c6, m6) := match_tok c5 TOK_DISCARD
            if m6 then
              let (c, _) := expect c6 TOK_SEMICOLON (chars "';'")
              (c, .node (some .discard_stmt))
            else
              let (c7, m7) := match_tok c6 TOK_BREAK
              if m7 then
                let (c, _) := expect c7 TOK_SEMICOLON (chars "';'")
                (c, .node (some .break_stmt))
              else
                let (c8, m8) := match_tok c7 TOK_CONTINUE
                if m8 then
                  let (c, _) := expect c8 TOK_SEMICOLON (chars "';'")
                  (c, .node (some .continue_stmt))
                else if is_type_token c8.current_token.type then
                  rec (.var_decl false false false (-1)) c8
                else
                  let (c, e) := rec .expr c8
                  let (c, _) := expect c TOK_SEMICOLON (chars "';'")
                  (c, .node (some (.expr_stmt e.n)))

/-- The parameter-list loop of `parse_function`; `none` aborts the whole
function as in the C source. -/
def parse_fn_params_body (rec : parse_q → milo_compiler → milo_compiler × parse_r)
    (acc : List milo_node) (c : milo_compiler) : milo_compiler × parse_r :=
  if !check c TOK_RPAREN && !check c TOK_EOF then
    let (c, ty) := parse_type c
    if !check c TOK_IDENT then
      (comp_error c (chars "Expected parameter name"), .nodes none)
    else
      let name := c.current_token.text.take 63
      let c := advance c
      let acc := acc ++ [milo_node.param name ty]
      let (c, m) := match_tok c TOK_COMMA
      if m then rec (.fn_params acc) c
      else (c, .nodes (some acc))
  else (c, .nodes (some acc))

/-- `parse_function`. -/
def parse_function_body (rec : parse_q → milo_compiler → milo_compiler × parse_r)
    (c : milo_compiler) : milo_compiler × parse_r :=
  let (c, ty) := parse_type c
  if !check c TOK_IDENT then (comp_error c (chars "Expected function name"), .node none)
  else
    let name := c.current_token.text.take 63
    let c := advance c
    let (c, _) := expect c TOK_LPAREN (chars "'('")
    let (c, ps) := rec (.fn_params []) c
    match ps.ns with
    | none => (c, .node none)
    | some params =>
      let (c, _) := expect c TOK_RPAREN (chars "')'")
      let (c, _) := expect c TOK_LBRACE (chars "'\x7b'")
      let (c, body) := rec .block c
      (c, .node (some (.function name ty params body.n)))

/-- The parser dispatcher: one fuel unit per call of a parser function. -/
def parse_go : Nat → parse_q → milo_compiler → milo_compiler × parse_r
  | 0, q, c => (c, q.zero)
  | fuel + 1, q, c =>
    match q with
    | .expr => parse_expr_body (parse_go fuel) c
    | .assignment => parse_assignment_body (parse_go fuel) c
    | .ternary => parse_ternary_body (parse_go fuel) c
    | .binary min_prec => parse_binary_body (parse_go fuel) min_prec c
    | .binary_loop min_prec left => parse_binary_loop_body (parse_go fuel) min_prec left c
    | .unary => parse_unary_body (parse_go fuel) c
    | .postfix_e => parse_postfix_body (parse_go fuel) c
    | .postfix_loop e => parse_postfix_loop_body (parse_go fuel) e c
    | .args acc => parse_args_body (parse_go fuel) acc c
    | .primary => parse_primary_body (parse_go fuel) c
    | .var_decl is_uniform is_in is_out location =>
      parse_var_decl_body (parse_go fuel) is_uniform is_in is_out location c
    | .if_stmt => parse_if_body (parse_go fuel) c
    | .for_stmt => parse_for_body (parse_go fuel) c
    | .while_stmt => parse_while_body (parse_go fuel) c
    | .block_stmts acc => parse_block_stmts_body (parse_go fuel) acc c
    | .block => parse_block_body (parse_go fuel) c
    | .stmt => parse_stmt_body (parse_go fuel) c
    | .fn_params acc => parse_fn_params_body (parse_go fuel) acc c
    | .function => parse_function_body (parse_go fuel) c

/-- `parse_expr` of `milo_glsl.c`, with its C signature. -/
def parse_expr (fuel : Nat) (c : milo_compiler) : milo_compiler × Option milo_node :=
  let (c, r) := parse_go fuel .expr c
  (c, r.n)

/-- `parse_stmt` of `milo_glsl.c`, with its C signature. -/
def parse_stmt (fuel : Nat) (c : milo_compiler) : milo_compiler × Option milo_node :=
  let (c, r) := parse_go fuel .stmt c
  (c, r.n)

/-- `parse_var_decl` of `milo_glsl.c`, with its C signature. -/
def parse_var_decl (fuel : Nat) (c : milo_compiler) (is_uniform is_in is_out : Bool)
    (location : Int) : milo_compiler × Option milo_node :=
  let (c, r) := parse_go fuel (.var_decl is_uniform is_in is_out location) c
  (c, r.n)

/-- `parse_function` of `milo_glsl.c`, with its C signature. -/
def parse_function (fuel : Nat) (c : milo_compiler) : milo_compiler × Option milo_node :=
  let (c, r) := parse_go fuel .function c
  (c, r.n)

/-- The token-skipping loop for `#`-prefixed preprocessor lines: skip
while the current token is still on `start_line`. -/
def skip_hash_loop : Nat → milo_compiler → Nat → milo_compiler
  | 0, c, _ => c
  | fuel + 1, c, start_line =>
    if !check c TOK_EOF && c.current_token.line == start_line then
      skip_hash_loop fuel (advance c) start_line
    else c

/-- The top-level declaration loop of `parse_program`. -/
def parse_program_loop : Nat → milo_compiler → List milo_node →
    milo_compiler × List milo_node
  | 0, c, acc => (c, acc)
  | fuel + 1, c, acc =>
    if check c TOK_EOF then (c, acc)
    else
      let (c, mh) := match_tok c TOK_HASH
      if mh then
        let c := skip_hash_loop (c.current.length + fuel + 1) c c.current_token.line
        parse_program_loop fuel c acc
      else
        let (c, mp) := match_tok c TOK_PRECISION
        if mp then
          let c := advance (advance c)
          let (c, _) := expect c TOK_SEMICOLON (chars "';'")
          parse_program_loop fuel c acc
        else
          let (c, ml) := match_tok c TOK_LAYOUT
          let (c, location) :=
            if ml then
              let (c, _) := expect c TOK_LPAREN (chars "'('")
              let (c, mloc) := match_tok c TOK_LOCATION
              let (c, loc) :=
                if mloc then
                  let (c, _) := expect c TOK_ASSIGN (chars "'='")
                  if check c TOK_INT_LIT then
                    (advance c, c.current_token.int_val)
                  else (c, (-1 : Int))
                else (c, (-1 : Int))
              let (c, _) := expect c TOK_RPAREN (chars "')'")
              (c, loc)
            else (c, (-1 : Int))
          let (c, is_uniform) := match_tok c TOK_UNIFORM
          let (c, is_in) := match_tok c TOK_IN
          let (c, is_out) := match_tok c TOK_OUT
          let (c, _) := match_tok c TOK_CONST
          if is_type_token c.current_token.type then
            let saved_cur := c.current_token
            let saved_peek := c.peek_token
            let saved_pos := c.current
            let saved_line := c.line
            let (c1, _) := parse_type c
            let (c2, is_func) :=
              if check c1 TOK_IDENT then
                let c2 := advance c1
                (c2, check c2 TOK_LPAREN)
              else (c1, false)
            let c := { c2 with
              current_token := saved_cur, peek_token := saved_peek,
              current := saved_pos, line := saved_line }
            let fuelBody := c.current.length + fuel + 16
            let cd :=
              if is_func && !is_uniform && !is_in && !is_out then
                parse_function fuelBody c
              else parse_var_decl fuelBody c is_uniform is_in is_out location
            match cd with
            | (c, some decl) => parse_program_loop fuel c (acc ++ [decl])
            | (c, none) => parse_program_loop fuel c acc
          else
            let c := comp_error c (chars "Expected declaration")
            parse_program_loop fuel (advance c) acc

/-! The code generator of `milo_glsl.c`.  Assembly text is accumulated as
lines; registers and labels are C `int` counters. -/

/-- `emit`: append one formatted line (the C buffer holds 127 characters
plus the terminator), or record `Code too large` at 4096 lines. -/
def emit (c : milo_compiler) (line : List Char) : milo_compiler :=
  if 4096 ≤ c.code.length then comp_error c (chars "Code too large")
  else { c with code := c.code ++ [line.take 127] }

/-- `alloc_reg`: bump allocator, returns the previous counter. -/
def alloc_reg (c : milo_compiler) : milo_compiler × Int :=
  ({ c with next_reg := c.next_reg + 1 }, c.next_reg)

/-- `alloc_label`. -/
def alloc_label (c : milo_compiler) : milo_compiler × Int :=
  ({ c with next_label := c.next_label + 1 }, c.next_label)

/-- `add_constant`: intern a 32-bit word into the constant pool with
deduplication by bit identity; addresses start at `MILO_CONST_BASE_ADDR`
(0x1000) and advance by four bytes. -/
def add_constant (c : milo_compiler) (value : Nat) : milo_compiler × Int :=
  match List.findIdx? (fun v => v == value) c.constants with
  | some i => (c, 4096 + (i : Int) * 4)
  | none =>
    if 256 ≤ c.constants.length then (comp_error c (chars "Too many constants"), 4096)
    else ({ c with constants := c.constants ++ [value] },
      4096 + (c.constants.length : Int) * 4)

/-- `type_size`: component count used for register-range allocation. -/
def type_size (t : milo_type) : Nat :=
  match t with
  | TYPE_FLOAT => 1
  | TYPE_INT => 1
  | TYPE_VEC2 => 2
  | TYPE_VEC3 => 3
  | TYPE_VEC4 => 4
  | TYPE_MAT3 => 9
  | TYPE_MAT4 => 16
  | _ => 1

/-- Allocate `n` consecutive registers after a base allocation (the
`for (i = 1; i < size; i++) alloc_reg(c)` loops). -/
def alloc_regs_n (c : milo_compiler) : Nat → milo_compiler
  | 0 => c
  | n + 1 => alloc_regs_n (alloc_reg c).1 n

/-- First-match symbol lookup (the C scans the table from index 0). -/
def symtab_find (c : milo_compiler) (name : List Char) : Option milo_symbol :=
  List.find? (fun s => s.name == name) c.symtab

/-- The swizzle offset of `gen_expr`'s `NODE_MEMBER` case: first member
character only. -/
def swizzle_offset (memb : List Char) : Int :=
  match memb with
  | m :: _ =>
    if m = 'x' || m = 'r' || m = 's' then 0
    else if m = 'y' || m = 'g' || m = 't' then 1
    else if m = 'z' || m = 'b' || m = 'p' then 2
    else if m = 'w' || m = 'a' || m = 'q' then 3
    else 0
  | [] => 0

/-- The component loop of `gen_expr`'s assignment case: one `mov` (plain
assignment) or one float arithmetic instruction (compound assignment) per
component of the target's type. -/
def gen_assign_components (c : milo_compiler) (op : milo_token_type)
    (mn : List Char) (r val : Int) : Nat → Nat → milo_compiler
  | 0, _ => c
  | size + 1, j =>
    let line :=
      if op == TOK_ASSIGN then
        chars "    mov r" ++ intStr (r + (j : Int)) ++ chars ", r" ++
          intStr (val + (j : Int))
      else
        chars "    " ++ mn ++ chars " r" ++ intStr (r + (j : Int)) ++ chars ", r" ++
          intStr (r + (j : Int)) ++ chars ", r" ++ intStr (val + (j : Int))
    gen_assign_components (emit c line) op mn r val size (j + 1)

/-! The code generator's recursive functions (`gen_expr`, its argument and
constructor loops, `gen_stmt` and the block statement loop) are embedded,
like the parser, as one fuel-indexed dispatcher with one body definition
per C function and named wrappers restoring the C signatures.  One unit of
fuel is spent per call of one generator function by another. -/

/-- One query per recursive generator function of `milo_glsl.c`. -/
inductive gen_q where
  | expr : Option milo_node → gen_q
  | arg_regs : List milo_node → List Int → gen_q
  | ctor_args : List milo_node → Int → Nat → gen_q
  | stmt : Option milo_node → gen_q
  | stmt_list : List milo_node → gen_q

/-- A generator result: a register number (`gen_expr`), a register list
(`gen_arg_regs`), or nothing beyond the updated state. -/
inductive gen_r where
  | reg : Int → gen_r
  | regs : List Int → gen_r
  | unit : gen_r

/-- The register component of a generator result. -/
def gen_r.r : gen_r → Int
  | .reg i => i
  | _ => 0

/-- The register-list component of a generator result. -/
def gen_r.rs : gen_r → List Int
  | .regs l => l
  | _ => []

/-- Fuel exhaustion mirrors each generator function's base case. -/
def gen_q.zero : gen_q → gen_r
  | .expr _ => .reg (-1)
  | .arg_regs _ acc => .regs acc
  | _ => .unit

/-- `gen_expr` of `milo_glsl.c` on a possibly-NULL node (NULL yields
register `-1` as in the C). -/
def gen_expr_body (rec : gen_q → milo_compiler → milo_compiler × gen_r)
    (node : Option milo_node) (c : milo_compiler) : milo_compiler × Int :=
  match node with
  | none => (c, -1)
  | some node =>
    match node with
    | .int_lit val =>
      let (c, r) := alloc_reg c
      if -524288 ≤ val ∧ val ≤ 524287 then
        (emit c (chars "    addi r" ++ intStr r ++ chars ", r0, " ++ intStr val), r)
      else
        let (c, addr) := add_constant c (toBits32 val)
        (emit c (chars "    ldr r" ++ intStr r ++ chars ", r0, " ++ intStr addr ++
          chars "  ; int " ++ intStr val), r)
    | .float_lit bits =>
      let (c, r) := alloc_reg c
      let (c, addr) := add_constant c bits
      (emit c (chars "    ldr r" ++ intStr r ++ chars ", r0, " ++ intStr addr ++
        chars "  ; " ++ fmt6 bits), r)
    | .ident name =>
      match symtab_find c name with
      | some s => (c, s.reg)
      | none => alloc_reg (comp_error c (chars "Undefined variable: " ++ name))
    | .binary op l r =>
      let (c, vl) := rec (.expr (some l)) c
      let left := vl.r
      let (c, vr) := rec (.expr (some r)) c
      let right := vr.r
      let (c, rr) := alloc_reg c
      if op == TOK_GT then
        (emit c (chars "    fslt r" ++ intStr rr ++ chars ", r" ++ intStr right ++
          chars ", r" ++ intStr left), rr)
      else if op == TOK_GE then
        (emit c (chars "    fsle r" ++ intStr rr ++ chars ", r" ++ intStr right ++
          chars ", r" ++ intStr left), rr)
      else if op == TOK_NE then
        let c := emit c (chars "    fseq r" ++ intStr rr ++ chars ", r" ++ intStr left ++
          chars ", r" ++ intStr right)
        (emit c (chars "    xori r" ++ intStr rr ++ chars ", r" ++ intStr rr ++
          chars ", 1"), rr)
      else
        let ops := if op == TOK_PLUS then chars "fadd"
          else if op == TOK_MINUS then chars "fsub"
          else if op == TOK_STAR then chars "fmul"
          else if op == TOK_SLASH then chars "fdiv"
          else if op == TOK_LT then chars "fslt"
          else if op == TOK_LE then chars "fsle"
          else if op == TOK_EQ then chars "fseq"
          else chars "add"
        (emit c (chars "    " ++ ops ++ chars " r" ++ intStr rr ++ chars ", r" ++
          intStr left ++ chars ", r" ++ intStr right), rr)
    | .unary op operand _ =>
      let (c, vo) := rec (.expr operand) c
      let o := vo.r
      let (c, r) := alloc_reg c
      if op == TOK_MINUS then
        (emit c (chars "    fneg r" ++ intStr r ++ chars ", r" ++ intStr o), r)
      else if op == TOK_NOT then
        (emit c (chars "    xori r" ++ intStr r ++ chars ", r" ++ intStr o ++
          chars ", 1"), r)
      else
        (emit c (chars "    mov r" ++ intStr r ++ chars ", r" ++ intStr o), r)
    | .call name args =>
      let (c, va) := rec (.arg_regs (args.take 8) []) c
      let arg_regs := va.rs
      let a := fun (i : Nat) => arg_regs.getD i 0
      let (c, r) := alloc_reg c
      if name == chars "sin" then
        (emit c (chars "    sin r" ++ intStr r ++ chars ", r" ++ intStr (a 0)), r)
      else if name == chars "cos" then
        (emit c (chars "    cos r" ++ intStr r ++ chars ", r" ++ intStr (a 0)), r)
      else if name == chars "sqrt" then
        (emit c (chars "    sqrt r" ++ intStr r ++ chars ", r" ++ intStr (a 0)), r)
      else if name == chars "abs" then
        (emit c (chars "    fabs r" ++ intStr r ++ chars ", r" ++ intStr (a 0)), r)
      else if name == chars "min" then
        (emit c (chars "    fmin r" ++ intStr r ++ chars ", r" ++ intStr (a 0) ++
          chars ", r" ++ intStr (a 1)), r)
      else if name == chars "max" then
        (emit c (chars "    fmax r" ++ intStr r ++ chars ", r" ++ intStr (a 0) ++
          chars ", r" ++ intStr (a 1)), r)
      else if name == chars "clamp" then
        let c := emit c (chars "    fmax r" ++ intStr r ++ chars ", r" ++ intStr (a 0) ++
          chars ", r" ++ intStr (a 1))
        (emit c (chars "    fmin r" ++ intStr r ++ chars ", r" ++ intStr r ++
          chars ", r" ++ intStr (a 2)), r)
      else if name == chars "dot" then
        let (c, t1) := alloc_reg c
        let (c, t2) := alloc_reg c
        let c := emit c (chars "    fmul r" ++ intStr r ++ chars ", r" ++ intStr (a 0) ++
          chars ", r" ++ intStr (a 1))
        let c := emit c (chars "    fmul r" ++ intStr t1 ++ chars ", r" ++
          intStr (a 0 + 1) ++ chars ", r" ++ intStr (a 1 + 1))
        let c := emit c (chars "    fmul r" ++ intStr t2 ++ chars ", r" ++
          intStr (a 0 + 2) ++ chars ", r" ++ intStr (a 1 + 2))
        let c := emit c (chars "    fadd r" ++ intStr r ++ chars ", r" ++ intStr r ++
          chars ", r" ++ intStr t1)
        (emit c (chars "    fadd r" ++ intStr r ++ chars ", r" ++ intStr r ++
          chars ", r" ++ intStr t2), r)
      else if name == chars "normalize" then
        let (c, len) := alloc_reg c
        let c := emit c (chars "    ; normalize (simplified)")
        let c := emit c (chars "    fmul r" ++ intStr len ++ chars ", r" ++ intStr (a 0) ++
          chars ", r" ++ intStr (a 0))
        let c := emit c (chars "    rsq r" ++ intStr len ++ chars ", r" ++ intStr len)
        (emit c (chars "    fmul r" ++ intStr r ++ chars ", r" ++ intStr (a 0) ++
          chars ", r" ++ intStr len), r)
      else if name == chars "texture" then
        (emit c (chars "    tex r" ++ intStr r ++ chars ", r" ++ intStr (a 0) ++
          chars ", r" ++ intStr (a 1)), r)
      else if name == chars "mix" then
        let (c, t) := alloc_reg c
        let c := emit c (chars "    fsub r" ++ intStr t ++ chars ", r" ++ intStr (a 1) ++
          chars ", r" ++ intStr (a 0))
        let c := emit c (chars "    fmul r" ++ intStr t ++ chars ", r" ++ intStr t ++
          chars ", r" ++ intStr (a 2))
        (emit c (chars "    fadd r" ++ intStr r ++ chars ", r" ++ intStr (a 0) ++
          chars ", r" ++ intStr t), r)
      else
        (comp_error c (chars "Unknown function: " ++ name), r)
    | .ctor con_type args =>
      let (c, r) := alloc_reg c
      let size := type_size con_type
      let c := alloc_regs_n c (size - 1)
      let (c, _) := rec (.ctor_args (args.take size) r 0) c
      (c, r)
    | .member obj memb =>
      let (c, vo) := rec (.expr (some obj)) c
      let o := vo.r
      let (c, r) := alloc_reg c
      let offset := swizzle_offset memb
      (emit c (chars "    mov r" ++ intStr r ++ chars ", r" ++ intStr (o + offset) ++
        chars "  ; ." ++ memb), r)
    | .assign target op value =>
      let (c, vv) := rec (.expr value) c
      let val := vv.r
      match target with
      | .ident name =>
        match symtab_find c name with
        | some s =>
          let r := s.reg
          let size := type_size s.type
          let mn := if op == TOK_ASSIGN then chars "mov"
            else if op == TOK_PLUS_ASSIGN then chars "fadd"
            else if op == TOK_MINUS_ASSIGN then chars "fsub"
            else if op == TOK_STAR_ASSIGN then chars "fmul"
            else chars "fdiv"
          (gen_assign_components c op mn r val size 0, r)
        | none => (comp_error c (chars "Undefined variable: " ++ name), val)
      | _ => (c, val)
    | .ternary cond thenE elseE =>
      let (c, vc) := rec (.expr (some cond)) c
      let (c, vt) := rec (.expr thenE) c
      let (c, ve) := rec (.expr elseE) c
      let (c, r) := alloc_reg c
      (emit c (chars "    selp r" ++ intStr r ++ chars ", r" ++ intStr vt.r ++
        chars ", r" ++ intStr ve.r ++ chars ", r" ++ intStr vc.r), r)
    | _ => alloc_reg (comp_error c (chars "Unsupported expression type"))

/-- The argument-register loop of `gen_expr`'s call case (at most eight
arguments are evaluated). -/
def gen_arg_regs_body (rec : gen_q → milo_compiler → milo_compiler × gen_r)
    (args : List milo_node) (acc : List Int) (c : milo_compiler) :
    milo_compiler × List Int :=
  match args with
  | [] => (c, acc)
  | n :: rest =>
    let (c, v) := rec (.expr (some n)) c
    let (c, v2) := rec (.arg_regs rest (acc ++ [v.r])) c
    (c, v2.rs)

/-- The component-move loop of `gen_expr`'s constructor case. -/
def gen_ctor_args_body (rec : gen_q → milo_compiler → milo_compiler × gen_r)
    (args : List milo_node) (r : Int) (i : Nat) (c : milo_compiler) :
    milo_compiler :=
  match args with
  | [] => c
  | n :: rest =>
    let (c, v) := rec (.expr (some n)) c
    let c := emit c (chars "    mov r" ++ intStr (r + (i : Int)) ++ chars ", r" ++
      intStr v.r)
    (rec (.ctor_args rest r (i + 1)) c).1

/-- `gen_stmt` of `milo_glsl.c` on a possibly-NULL node. -/
def gen_stmt_body (rec : gen_q → milo_compiler → milo_compiler × gen_r)
    (node : Option milo_node) (c : milo_compiler) : milo_compiler :=
  match node with
  | none => c
  | some node =>
    match node with
    | .block stmts => (rec (.stmt_list stmts) c).1
    | .var_decl name var_type _ _ _ _ finit =>
      let (c, r) := alloc_reg c
      let size := type_size var_type
      let c := alloc_regs_n c (size - 1)
      let c :=
        if c.symtab.length < 256 then
          { c with symtab := c.symtab ++ [{ name := name, type := var_type, reg := r }] }
        else c
      match finit with
      | some ini =>
        let (c, v) := rec (.expr (some ini)) c
        emit c (chars "    mov r" ++ intStr r ++ chars ", r" ++ intStr v.r ++
          chars "  ; " ++ name)
      | none => c
    | .expr_stmt value => (rec (.expr value) c).1
    | .ret value =>
      let c :=
        match value with
        | some v =>
          let (c, rv) := rec (.expr (some v)) c
          emit c (chars "    mov r1, r" ++ intStr rv.r ++ chars "  ; return value")
        | none => c
      emit c (chars "    ret")
    | .discard_stmt =>
      let c := emit c (chars "    ; discard fragment")
      emit c (chars "    exit")
    | .if_stmt cond then_branch else_branch =>
      let (c, vc) := rec (.expr cond) c
      let (c, else_label) := alloc_label c
      let (c, end_label) := alloc_label c
      let c := emit c (chars "    ssy L" ++ intStr else_label ++ chars "  ; if")
      let c := emit c (chars "    beq r" ++ intStr vc.r ++ chars ", r0, L" ++
        intStr else_label)
      let c := (rec (.stmt then_branch) c).1
      let c :=
        match else_branch with
        | some els =>
          let c := emit c (chars "    bra L" ++ intStr end_label)
          let c := emit c (chars "L" ++ intStr else_label ++ chars ":")
          let c := (rec (.stmt (some els)) c).1
          emit c (chars "L" ++ intStr end_label ++ chars ":")
        | none => emit c (chars "L" ++ intStr else_label ++ chars ":")
      emit c (chars "    join")
    | .for_stmt finit cond post body =>
      let (c, loop_label) := alloc_label c
      let (c, end_label) := alloc_label c
      let c := (rec (.stmt finit) c).1
      let c := emit c (chars "L" ++ intStr loop_label ++ chars ":  ; for loop")
      let c := emit c (chars "    ssy L" ++ intStr end_label)
      let c :=
        match cond with
        | some cnd =>
          let (c, vc) := rec (.expr (some cnd)) c
          emit c (chars "    beq r" ++ intStr vc.r ++ chars ", r0, L" ++
            intStr end_label)
        | none => c
      let c := (rec (.stmt body) c).1
      let c :=
        match post with
        | some p => (rec (.expr (some p)) c).1
        | none => c
      let c := emit c (chars "    bra L" ++ intStr loop_label)
      let c := emit c (chars "L" ++ intStr end_label ++ chars ":")
      emit c (chars "    join")
    | .while_stmt cond body =>
      let (c, loop_label) := alloc_label c
      let (c, end_label) := alloc_label c
      let c := emit c (chars "L" ++ intStr loop_label ++ chars ":  ; while loop")
      let c := emit c (chars "    ssy L" ++ intStr end_label)
      let (c, vc) := rec (.expr cond) c
      let c := emit c (chars "    beq r" ++ intStr vc.r ++ chars ", r0, L" ++
        intStr end_label)
      let c := (rec (.stmt body) c).1
      let c := emit c (chars "    bra L" ++ intStr loop_label)
      let c := emit c (chars "L" ++ intStr end_label ++ chars ":")
      emit c (chars "    join")
    | .break_stmt => emit c (chars "    join  ; break")
    | .continue_stmt => emit c (chars "    ; continue (TODO)")
    | _ => c

/-- Statement-list fold for blocks. -/
def gen_stmt_list_body (rec : gen_q → milo_compiler → milo_compiler × gen_r)
    (stmts : List milo_node) (c : milo_compiler) : milo_compiler :=
  match stmts with
  | [] => c
  | s :: rest =>
    let (c, _) := rec (.stmt (some s)) c
    (rec (.stmt_list rest) c).1

/-- The generator dispatcher: one fuel unit per call of a generator
function. -/
def gen_go : Nat → gen_q → milo_compiler → milo_compiler × gen_r
  | 0, q, c => (c, q.zero)
  | fuel + 1, q, c =>
    match q with
    | .expr node =>
      let (c, r) := gen_expr_body (gen_go fuel) node c
      (c, .reg r)
    | .arg_regs args acc =>
      let (c, l) := gen_arg_regs_body (gen_go fuel) args acc c
      (c, .regs l)
    | .ctor_args args r i => (gen_ctor_args_body (gen_go fuel) args r i c, .unit)
    | .stmt node => (gen_stmt_body (gen_go fuel) node c, .unit)
    | .stmt_list stmts => (gen_stmt_list_body (gen_go fuel) stmts c, .unit)

/-- `gen_expr` of `milo_glsl.c`, with its C signature. -/
def gen_expr (fuel : Nat) (c : milo_compiler) (node : Option milo_node) :
    milo_compiler × Int :=
  let (c, r) := gen_go fuel (.expr node) c
  (c, r.r)

/-- `gen_stmt` of `milo_glsl.c`, with its C signature. -/
def gen_stmt (fuel : Nat) (c : milo_compiler) (node : Option milo_node) :
    milo_compiler :=
  (gen_go fuel (.stmt node) c).1

/-- The parameter-binding loop of `gen_function`: parameters are recorded
in the symbol table at consecutive registers from the current cursor, and
the cursor advances only inside the capacity check. -/
def gen_fn_params (c : milo_compiler) : List milo_node → Int → milo_compiler × Int
  | [], param_reg => (c, param_reg)
  | p :: rest, param_reg =>
    match p with
    | .param name ptype =>
      if c.symtab.length < 256 then
        let c := { c with symtab := c.symtab ++ [{ name := name, type := ptype, reg := param_reg }] }
        gen_fn_params c rest (param_reg + (type_size ptype : Int))
      else gen_fn_params c rest param_reg
    | _ => gen_fn_params c rest param_reg

/-- `gen_function` of `milo_glsl.c`. -/
def gen_function (fuel : Nat) (c : milo_compiler) (name : List Char)
    (params : List milo_node) (body : Option milo_node) : milo_compiler :=
  let c := emit c (chars "; Function: " ++ name)
  let c := emit c (name ++ chars ":")
  let (c, param_reg) := gen_fn_params c params c.next_reg
  let c := if c.next_reg < param_reg then { c with next_reg := param_reg } else c
  let c := gen_stmt fuel c body
  let c := if name == chars "main" then emit c (chars "    exit") else emit c (chars "    ret")
  emit c (chars "")

/-- Pass 1 of `gen_program`: register allocation and header comments for
top-level variable declarations. -/
def gen_program_vars (c : milo_compiler) : List milo_node → milo_compiler
  | [] => c
  | d :: rest =>
    match d with
    | .var_decl name var_type is_uniform is_in is_out location _ =>
      let (c, r) := alloc_reg c
      let c := alloc_regs_n c (type_size var_type - 1)
      let c :=
        if c.symtab.length < 256 then
          { c with symtab := c.symtab ++
            [{ name := name, type := var_type, reg := r, is_uniform := is_uniform,
               is_in := is_in, is_out := is_out, location := location }] }
        else c
      let qual := if is_uniform then chars "uniform "
        else if is_in then chars "in "
        else if is_out then chars "out "
        else chars ""
      let c := emit c (chars "; " ++ qual ++ name ++ chars " -> r" ++ intStr r)
      gen_program_vars c rest
    | _ => gen_program_vars c rest

/-- Pass 2 of `gen_program`: function bodies. -/
def gen_program_fns (fuel : Nat) (c : milo_compiler) : List milo_node → milo_compiler
  | [] => c
  | d :: rest =>
    match d with
    | .function name _ params body =>
      gen_program_fns fuel (gen_function fuel c name params body) rest
    | _ => gen_program_fns fuel c rest

/-- `gen_program` of `milo_glsl.c`. -/
def gen_program (fuel : Nat) (c : milo_compiler) (decls : List milo_node) :
    milo_compiler :=
  let c := emit c (chars "; Milo832 GPU Shader")
  let c := emit c (chars "; Generated by milo_glsl compiler")
  let c := emit c (chars "")
  let c := gen_program_vars c decls
  let c := emit c (chars "")
  gen_program_fns fuel c decls

/-- `milo_glsl_compile` of `milo_glsl.c`: initialise (`milo_glsl_init`
zeroes the state and reserves r0/r1), lex the two-token lookahead, parse,
and generate code unless parsing recorded errors.  Returns the final state
and the success flag. -/
def milo_glsl_compile (source : List Char) (is_vertex : Bool) :
    milo_compiler × Bool :=
  let c : milo_compiler := {
    current := source, line := 1,
    is_vertex := is_vertex, is_fragment := !is_vertex }
  let (c1, t1) := scan_token c
  let c := { c1 with current_token := t1 }
  let (c2, t2) := scan_token c
  let c := { c2 with peek_token := t2 }
  let fuel := source.length + 16
  let (c, decls) := parse_program_loop fuel c []
  if c.errors.length > 0 then (c, false)
  else
    let c := gen_program fuel c decls
    (c, c.errors.length == 0)

/-- Per-constant `.data` lines of the generated data section. -/
def const_data_lines (consts : List Nat) (i : Nat) : List Char :=
  match consts with
  | [] => []
  | v :: rest =>
    chars ".data 0x" ++ hexStr (4096 + i * 4) 4 ++ chars ", 0x" ++ hexStr v 8 ++
      chars "  ; " ++ fmt6 v ++ chars "\n" ++ const_data_lines rest (i + 1)

/-- `milo_glsl_get_asm` of `milo_glsl.c`: the emitted lines each followed
by a newline, then, when constants were interned, the `.data` section. -/
def milo_glsl_get_asm (c : milo_compiler) : List Char :=
  let codeText := (c.code.map fun l => l ++ ['\n']).flatten
  if c.constants.length > 0 then
    codeText ++ chars "\n; Constant data section\n" ++
      chars "; Base address: 0x" ++ hexStr 4096 4 ++ chars " (" ++
      natStr c.constants.length ++ chars " constants)\n" ++
      const_data_lines c.constants 0
  else codeText

/-- C3 counterexample: at the concrete word `w = 0` the predicate nibble at
bits 31..28 is `0`, but decode-then-encode produces a word whose predicate
nibble is `0x7`; so `encode (decode w) ≠ w` even on the fields the encoder
populates, refuting the unconditional round-trip of the predicate nibble. -/
theorem C3_pred_nibble_cex :
    (milo_encode_inst (milo_decode_inst 0) >>> 28) &&& 15 = 7 ∧
    ((0 : Nat) >>> 28) &&& 15 = 0 ∧
    milo_encode_inst (milo_decode_inst 0) ≠ 0 := by decide

/-! Claim theorems. -/

/-- A `strtof` stand-in for assembling texts that contain no dotted
immediate operands: it is never consulted on the programs below. -/
def noFp : List Char → Option Nat := fun _ => none

/-- The gradient fragment shader of spec scenario 1. -/
def gradient_source : List Char :=
  chars "in vec2 v_texcoord; out vec4 fragColor; void main(){ fragColor = vec4(v_texcoord.x, v_texcoord.y, 0.5, 1.0); }"

set_option maxHeartbeats 4000000 in
/-- C1: the end-to-end gradient scenario does not succeed on this code.
`milo_glsl_compile` accepts the shader, but the generated assembly ends in
two `.data` lines for the interned constants `0.5` and `1.0`, and
`milo_vm_load_asm` runs the whole text through `milo_asm_source`, whose
mnemonic table has no `.data` entry: loading fails at the first `.data`
line with `Unknown instruction`, so `milo_vm_exec_fragment` is never
reached with a loaded program.  (The `.data` memory scan inside
`milo_vm_load_asm` would implement the intended semantics but sits after
the failing assembly call.) -/
theorem C1_gradient_pipeline_fails_at_load :
    (milo_glsl_compile gradient_source false).2 = true ∧
    (milo_glsl_get_asm (milo_glsl_compile gradient_source false).1).take 60 =
      chars "; Milo832 GPU Shader\n; Generated by milo_glsl compiler\n\n; in" ∧
    (milo_vm_load_asm noFp milo_vm_init
      (milo_glsl_get_asm (milo_glsl_compile gradient_source false).1)).1 = false ∧
    (milo_vm_load_asm noFp milo_vm_init
      (milo_glsl_get_asm (milo_glsl_compile gradient_source false).1)).2.error =
      some "Assembly error: Line 26: Unknown instruction: .data" := by
  decide

/-- A minimal assembly unit with one `.data` directive and one valid
instruction line. -/
def data_example : List Char := chars ".data 0x1000, 0x00000001\nexit\n"

/-- C2: loading an assembly text that contains a `.data` directive fails.
`milo_vm_load_asm` first assembles every line via `milo_asm_source`, and
`milo_asm_line` treats `.data` as an unknown mnemonic; the directive scan
inside `milo_vm_load_asm` (which does place the word, as the third
conjunct shows by running it directly) is unreachable for any text
containing `.data`. -/
theorem C2_data_directive_rejected_by_loader :
    (milo_vm_load_asm noFp milo_vm_init data_example).1 = false ∧
    (milo_vm_load_asm noFp milo_vm_init data_example).2.error =
      some "Assembly error: Line 1: Unknown instruction: .data" ∧
    dataScan (data_example.length + 1) (fun _ => 0) data_example 1024 = 1 ∧
    dataScan (data_example.length + 1) (fun _ => 0) data_example 0 = 0 := by
  decide

/-- The compiled shape of a GLSL `if` with a nonzero condition: `addi`
materialises the condition value 1 into r2, then `beq r2, r0, L1` guards
the then-branch (`addi r3, r0, 5`), exactly as `gen_stmt` emits for
`if`. -/
def beq_example : List Char :=
  chars "addi r2, r0, 1\nbeq r2, r0, L1\naddi r3, r0, 5\nL1: exit"

set_option maxHeartbeats 4000000 in
/-- C5: the emitted `beq cond, r0, else` branch is always taken, even when
the condition register is nonzero, so the then-branch never runs.  The
assembler's operand loop maps the first operand of a `rrl`-format
instruction into the `rd` field (word bits 55..48 hold 2, bits 47..40 and
39..32 hold 0), while the VM's `beq` compares `regs[rs1]` with
`regs[rs2]`; both fields name register 0 here, so the comparison is
`0 == 0` regardless of the condition.  Concretely: after execution the
condition register r2 holds 1 (nonzero) but r3 still holds 0 (the
then-branch was skipped), and single-stepping shows the branch jumped to
the label at address 3. -/
theorem C5_if_branch_always_taken :
    (milo_vm_load_asm noFp milo_vm_init beq_example).1 = true ∧
    (((milo_vm_load_asm noFp milo_vm_init beq_example).2.code.getD 1 0 >>> 48) &&& 255 = 2 ∧
     ((milo_vm_load_asm noFp milo_vm_init beq_example).2.code.getD 1 0 >>> 40) &&& 255 = 0 ∧
     ((milo_vm_load_asm noFp milo_vm_init beq_example).2.code.getD 1 0 >>> 32) &&& 255 = 0) ∧
    (milo_vm_exec_fragment zeroFloatOps
      (milo_vm_load_asm noFp milo_vm_init beq_example).2 {}).1 = true ∧
    (milo_vm_exec_fragment zeroFloatOps
      (milo_vm_load_asm noFp milo_vm_init beq_example).2 {}).2.1.regs 2 = 1 ∧
    (milo_vm_exec_fragment zeroFloatOps
      (milo_vm_load_asm noFp milo_vm_init beq_example).2 {}).2.1.regs 3 = 0 ∧
    (vm_step zeroFloatOps (vm_step zeroFloatOps
      (frag_reset (milo_vm_load_asm noFp milo_vm_init beq_example).2 {})).2).2.pc = 3 := by
  decide



/-- Every opcode number in the mnemonic table fits in the opcode byte. -/
theorem opcode_table_opcode_lt : ∀ e ∈ opcode_table, e.opcode < 256 := by decide

/-- A parsed register index fits in a field byte. -/
theorem parse_register_lt (s : List Char) (r : Nat)
    (h : parse_register s = some r) : r < 256 := by
  unfold parse_register at h
  split at h
  · split at h
    · split at h
      · split at h
        · injection h with h
          omega
        · cases h
    · cases h
  · cases h

/-- The operand loop never touches `pred` or `opcode`, never changes the
emitted code, and keeps every register field inside its byte. -/
theorem asm_apply_fmt_ok (fp : List Char → Option Nat) (n : Nat) :
    ∀ (fmt : List Char) (args : List (List Char)) (j : Nat)
      (inst : milo_inst) (st : milo_asm_state) (out : milo_inst × milo_asm_state),
      asm_apply_fmt fp n fmt args j inst st = .ok out →
      out.1.pred = inst.pred ∧ out.1.opcode = inst.opcode ∧ out.2.code = st.code ∧
      (inst.rd < 256 → out.1.rd < 256) ∧ (inst.rs1 < 256 → out.1.rs1 < 256) ∧
      (inst.rs2 < 256 → out.1.rs2 < 256) ∧ (inst.rs3 < 256 → out.1.rs3 < 256)
  | [], args, j, inst, st, out, h => by
    cases args <;>
      · rw [asm_apply_fmt] at h
        cases h
        exact ⟨rfl, rfl, rfl, id, id, id, id⟩
  | _ :: _, [], j, inst, st, out, h => by
    rw [asm_apply_fmt] at h
    · cases h
      exact ⟨rfl, rfl, rfl, id, id, id, id⟩
    · simp
  | f :: fs, arg :: rest, j, inst, st, out, h => by
    rw [asm_apply_fmt] at h
    split at h
    · -- register operand
      split at h
      · cases h
      · next reg hpr =>
        have hreg := parse_register_lt arg reg hpr
        split at h
        · obtain ⟨p1, p2, p3, p4, p5, p6, p7⟩ := asm_apply_fmt_ok fp n fs rest _ _ _ _ h
          exact ⟨p1, p2, p3, fun _ => p4 hreg, p5, p6, p7⟩
        · split at h
          · obtain ⟨p1, p2, p3, p4, p5, p6, p7⟩ := asm_apply_fmt_ok fp n fs rest _ _ _ _ h
            exact ⟨p1, p2, p3, p4, fun _ => p5 hreg, p6, p7⟩
          · split at h
            · obtain ⟨p1, p2, p3, p4, p5, p6, p7⟩ := asm_apply_fmt_ok fp n fs rest _ _ _ _ h
              exact ⟨p1, p2, p3, p4, p5, fun _ => p6 hreg, p7⟩
            · obtain ⟨p1, p2, p3, p4, p5, p6, p7⟩ := asm_apply_fmt_ok fp n fs rest _ _ _ _ h
              exact ⟨p1, p2, p3, p4, p5, p6, fun _ => p7 hreg⟩
    · -- not a register operand
      split at h
      · -- immediate operand
        split at h
        · -- float immediate
          split at h
          · cases h
          · have hrec := asm_apply_fmt_ok fp n fs rest _ _ _ _ h
            exact hrec
        · -- integer immediate
          split at h
          · cases h
          · have hrec := asm_apply_fmt_ok fp n fs rest _ _ _ _ h
            exact hrec
      · split at h
        · -- label operand
          split at h
          · cases h
          · have hrec := asm_apply_fmt_ok fp n fs rest _ _ _ _ h
            exact hrec
        · -- other format characters
          have hrec := asm_apply_fmt_ok fp n fs rest _ _ _ _ h
          exact hrec

/-- Predicate nibble of a packed word whose low 28 bits are bounded. -/
theorem poly_pred_any (o d s1 s2 r : Nat) (hr : r < 2 ^ 28) :
    (o * 2 ^ 56 + d * 2 ^ 48 + s1 * 2 ^ 40 + s2 * 2 ^ 32 + 7 * 2 ^ 28 + r)
      / 2 ^ 28 % 16 = 7 := by
  rw [show o * 2 ^ 56 + d * 2 ^ 48 + s1 * 2 ^ 40 + s2 * 2 ^ 32 + 7 * 2 ^ 28 + r =
      (o * 2 ^ 28 + d * 2 ^ 20 + s1 * 2 ^ 12 + s2 * 2 ^ 4 + 7) * 2 ^ 28 + r by ring,
    div_mod_extract _ 28 _ 16 hr]
  omega

/-- The encoder writes the default guard `0x7` into bits 31..28 whenever the
record's `pred` is zero, in both 2- and 3-operand forms. -/
theorem milo_encode_pred_nibble (inst : milo_inst)
    (ho : inst.opcode < 256) (hd : inst.rd < 256) (h1 : inst.rs1 < 256)
    (h2 : inst.rs2 < 256) (h3 : inst.rs3 < 256) (hp : inst.pred = 0) :
    (milo_encode_inst inst >>> 28) &&& 15 = 7 := by
  rw [milo_encode_inst_arith inst ho hd h1 h2 h3, hp]
  have him : inst.imm % 2 ^ 20 < 2 ^ 20 := Nat.mod_lt _ (by norm_num)
  have hr : (if inst.has_rs3 then inst.rs3 * 2 ^ 20 else 0) + inst.imm % 2 ^ 20
      < 2 ^ 28 := by
    split
    · nlinarith
    · omega
  simp only [ne_eq, not_true_eq_false, ite_false, if_false]
  rw [Nat.shiftRight_eq_div_pow, and_15,
    show inst.opcode * 2 ^ 56 + inst.rd * 2 ^ 48 + inst.rs1 * 2 ^ 40 +
        inst.rs2 * 2 ^ 32 + 7 * 2 ^ 28 +
        (if inst.has_rs3 then inst.rs3 * 2 ^ 20 else 0) + inst.imm % 2 ^ 20 =
      inst.opcode * 2 ^ 56 + inst.rd * 2 ^ 48 + inst.rs1 * 2 ^ 40 +
        inst.rs2 * 2 ^ 32 + 7 * 2 ^ 28 +
        ((if inst.has_rs3 then inst.rs3 * 2 ^ 20 else 0) + inst.imm % 2 ^ 20)
      by ring]
  exact poly_pred_any _ _ _ _ _ hr

/-- The instruction-emitting half of `milo_asm_line` only appends words
carrying the default predicate nibble. -/
theorem milo_asm_line_inst_pred (fp : List Char → Option Nat)
    (as : milo_asm_state) (p : List Char) (n : Nat) (as' : milo_asm_state)
    (h : milo_asm_line_inst fp as p n = .ok as') :
    ∀ w ∈ as'.code, w ∈ as.code ∨ (w >>> 28) &&& 15 = 7 := by
  simp only [milo_asm_line_inst] at h
  split at h
  · cases h
  · next op hop =>
    split at h
    · cases h
    · next inst1 st1 happ =>
      split at h
      · cases h
      · cases h
        intro w hw
        obtain ⟨q1, q2, q3, q4, q5, q6, q7⟩ := asm_apply_fmt_ok fp n _ _ _ _ _ _ happ
        rcases List.mem_append.mp hw with hin | hone
        · exact .inl (q3 ▸ hin)
        · right
          have hw7 : w = milo_encode_inst inst1 := by simpa using hone
          subst hw7
          have q2' : inst1.opcode = op.opcode := q2
          refine milo_encode_pred_nibble inst1 ?_ ?_ ?_ ?_ ?_ ?_
          · rw [q2']
            exact opcode_table_opcode_lt op (List.mem_of_find?_eq_some hop)
          · exact q4 (by show (0:Nat) < 256; decide)
          · exact q5 (by show (0:Nat) < 256; decide)
          · exact q6 (by show (0:Nat) < 256; decide)
          · exact q7 (by show (0:Nat) < 256; decide)
          · exact q1

/-- C4 test form. -/
theorem C4_pred_nibble_default (fp : List Char → Option Nat)
    (as as' : milo_asm_state) (line : List Char) (n : Nat)
    (h : milo_asm_line fp as line n = .ok as')
    (hprev : ∀ w ∈ as.code, (w >>> 28) &&& 15 = 7) :
    ∀ w ∈ as'.code, (w >>> 28) &&& 15 = 7 := by
  simp only [milo_asm_line] at h
  split at h
  · cases h
    exact hprev
  · split at h
    · split at h
      · cases h
      · split at h
        · cases h
          exact hprev
        · intro w hw
          rcases milo_asm_line_inst_pred fp _ _ n as' h w hw with hin | h7
          · exact hprev w hin
          · exact h7
    · intro w hw
      rcases milo_asm_line_inst_pred fp _ _ n as' h w hw with hin | h7
      · exact hprev w hin
      · exact h7

/-- The low 32 bits of a patched word are exactly the OR-ed address. -/
theorem mask_lo32_or (w a : Nat) (ha : a < 4294967296) :
    ((w &&& 18446744069414584320) ||| a) &&& 4294967295 = a := by
  have h0 : (w &&& 18446744069414584320) &&& 4294967295 = 0 := by
    rw [Nat.and_assoc, show (18446744069414584320 &&& 4294967295 : Nat) = 0 by decide,
      Nat.and_zero]
  have h1 : (w &&& 18446744069414584320) % 4294967296 = 0 := by
    rw [← and_ffffffff]
    exact h0
  rw [lor_eq_add 32 _ a (by exact_mod_cast h1) ha, and_ffffffff]
  omega

/-- The patch loop fails exactly when some unresolved reference names a
label that is not defined. -/
theorem resolve_go_error_iff (labels : List (List Char × Nat)) :
    ∀ (us : List unresolved_t) (code : List Nat),
      (∃ e, milo_asm_resolve_go labels us code = .error e) ↔
        ∃ u ∈ us, ∀ l ∈ labels, l.1 ≠ u.label := by
  intro us
  induction us with
  | nil => intro code; simp [milo_asm_resolve_go]
  | cons u us ih =>
    intro code
    rw [milo_asm_resolve_go]
    rcases hf : labels.find? (fun l => l.1 == u.label) with _ | l
    · simp only [hf]
      constructor
      · intro _
        refine ⟨u, List.mem_cons_self u us, fun l hl => ?_⟩
        have := List.find?_eq_none.mp hf l hl
        simpa using this
      · intro _; exact ⟨_, rfl⟩
    · simp only [hf]
      rw [ih]
      constructor
      · rintro ⟨u', hu', hnone⟩
        exact ⟨u', List.mem_cons_of_mem u hu', hnone⟩
      · rintro ⟨u', hu', hnone⟩
        rcases List.mem_cons.mp hu' with rfl | hmem
        · exfalso
          have hpred := List.find?_some hf
          exact hnone l (List.mem_of_find?_eq_some hf) (by simpa using hpred)
        · exact ⟨u', hmem, hnone⟩

/-- On success the patch loop leaves every word alone or stamps some defined
label's address into its low 32 bits. -/
theorem resolve_go_sound (labels : List (List Char × Nat))
    (hlab : ∀ l ∈ labels, l.2 < 4294967296) :
    ∀ (us : List unresolved_t) (code code' : List Nat),
      milo_asm_resolve_go labels us code = .ok code' →
      code'.length = code.length ∧
      ∀ i, i < code.length →
        (code'.getD i 0 = code.getD i 0 ∧ ∀ u ∈ us, u.address ≠ i) ∨
        (∃ l ∈ labels, code'.getD i 0 &&& 4294967295 = l.2) := by
  intro us
  induction us with
  | nil =>
    intro code code' h
    rw [milo_asm_resolve_go] at h
    cases h
    exact ⟨rfl, fun i _ => .inl ⟨rfl, by simp⟩⟩
  | cons u us ih =>
    intro code code' h
    rw [milo_asm_resolve_go] at h
    rcases hf : labels.find? (fun l => l.1 == u.label) with _ | l
    · rw [hf] at h; cases h
    · rw [hf] at h
      obtain ⟨hlen, hinv⟩ := ih _ _ h
      have hlmem : l ∈ labels := List.mem_of_find?_eq_some hf
      have hsetlen : (code.set u.address ((code.getD u.address 0 &&&
          18446744069414584320) ||| l.2)).length = code.length := List.length_set ..
      refine ⟨by rw [hlen, hsetlen], fun i hi => ?_⟩
      rcases hinv i (by rw [hsetlen]; exact hi) with ⟨heq, hnone⟩ | hhit
      · by_cases hadr : u.address = i
        · subst hadr
          right
          refine ⟨l, hlmem, ?_⟩
          rw [heq, List.getD_eq_getElem?_getD, List.getElem?_set_self (by omega),
            Option.getD_some]
          exact mask_lo32_or _ _ (hlab l hlmem)
        · left
          refine ⟨?_, fun u' hu' => ?_⟩
          · rw [heq, List.getD_eq_getElem?_getD, List.getElem?_set_ne hadr,
              ← List.getD_eq_getElem?_getD]
          · rcases List.mem_cons.mp hu' with rfl | hm
            · exact hadr
            · exact hnone u' hm
      · right; exact hhit

/-- C6 test form: totality and soundness of label resolution, with the
one-line program of the spec. -/
theorem C6_label_resolution :
    (∀ (labels : List (List Char × Nat)) (us : List unresolved_t) (code : List Nat),
      (∃ e, milo_asm_resolve_go labels us code = .error e) ↔
        ∃ u ∈ us, ∀ l ∈ labels, l.1 ≠ u.label) ∧
    (∀ as as' : milo_asm_state, (∀ l ∈ as.labels, l.2 < 4294967296) →
      milo_asm_resolve as = .ok as' →
      (∀ u ∈ as.unresolved, ∃ l ∈ as.labels, l.1 = u.label) ∧
      ∀ u ∈ as.unresolved, u.address < as.code.length →
        ∃ name addr, (name, addr) ∈ as.labels ∧
          as'.code.getD u.address 0 &&& 4294967295 = addr) ∧
    (milo_asm_source noFp {} (chars "L: bra L") =
        .ok { code := [2449958197289549824], labels := [(chars "L", 0)],
              unresolved := [] } ∧
      2449958197289549824 &&& 4294967295 = 0 ∧
      (2449958197289549824 >>> 56) &&& 255 = OP_BRA) := by
  refine ⟨resolve_go_error_iff, ?_, by decide⟩
  intro as as' hlab hok
  unfold milo_asm_resolve at hok
  rcases hres : milo_asm_resolve_go as.labels as.unresolved as.code with e2 | code2
  · simp only [hres] at hok
    cases hok
  · simp only [hres] at hok
    cases hok
    constructor
    · intro u hu
      by_contra hnot
      push_neg at hnot
      have herr : ∃ e, milo_asm_resolve_go as.labels as.unresolved as.code = .error e :=
        (resolve_go_error_iff as.labels as.unresolved as.code).mpr
          ⟨u, hu, fun l hl => hnot l hl⟩
      rcases herr with ⟨e, herr⟩
      rw [herr] at hres
      cases hres
    · intro u hu haddr
      obtain ⟨hlen, hinv⟩ := resolve_go_sound as.labels hlab as.unresolved as.code _ hres
      rcases hinv u.address haddr with ⟨_, hnone⟩ | ⟨l, hl, hword⟩
      · exact absurd rfl (hnone u hu)
      · exact ⟨l.1, l.2, by simpa using hl, hword⟩

/-- C4 counterexample test form: after resolution the one-line program's
word carries predicate nibble 0, not 0x7. -/
theorem C4_resolved_pred_cex :
    milo_asm_source noFp {} (chars "L: bra L") =
      .ok { code := [2449958197289549824], labels := [(chars "L", 0)],
            unresolved := [] } ∧
    ((2449958197289549824 : Nat) >>> 28) &&& 15 = 0 ∧
    milo_asm_line noFp {} (chars "L: bra L") 1 =
      .ok { code := [2449958199168598016], labels := [(chars "L", 0)],
            unresolved := [⟨0, chars "L", 1⟩] } ∧
    ((2449958199168598016 : Nat) >>> 28) &&& 15 = 7 := by
  decide

/-- Every early return of the opcode dispatch keeps register 0 at zero. -/
theorem vm_dispatch_inl_reg0 (fops : FloatOps) (vm : milo_vm)
    (op rd rs1 rs2 rs3 imm u1 u2 : Nat) (i1 i2 : Int)
    (h0 : vm.regs 0 = 0) (r : Bool × milo_vm)
    (heq : vm_dispatch fops vm op rd rs1 rs2 rs3 imm u1 u2 i1 i2 = .inl r) :
    r.2.regs 0 = 0 := by
  rw [vm_dispatch.eq_def] at heq
  by_cases hc0 : op = OP_NOP
  · rw [if_pos hc0] at heq
    try simp only [] at heq
    all_goals
      first
      | exact Sum.noConfusion heq
      | (injection heq with heq2; subst heq2; exact h0)
      | (repeat' split at heq
         all_goals
           try simp only [] at heq
           all_goals
             first
             | exact Sum.noConfusion heq
             | (injection heq with heq2; subst heq2; exact h0))
  rw [if_neg hc0] at heq
  by_cases hc1 : op = OP_EXIT
  · rw [if_pos hc1] at heq
    try simp only [] at heq
    all_goals
      first
      | exact Sum.noConfusion heq
      | (injection heq with heq2; subst heq2; exact h0)
      | (repeat' split at heq
         all_goals
           try simp only [] at heq
           all_goals
             first
             | exact Sum.noConfusion heq
             | (injection heq with heq2; subst heq2; exact h0))
  rw [if_neg hc1] at heq
  by_cases hc2 : op = OP_MOV
  · rw [if_pos hc2] at heq
    try simp only [] at heq
    all_goals
      first
      | exact Sum.noConfusion heq
      | (injection heq with heq2; subst heq2; exact h0)
      | (repeat' split at heq
         all_goals
           try simp only [] at heq
           all_goals
             first
             | exact Sum.noConfusion heq
             | (injection heq with heq2; subst heq2; exact h0))
  rw [if_neg hc2] at heq
  by_cases hc3 : op = OP_ADD
  · rw [if_pos hc3] at heq
    try simp only [] at heq
    all_goals
      first
      | exact Sum.noConfusion heq
      | (injection heq with heq2; subst heq2; exact h0)
      | (repeat' split at heq
         all_goals
           try simp only [] at heq
           all_goals
             first
             | exact Sum.noConfusion heq
             | (injection heq with heq2; subst heq2; exact h0))
  rw [if_neg hc3] at heq
  by_cases hc4 : op = OP_SUB
  · rw [if_pos hc4] at heq
    try simp only [] at heq
    all_goals
      first
      | exact Sum.noConfusion heq
      | (injection heq with heq2; subst heq2; exact h0)
      | (repeat' split at heq
         all_goals
           try simp only [] at heq
           all_goals
             first
             | exact Sum.noConfusion heq
             | (injection heq with heq2; subst heq2; exact h0))
  rw [if_neg hc4] at heq
  by_cases hc5 : op = OP_MUL
  · rw [if_pos hc5] at heq
    try simp only [] at heq
    all_goals
      first
      | exact Sum.noConfusion heq
      | (injection heq with heq2; subst heq2; exact h0)
      | (repeat' split at heq
         all_goals
           try simp only [] at heq
           all_goals
             first
             | exact Sum.noConfusion heq
             | (injection heq with heq2; subst heq2; exact h0))
  rw [if_neg hc5] at heq
  by_cases hc6 : op = OP_NEG
  · rw [if_pos hc6] at heq
    try simp only [] at heq
    all_goals
      first
      | exact Sum.noConfusion heq
      | (injection heq with heq2; subst heq2; exact h0)
      | (repeat' split at heq
         all_goals
           try simp only [] at heq
           all_goals
             first
             | exact Sum.noConfusion heq
             | (injection heq with heq2; subst heq2; exact h0))
  rw [if_neg hc6] at heq
  by_cases hc7 : op = OP_IDIV
  · rw [if_pos hc7] at heq
    try simp only [] at heq
    all_goals
      first
      | exact Sum.noConfusion heq
      | (injection heq with heq2; subst heq2; exact h0)
      | (repeat' split at heq
         all_goals
           try simp only [] at heq
           all_goals
             first
             | exact Sum.noConfusion heq
             | (injection heq with heq2; subst heq2; exact h0))
  rw [if_neg hc7] at heq
  by_cases hc8 : op = OP_IREM
  · rw [if_pos hc8] at heq
    try simp only [] at heq
    all_goals
      first
      | exact Sum.noConfusion heq
      | (injection heq with heq2; subst heq2; exact h0)
      | (repeat' split at heq
         all_goals
           try simp only [] at heq
           all_goals
             first
             | exact Sum.noConfusion heq
             | (injection heq with heq2; subst heq2; exact h0))
  rw [if_neg hc8] at heq
  by_cases hc9 : op = OP_IABS
  · rw [if_pos hc9] at heq
    try simp only [] at heq
    all_goals
      first
      | exact Sum.noConfusion heq
      | (injection heq with heq2; subst heq2; exact h0)
      | (repeat' split at heq
         all_goals
           try simp only [] at heq
           all_goals
             first
             | exact Sum.noConfusion heq
             | (injection heq with heq2; subst heq2; exact h0))
  rw [if_neg hc9] at heq
  by_cases hc10 : op = OP_IMIN
  · rw [if_pos hc10] at heq
    try simp only [] at heq
    all_goals
      first
      | exact Sum.noConfusion heq
      | (injection heq with heq2; subst heq2; exact h0)
      | (repeat' split at heq
         all_goals
           try simp only [] at heq
           all_goals
             first
             | exact Sum.noConfusion heq
             | (injection heq with heq2; subst heq2; exact h0))
  rw [if_neg hc10] at heq
  by_cases hc11 : op = OP_IMAX
  · rw [if_pos hc11] at heq
    try simp only [] at heq
    all_goals
      first
      | exact Sum.noConfusion heq
      | (injection heq with heq2; subst heq2; exact h0)
      | (repeat' split at heq
         all_goals
           try simp only [] at heq
           all_goals
             first
             | exact Sum.noConfusion heq
             | (injection heq with heq2; subst heq2; exact h0))
  rw [if_neg hc11] at heq
  by_cases hc12 : op = OP_IMAD
  · rw [if_pos hc12] at heq
    try simp only [] at heq
    all_goals
      first
      | exact Sum.noConfusion heq
      | (injection heq with heq2; subst heq2; exact h0)
      | (repeat' split at heq
         all_goals
           try simp only [] at heq
           all_goals
             first
             | exact Sum.noConfusion heq
             | (injection heq with heq2; subst heq2; exact h0))
  rw [if_neg hc12] at heq
  by_cases hc13 : op = OP_SLT
  · rw [if_pos hc13] at heq
    try simp only [] at heq
    all_goals
      first
      | exact Sum.noConfusion heq
      | (injection heq with heq2; subst heq2; exact h0)
      | (repeat' split at heq
         all_goals
           try simp only [] at heq
           all_goals
             first
             | exact Sum.noConfusion heq
             | (injection heq with heq2; subst heq2; exact h0))
  rw [if_neg hc13] at heq
  by_cases hc14 : op = OP_SLE
  · rw [if_pos hc14] at heq
    try simp only [] at heq
    all_goals
      first
      | exact Sum.noConfusion heq
      | (injection heq with heq2; subst heq2; exact h0)
      | (repeat' split at heq
         all_goals
           try simp only [] at heq
           all_goals
             first
             | exact Sum.noConfusion heq
             | (injection heq with heq2; subst heq2; exact h0))
  rw [if_neg hc14] at heq
  by_cases hc15 : op = OP_SEQ
  · rw [if_pos hc15] at heq
    try simp only [] at heq
    all_goals
      first
      | exact Sum.noConfusion heq
      | (injection heq with heq2; subst heq2; exact h0)
      | (repeat' split at heq
         all_goals
           try simp only [] at heq
           all_goals
             first
             | exact Sum.noConfusion heq
             | (injection heq with heq2; subst heq2; exact h0))
  rw [if_neg hc15] at heq
  by_cases hc16 : op = OP_AND
  · rw [if_pos hc16] at heq
    try simp only [] at heq
    all_goals
      first
      | exact Sum.noConfusion heq
      | (injection heq with heq2; subst heq2; exact h0)
      | (repeat' split at heq
         all_goals
           try simp only [] at heq
           all_goals
             first
             | exact Sum.noConfusion heq
             | (injection heq with heq2; subst heq2; exact h0))
  rw [if_neg hc16] at heq
  by_cases hc17 : op = OP_OR
  · rw [if_pos hc17] at heq
    try simp only [] at heq
    all_goals
      first
      | exact Sum.noConfusion heq
      | (injection heq with heq2; subst heq2; exact h0)
      | (repeat' split at heq
         all_goals
           try simp only [] at heq
           all_goals
             first
             | exact Sum.noConfusion heq
             | (injection heq with heq2; subst heq2; exact h0))
  rw [if_neg hc17] at heq
  by_cases hc18 : op = OP_XOR
  · rw [if_pos hc18] at heq
    try simp only [] at heq
    all_goals
      first
      | exact Sum.noConfusion heq
      | (injection heq with heq2; subst heq2; exact h0)
      | (repeat' split at heq
         all_goals
           try simp only [] at heq
           all_goals
             first
             | exact Sum.noConfusion heq
             | (injection heq with heq2; subst heq2; exact h0))
  rw [if_neg hc18] at heq
  by_cases hc19 : op = OP_NOT
  · rw [if_pos hc19] at heq
    try simp only [] at heq
    all_goals
      first
      | exact Sum.noConfusion heq
      | (injection heq with heq2; subst heq2; exact h0)
      | (repeat' split at heq
         all_goals
           try simp only [] at heq
           all_goals
             first
             | exact Sum.noConfusion heq
             | (injection heq with heq2; subst heq2; exact h0))
  rw [if_neg hc19] at heq
  by_cases hc20 : op = OP_SHL
  · rw [if_pos hc20] at heq
    try simp only [] at heq
    all_goals
      first
      | exact Sum.noConfusion heq
      | (injection heq with heq2; subst heq2; exact h0)
      | (repeat' split at heq
         all_goals
           try simp only [] at heq
           all_goals
             first
             | exact Sum.noConfusion heq
             | (injection heq with heq2; subst heq2; exact h0))
  rw [if_neg hc20] at heq
  by_cases hc21 : op = OP_SHR
  · rw [if_pos hc21] at heq
    try simp only [] at heq
    all_goals
      first
      | exact Sum.noConfusion heq
      | (injection heq with heq2; subst heq2; exact h0)
      | (repeat' split at heq
         all_goals
           try simp only [] at heq
           all_goals
             first
             | exact Sum.noConfusion heq
             | (injection heq with heq2; subst heq2; exact h0))
  rw [if_neg hc21] at heq
  by_cases hc22 : op = OP_SHA
  · rw [if_pos hc22] at heq
    try simp only [] at heq
    all_goals
      first
      | exact Sum.noConfusion heq
      | (injection heq with heq2; subst heq2; exact h0)
      | (repeat' split at heq
         all_goals
           try simp only [] at heq
           all_goals
             first
             | exact Sum.noConfusion heq
             | (injection heq with heq2; subst heq2; exact h0))
  rw [if_neg hc22] at heq
  by_cases hc23 : op = OP_FADD
  · rw [if_pos hc23] at heq
    try simp only [] at heq
    all_goals
      first
      | exact Sum.noConfusion heq
      | (injection heq with heq2; subst heq2; exact h0)
      | (repeat' split at heq
         all_goals
           try simp only [] at heq
           all_goals
             first
             | exact Sum.noConfusion heq
             | (injection heq with heq2; subst heq2; exact h0))
  rw [if_neg hc23] at heq
  by_cases hc24 : op = OP_FSUB
  · rw [if_pos hc24] at heq
    try simp only [] at heq
    all_goals
      first
      | exact Sum.noConfusion heq
      | (injection heq with heq2; subst heq2; exact h0)
      | (repeat' split at heq
         all_goals
           try simp only [] at heq
           all_goals
             first
             | exact Sum.noConfusion heq
             | (injection heq with heq2; subst heq2; exact h0))
  rw [if_neg hc24] at heq
  by_cases hc25 : op = OP_FMUL
  · rw [if_pos hc25] at heq
    try simp only [] at heq
    all_goals
      first
      | exact Sum.noConfusion heq
      | (injection heq with heq2; subst heq2; exact h0)
      | (repeat' split at heq
         all_goals
           try simp only [] at heq
           all_goals
             first
             | exact Sum.noConfusion heq
             | (injection heq with heq2; subst heq2; exact h0))
  rw [if_neg hc25] at heq
  by_cases hc26 : op = OP_FDIV
  · rw [if_pos hc26] at heq
    try simp only [] at heq
    all_goals
      first
      | exact Sum.noConfusion heq
      | (injection heq with heq2; subst heq2; exact h0)
      | (repeat' split at heq
         all_goals
           try simp only [] at heq
           all_goals
             first
             | exact Sum.noConfusion heq
             | (injection heq with heq2; subst heq2; exact h0))
  rw [if_neg hc26] at heq
  by_cases hc27 : op = OP_FFMA
  · rw [if_pos hc27] at heq
    try simp only [] at heq
    all_goals
      first
      | exact Sum.noConfusion heq
      | (injection heq with heq2; subst heq2; exact h0)
      | (repeat' split at heq
         all_goals
           try simp only [] at heq
           all_goals
             first
             | exact Sum.noConfusion heq
             | (injection heq with heq2; subst heq2; exact h0))
  rw [if_neg hc27] at heq
  by_cases hc28 : op = OP_FNEG
  · rw [if_pos hc28] at heq
    try simp only [] at heq
    all_goals
      first
      | exact Sum.noConfusion heq
      | (injection heq with heq2; subst heq2; exact h0)
      | (repeat' split at heq
         all_goals
           try simp only [] at heq
           all_goals
             first
             | exact Sum.noConfusion heq
             | (injection heq with heq2; subst heq2; exact h0))
  rw [if_neg hc28] at heq
  by_cases hc29 : op = OP_FABS
  · rw [if_pos hc29] at heq
    try simp only [] at heq
    all_goals
      first
      | exact Sum.noConfusion heq
      | (injection heq with heq2; subst heq2; exact h0)
      | (repeat' split at heq
         all_goals
           try simp only [] at heq
           all_goals
             first
             | exact Sum.noConfusion heq
             | (injection heq with heq2; subst heq2; exact h0))
  rw [if_neg hc29] at heq
  by_cases hc30 : op = OP_FMIN
  · rw [if_pos hc30] at heq
    try simp only [] at heq
    all_goals
      first
      | exact Sum.noConfusion heq
      | (injection heq with heq2; subst heq2; exact h0)
      | (repeat' split at heq
         all_goals
           try simp only [] at heq
           all_goals
             first
             | exact Sum.noConfusion heq
             | (injection heq with heq2; subst heq2; exact h0))
  rw [if_neg hc30] at heq
  by_cases hc31 : op = OP_FMAX
  · rw [if_pos hc31] at heq
    try simp only [] at heq
    all_goals
      first
      | exact Sum.noConfusion heq
      | (injection heq with heq2; subst heq2; exact h0)
      | (repeat' split at heq
         all_goals
           try simp only [] at heq
           all_goals
             first
             | exact Sum.noConfusion heq
             | (injection heq with heq2; subst heq2; exact h0))
  rw [if_neg hc31] at heq
  by_cases hc32 : op = OP_FTOI
  · rw [if_pos hc32] at heq
    try simp only [] at heq
    all_goals
      first
      | exact Sum.noConfusion heq
      | (injection heq with heq2; subst heq2; exact h0)
      | (repeat' split at heq
         all_goals
           try simp only [] at heq
           all_goals
             first
             | exact Sum.noConfusion heq
             | (injection heq with heq2; subst heq2; exact h0))
  rw [if_neg hc32] at heq
  by_cases hc33 : op = OP_ITOF
  · rw [if_pos hc33] at heq
    try simp only [] at heq
    all_goals
      first
      | exact Sum.noConfusion heq
      | (injection heq with heq2; subst heq2; exact h0)
      | (repeat' split at heq
         all_goals
           try simp only [] at heq
           all_goals
             first
             | exact Sum.noConfusion heq
             | (injection heq with heq2; subst heq2; exact h0))
  rw [if_neg hc33] at heq
  by_cases hc34 : op = OP_FSLT
  · rw [if_pos hc34] at heq
    try simp only [] at heq
    all_goals
      first
      | exact Sum.noConfusion heq
      | (injection heq with heq2; subst heq2; exact h0)
      | (repeat' split at heq
         all_goals
           try simp only [] at heq
           all_goals
             first
             | exact Sum.noConfusion heq
             | (injection heq with heq2; subst heq2; exact h0))
  rw [if_neg hc34] at heq
  by_cases hc35 : op = OP_FSLE
  · rw [if_pos hc35] at heq
    try simp only [] at heq
    all_goals
      first
      | exact Sum.noConfusion heq
      | (injection heq with heq2; subst heq2; exact h0)
      | (repeat' split at heq
         all_goals
           try simp only [] at heq
           all_goals
             first
             | exact Sum.noConfusion heq
             | (injection heq with heq2; subst heq2; exact h0))
  rw [if_neg hc35] at heq
  by_cases hc36 : op = OP_FSEQ
  · rw [if_pos hc36] at heq
    try simp only [] at heq
    all_goals
      first
      | exact Sum.noConfusion heq
      | (injection heq with heq2; subst heq2; exact h0)
      | (repeat' split at heq
         all_goals
           try simp only [] at heq
           all_goals
             first
             | exact Sum.noConfusion heq
             | (injection heq with heq2; subst heq2; exact h0))
  rw [if_neg hc36] at heq
  by_cases hc37 : op = OP_SFU_SIN
  · rw [if_pos hc37] at heq
    try simp only [] at heq
    all_goals
      first
      | exact Sum.noConfusion heq
      | (injection heq with heq2; subst heq2; exact h0)
      | (repeat' split at heq
         all_goals
           try simp only [] at heq
           all_goals
             first
             | exact Sum.noConfusion heq
             | (injection heq with heq2; subst heq2; exact h0))
  rw [if_neg hc37] at heq
  by_cases hc38 : op = OP_SFU_COS
  · rw [if_pos hc38] at heq
    try simp only [] at heq
    all_goals
      first
      | exact Sum.noConfusion heq
      | (injection heq with heq2; subst heq2; exact h0)
      | (repeat' split at heq
         all_goals
           try simp only [] at heq
           all_goals
             first
             | exact Sum.noConfusion heq
             | (injection heq with heq2; subst heq2; exact h0))
  rw [if_neg hc38] at heq
  by_cases hc39 : op = OP_SFU_EX2
  · rw [if_pos hc39] at heq
    try simp only [] at heq
    all_goals
      first
      | exact Sum.noConfusion heq
      | (injection heq with heq2; subst heq2; exact h0)
      | (repeat' split at heq
         all_goals
           try simp only [] at heq
           all_goals
             first
             | exact Sum.noConfusion heq
             | (injection heq with heq2; subst heq2; exact h0))
  rw [if_neg hc39] at heq
  by_cases hc40 : op = OP_SFU_LG2
  · rw [if_pos hc40] at heq
    try simp only [] at heq
    all_goals
      first
      | exact Sum.noConfusion heq
      | (injection heq with heq2; subst heq2; exact h0)
      | (repeat' split at heq
         all_goals
           try simp only [] at heq
           all_goals
             first
             | exact Sum.noConfusion heq
             | (injection heq with heq2; subst heq2; exact h0))
  rw [if_neg hc40] at heq
  by_cases hc41 : op = OP_SFU_RCP
  · rw [if_pos hc41] at heq
    try simp only [] at heq
    all_goals
      first
      | exact Sum.noConfusion heq
      | (injection heq with heq2; subst heq2; exact h0)
      | (repeat' split at heq
         all_goals
           try simp only [] at heq
           all_goals
             first
             | exact Sum.noConfusion heq
             | (injection heq with heq2; subst heq2; exact h0))
  rw [if_neg hc41] at heq
  by_cases hc42 : op = OP_SFU_RSQ
  · rw [if_pos hc42] at heq
    try simp only [] at heq
    all_goals
      first
      | exact Sum.noConfusion heq
      | (injection heq with heq2; subst heq2; exact h0)
      | (repeat' split at heq
         all_goals
           try simp only [] at heq
           all_goals
             first
             | exact Sum.noConfusion heq
             | (injection heq with heq2; subst heq2; exact h0))
  rw [if_neg hc42] at heq
  by_cases hc43 : op = OP_SFU_SQRT
  · rw [if_pos hc43] at heq
    try simp only [] at heq
    all_goals
      first
      | exact Sum.noConfusion heq
      | (injection heq with heq2; subst heq2; exact h0)
      | (repeat' split at heq
         all_goals
           try simp only [] at heq
           all_goals
             first
             | exact Sum.noConfusion heq
             | (injection heq with heq2; subst heq2; exact h0))
  rw [if_neg hc43] at heq
  by_cases hc44 : op = OP_SFU_TANH
  · rw [if_pos hc44] at heq
    try simp only [] at heq
    all_goals
      first
      | exact Sum.noConfusion heq
      | (injection heq with heq2; subst heq2; exact h0)
      | (repeat' split at heq
         all_goals
           try simp only [] at heq
           all_goals
             first
             | exact Sum.noConfusion heq
             | (injection heq with heq2; subst heq2; exact h0))
  rw [if_neg hc44] at heq
  by_cases hc45 : op = OP_POPC
  · rw [if_pos hc45] at heq
    try simp only [] at heq
    all_goals
      first
      | exact Sum.noConfusion heq
      | (injection heq with heq2; subst heq2; exact h0)
      | (repeat' split at heq
         all_goals
           try simp only [] at heq
           all_goals
             first
             | exact Sum.noConfusion heq
             | (injection heq with heq2; subst heq2; exact h0))
  rw [if_neg hc45] at heq
  by_cases hc46 : op = OP_CLZ
  · rw [if_pos hc46] at heq
    try simp only [] at heq
    all_goals
      first
      | exact Sum.noConfusion heq
      | (injection heq with heq2; subst heq2; exact h0)
      | (repeat' split at heq
         all_goals
           try simp only [] at heq
           all_goals
             first
             | exact Sum.noConfusion heq
             | (injection heq with heq2; subst heq2; exact h0))
  rw [if_neg hc46] at heq
  by_cases hc47 : op = OP_BREV
  · rw [if_pos hc47] at heq
    try simp only [] at heq
    all_goals
      first
      | exact Sum.noConfusion heq
      | (injection heq with heq2; subst heq2; exact h0)
      | (repeat' split at heq
         all_goals
           try simp only [] at heq
           all_goals
             first
             | exact Sum.noConfusion heq
             | (injection heq with heq2; subst heq2; exact h0))
  rw [if_neg hc47] at heq
  by_cases hc48 : op = OP_CNOT
  · rw [if_pos hc48] at heq
    try simp only [] at heq
    all_goals
      first
      | exact Sum.noConfusion heq
      | (injection heq with heq2; subst heq2; exact h0)
      | (repeat' split at heq
         all_goals
           try simp only [] at heq
           all_goals
             first
             | exact Sum.noConfusion heq
             | (injection heq with heq2; subst heq2; exact h0))
  rw [if_neg hc48] at heq
  by_cases hc49 : op = OP_SELP
  · rw [if_pos hc49] at heq
    try simp only [] at heq
    all_goals
      first
      | exact Sum.noConfusion heq
      | (injection heq with heq2; subst heq2; exact h0)
      | (repeat' split at heq
         all_goals
           try simp only [] at heq
           all_goals
             first
             | exact Sum.noConfusion heq
             | (injection heq with heq2; subst heq2; exact h0))
  rw [if_neg hc49] at heq
  by_cases hc50 : op = OP_BRA
  · rw [if_pos hc50] at heq
    try simp only [] at heq
    all_goals
      first
      | exact Sum.noConfusion heq
      | (injection heq with heq2; subst heq2; exact h0)
      | (repeat' split at heq
         all_goals
           try simp only [] at heq
           all_goals
             first
             | exact Sum.noConfusion heq
             | (injection heq with heq2; subst heq2; exact h0))
  rw [if_neg hc50] at heq
  by_cases hc51 : op = OP_BEQ
  · rw [if_pos hc51] at heq
    try simp only [] at heq
    all_goals
      first
      | exact Sum.noConfusion heq
      | (injection heq with heq2; subst heq2; exact h0)
      | (repeat' split at heq
         all_goals
           try simp only [] at heq
           all_goals
             first
             | exact Sum.noConfusion heq
             | (injection heq with heq2; subst heq2; exact h0))
  rw [if_neg hc51] at heq
  by_cases hc52 : op = OP_BNE
  · rw [if_pos hc52] at heq
    try simp only [] at heq
    all_goals
      first
      | exact Sum.noConfusion heq
      | (injection heq with heq2; subst heq2; exact h0)
      | (repeat' split at heq
         all_goals
           try simp only [] at heq
           all_goals
             first
             | exact Sum.noConfusion heq
             | (injection heq with heq2; subst heq2; exact h0))
  rw [if_neg hc52] at heq
  by_cases hc53 : op = OP_SSY
  · rw [if_pos hc53] at heq
    try simp only [] at heq
    all_goals
      first
      | exact Sum.noConfusion heq
      | (injection heq with heq2; subst heq2; exact h0)
      | (repeat' split at heq
         all_goals
           try simp only [] at heq
           all_goals
             first
             | exact Sum.noConfusion heq
             | (injection heq with heq2; subst heq2; exact h0))
  rw [if_neg hc53] at heq
  by_cases hc54 : op = OP_JOIN
  · rw [if_pos hc54] at heq
    try simp only [] at heq
    all_goals
      first
      | exact Sum.noConfusion heq
      | (injection heq with heq2; subst heq2; exact h0)
      | (repeat' split at heq
         all_goals
           try simp only [] at heq
           all_goals
             first
             | exact Sum.noConfusion heq
             | (injection heq with heq2; subst heq2; exact h0))
  rw [if_neg hc54] at heq
  by_cases hc55 : op = OP_CALL
  · rw [if_pos hc55] at heq
    try simp only [] at heq
    all_goals
      first
      | exact Sum.noConfusion heq
      | (injection heq with heq2; subst heq2; exact h0)
      | (repeat' split at heq
         all_goals
           try simp only [] at heq
           all_goals
             first
             | exact Sum.noConfusion heq
             | (injection heq with heq2; subst heq2; exact h0))
  rw [if_neg hc55] at heq
  by_cases hc56 : op = OP_RET
  · rw [if_pos hc56] at heq
    try simp only [] at heq
    all_goals
      first
      | exact Sum.noConfusion heq
      | (injection heq with heq2; subst heq2; exact h0)
      | (repeat' split at heq
         all_goals
           try simp only [] at heq
           all_goals
             first
             | exact Sum.noConfusion heq
             | (injection heq with heq2; subst heq2; exact h0))
  rw [if_neg hc56] at heq
  by_cases hc57 : op = OP_TID
  · rw [if_pos hc57] at heq
    try simp only [] at heq
    all_goals
      first
      | exact Sum.noConfusion heq
      | (injection heq with heq2; subst heq2; exact h0)
      | (repeat' split at heq
         all_goals
           try simp only [] at heq
           all_goals
             first
             | exact Sum.noConfusion heq
             | (injection heq with heq2; subst heq2; exact h0))
  rw [if_neg hc57] at heq
  by_cases hc58 : op = OP_BAR
  · rw [if_pos hc58] at heq
    try simp only [] at heq
    all_goals
      first
      | exact Sum.noConfusion heq
      | (injection heq with heq2; subst heq2; exact h0)
      | (repeat' split at heq
         all_goals
           try simp only [] at heq
           all_goals
             first
             | exact Sum.noConfusion heq
             | (injection heq with heq2; subst heq2; exact h0))
  rw [if_neg hc58] at heq
  by_cases hc59 : op = OP_TEX
  · rw [if_pos hc59] at heq
    try simp only [] at heq
    all_goals
      first
      | exact Sum.noConfusion heq
      | (injection heq with heq2; subst heq2; exact h0)
      | (repeat' split at heq
         all_goals
           try simp only [] at heq
           all_goals
             first
             | exact Sum.noConfusion heq
             | (injection heq with heq2; subst heq2; exact h0))
  rw [if_neg hc59] at heq
  by_cases hc60 : op = OP_LDR
  · rw [if_pos hc60] at heq
    try simp only [] at heq
    all_goals
      first
      | exact Sum.noConfusion heq
      | (injection heq with heq2; subst heq2; exact h0)
      | (repeat' split at heq
         all_goals
           try simp only [] at heq
           all_goals
             first
             | exact Sum.noConfusion heq
             | (injection heq with heq2; subst heq2; exact h0))
  rw [if_neg hc60] at heq
  by_cases hc61 : op = OP_STR
  · rw [if_pos hc61] at heq
    try simp only [] at heq
    all_goals
      first
      | exact Sum.noConfusion heq
      | (injection heq with heq2; subst heq2; exact h0)
      | (repeat' split at heq
         all_goals
           try simp only [] at heq
           all_goals
             first
             | exact Sum.noConfusion heq
             | (injection heq with heq2; subst heq2; exact h0))
  rw [if_neg hc61] at heq
  by_cases hc62 : op = OP_LDS
  · rw [if_pos hc62] at heq
    try simp only [] at heq
    all_goals
      first
      | exact Sum.noConfusion heq
      | (injection heq with heq2; subst heq2; exact h0)
      | (repeat' split at heq
         all_goals
           try simp only [] at heq
           all_goals
             first
             | exact Sum.noConfusion heq
             | (injection heq with heq2; subst heq2; exact h0))
  rw [if_neg hc62] at heq
  by_cases hc63 : op = OP_STS
  · rw [if_pos hc63] at heq
    try simp only [] at heq
    all_goals
      first
      | exact Sum.noConfusion heq
      | (injection heq with heq2; subst heq2; exact h0)
      | (repeat' split at heq
         all_goals
           try simp only [] at heq
           all_goals
             first
             | exact Sum.noConfusion heq
             | (injection heq with heq2; subst heq2; exact h0))
  rw [if_neg hc63] at heq
  simp only [] at heq
  injection heq with heq2
  subst heq2
  exact h0

/-- A step keeps register 0 at zero. -/
theorem vm_step_reg0 (fops : FloatOps) (vm : milo_vm) (h : vm.regs 0 = 0) :
    ((vm_step fops vm).2).regs 0 = 0 := by
  rw [vm_step.eq_def]
  by_cases hpc : vm.code.length ≤ vm.pc
  · rw [if_pos hpc]
    exact h
  · rw [if_neg hpc]
    simp only []
    split
    next r heq =>
      exact vm_dispatch_inl_reg0 fops _ _ _ _ _ _ _ _ _ _ _ (by simp [updFn]) r heq
    next vm' heq =>
      simp [updFn]

/-- The run loop keeps register 0 at zero. -/
theorem vm_run_reg0 (fops : FloatOps) (fuel : Nat) :
    ∀ vm : milo_vm, vm.regs 0 = 0 → (vm_run fops fuel vm).regs 0 = 0 := by
  induction fuel with
  | zero => intro vm h; exact h
  | succ n ih =>
    intro vm h
    rw [vm_run]
    split
    · split
      next vm2 heq =>
        refine ih vm2 ?_
        have hs := vm_step_reg0 fops vm h
        rw [heq] at hs
        exact hs
      next vm2 heq =>
        have hs := vm_step_reg0 fops vm h
        rw [heq] at hs
        exact hs
    · exact h

/-- The fragment prologue zeroes register 0. -/
theorem frag_reset_reg0 (vm : milo_vm) (fin : milo_fragment_in) :
    (frag_reset vm fin).regs 0 = 0 := by
  simp [frag_reset, updFn]

/-- The machine state a dispatch result carries, whether it is an early
return or a fall-through. -/
def dispatch_out (s : Sum (Bool × milo_vm) milo_vm) : milo_vm :=
  Sum.elim Prod.snd id s

/-- The opcode dispatch never touches the uniform array, the loaded code,
the texture bindings or the watchdog, and touches linear memory only
through `str`. -/
theorem vm_dispatch_frame (fops : FloatOps) (vm : milo_vm)
    (op rd rs1 rs2 rs3 imm u1 u2 : Nat) (i1 i2 : Int) :
    (dispatch_out (vm_dispatch fops vm op rd rs1 rs2 rs3 imm u1 u2 i1 i2)).uniforms
        = vm.uniforms ∧
    (dispatch_out (vm_dispatch fops vm op rd rs1 rs2 rs3 imm u1 u2 i1 i2)).code
        = vm.code ∧
    (dispatch_out (vm_dispatch fops vm op rd rs1 rs2 rs3 imm u1 u2 i1 i2)).textures
        = vm.textures ∧
    (dispatch_out (vm_dispatch fops vm op rd rs1 rs2 rs3 imm u1 u2 i1 i2)).max_cycles
        = vm.max_cycles ∧
    (op ≠ OP_STR →
      (dispatch_out (vm_dispatch fops vm op rd rs1 rs2 rs3 imm u1 u2 i1 i2)).mem
        = vm.mem) := by
  rw [vm_dispatch.eq_def]
  by_cases hc0 : op = OP_NOP
  · rw [if_pos hc0]
    try simp only []
    repeat' split
    all_goals
      first
      | exact ⟨rfl, rfl, rfl, rfl, fun h7 => rfl⟩
      | exact ⟨rfl, rfl, rfl, rfl, fun h7 => absurd hc61 h7⟩
  rw [if_neg hc0]
  by_cases hc1 : op = OP_EXIT
  · rw [if_pos hc1]
    try simp only []
    repeat' split
    all_goals
      first
      | exact ⟨rfl, rfl, rfl, rfl, fun h7 => rfl⟩
      | exact ⟨rfl, rfl, rfl, rfl, fun h7 => absurd hc61 h7⟩
  rw [if_neg hc1]
  by_cases hc2 : op = OP_MOV
  · rw [if_pos hc2]
    try simp only []
    repeat' split
    all_goals
      first
      | exact ⟨rfl, rfl, rfl, rfl, fun h7 => rfl⟩
      | exact ⟨rfl, rfl, rfl, rfl, fun h7 => absurd hc61 h7⟩
  rw [if_neg hc2]
  by_cases hc3 : op = OP_ADD
  · rw [if_pos hc3]
    try simp only []
    repeat' split
    all_goals
      first
      | exact ⟨rfl, rfl, rfl, rfl, fun h7 => rfl⟩
      | exact ⟨rfl, rfl, rfl, rfl, fun h7 => absurd hc61 h7⟩
  rw [if_neg hc3]
  by_cases hc4 : op = OP_SUB
  · rw [if_pos hc4]
    try simp only []
    repeat' split
    all_goals
      first
      | exact ⟨rfl, rfl, rfl, rfl, fun h7 => rfl⟩
      | exact ⟨rfl, rfl, rfl, rfl, fun h7 => absurd hc61 h7⟩
  rw [if_neg hc4]
  by_cases hc5 : op = OP_MUL
  · rw [if_pos hc5]
    try simp only []
    repeat' split
    all_goals
      first
      | exact ⟨rfl, rfl, rfl, rfl, fun h7 => rfl⟩
      | exact ⟨rfl, rfl, rfl, rfl, fun h7 => absurd hc61 h7⟩
  rw [if_neg hc5]
  by_cases hc6 : op = OP_NEG
  · rw [if_pos hc6]
    try simp only []
    repeat' split
    all_goals
      first
      | exact ⟨rfl, rfl, rfl, rfl, fun h7 => rfl⟩
      | exact ⟨rfl, rfl, rfl, rfl, fun h7 => absurd hc61 h7⟩
  rw [if_neg hc6]
  by_cases hc7 : op = OP_IDIV
  · rw [if_pos hc7]
    try simp only []
    repeat' split
    all_goals
      first
      | exact ⟨rfl, rfl, rfl, rfl, fun h7 => rfl⟩
      | exact ⟨rfl, rfl, rfl, rfl, fun h7 => absurd hc61 h7⟩
  rw [if_neg hc7]
  by_cases hc8 : op = OP_IREM
  · rw [if_pos hc8]
    try simp only []
    repeat' split
    all_goals
      first
      | exact ⟨rfl, rfl, rfl, rfl, fun h7 => rfl⟩
      | exact ⟨rfl, rfl, rfl, rfl, fun h7 => absurd hc61 h7⟩
  rw [if_neg hc8]
  by_cases hc9 : op = OP_IABS
  · rw [if_pos hc9]
    try simp only []
    repeat' split
    all_goals
      first
      | exact ⟨rfl, rfl, rfl, rfl, fun h7 => rfl⟩
      | exact ⟨rfl, rfl, rfl, rfl, fun h7 => absurd hc61 h7⟩
  rw [if_neg hc9]
  by_cases hc10 : op = OP_IMIN
  · rw [if_pos hc10]
    try simp only []
    repeat' split
    all_goals
      first
      | exact ⟨rfl, rfl, rfl, rfl, fun h7 => rfl⟩
      | exact ⟨rfl, rfl, rfl, rfl, fun h7 => absurd hc61 h7⟩
  rw [if_neg hc10]
  by_cases hc11 : op = OP_IMAX
  · rw [if_pos hc11]
    try simp only []
    repeat' split
    all_goals
      first
      | exact ⟨rfl, rfl, rfl, rfl, fun h7 => rfl⟩
      | exact ⟨rfl, rfl, rfl, rfl, fun h7 => absurd hc61 h7⟩
  rw [if_neg hc11]
  by_cases hc12 : op = OP_IMAD
  · rw [if_pos hc12]
    try simp only []
    repeat' split
    all_goals
      first
      | exact ⟨rfl, rfl, rfl, rfl, fun h7 => rfl⟩
      | exact ⟨rfl, rfl, rfl, rfl, fun h7 => absurd hc61 h7⟩
  rw [if_neg hc12]
  by_cases hc13 : op = OP_SLT
  · rw [if_pos hc13]
    try simp only []
    repeat' split
    all_goals
      first
      | exact ⟨rfl, rfl, rfl, rfl, fun h7 => rfl⟩
      | exact ⟨rfl, rfl, rfl, rfl, fun h7 => absurd hc61 h7⟩
  rw [if_neg hc13]
  by_cases hc14 : op = OP_SLE
  · rw [if_pos hc14]
    try simp only []
    repeat' split
    all_goals
      first
      | exact ⟨rfl, rfl, rfl, rfl, fun h7 => rfl⟩
      | exact ⟨rfl, rfl, rfl, rfl, fun h7 => absurd hc61 h7⟩
  rw [if_neg hc14]
  by_cases hc15 : op = OP_SEQ
  · rw [if_pos hc15]
    try simp only []
    repeat' split
    all_goals
      first
      | exact ⟨rfl, rfl, rfl, rfl, fun h7 => rfl⟩
      | exact ⟨rfl, rfl, rfl, rfl, fun h7 => absurd hc61 h7⟩
  rw [if_neg hc15]
  by_cases hc16 : op = OP_AND
  · rw [if_pos hc16]
    try simp only []
    repeat' split
    all_goals
      first
      | exact ⟨rfl, rfl, rfl, rfl, fun h7 => rfl⟩
      | exact ⟨rfl, rfl, rfl, rfl, fun h7 => absurd hc61 h7⟩
  rw [if_neg hc16]
  by_cases hc17 : op = OP_OR
  · rw [if_pos hc17]
    try simp only []
    repeat' split
    all_goals
      first
      | exact ⟨rfl, rfl, rfl, rfl, fun h7 => rfl⟩
      | exact ⟨rfl, rfl, rfl, rfl, fun h7 => absurd hc61 h7⟩
  rw [if_neg hc17]
  by_cases hc18 : op = OP_XOR
  · rw [if_pos hc18]
    try simp only []
    repeat' split
    all_goals
      first
      | exact ⟨rfl, rfl, rfl, rfl, fun h7 => rfl⟩
      | exact ⟨rfl, rfl, rfl, rfl, fun h7 => absurd hc61 h7⟩
  rw [if_neg hc18]
  by_cases hc19 : op = OP_NOT
  · rw [if_pos hc19]
    try simp only []
    repeat' split
    all_goals
      first
      | exact ⟨rfl, rfl, rfl, rfl, fun h7 => rfl⟩
      | exact ⟨rfl, rfl, rfl, rfl, fun h7 => absurd hc61 h7⟩
  rw [if_neg hc19]
  by_cases hc20 : op = OP_SHL
  · rw [if_pos hc20]
    try simp only []
    repeat' split
    all_goals
      first
      | exact ⟨rfl, rfl, rfl, rfl, fun h7 => rfl⟩
      | exact ⟨rfl, rfl, rfl, rfl, fun h7 => absurd hc61 h7⟩
  rw [if_neg hc20]
  by_cases hc21 : op = OP_SHR
  · rw [if_pos hc21]
    try simp only []
    repeat' split
    all_goals
      first
      | exact ⟨rfl, rfl, rfl, rfl, fun h7 => rfl⟩
      | exact ⟨rfl, rfl, rfl, rfl, fun h7 => absurd hc61 h7⟩
  rw [if_neg hc21]
  by_cases hc22 : op = OP_SHA
  · rw [if_pos hc22]
    try simp only []
    repeat' split
    all_goals
      first
      | exact ⟨rfl, rfl, rfl, rfl, fun h7 => rfl⟩
      | exact ⟨rfl, rfl, rfl, rfl, fun h7 => absurd hc61 h7⟩
  rw [if_neg hc22]
  by_cases hc23 : op = OP_FADD
  · rw [if_pos hc23]
    try simp only []
    repeat' split
    all_goals
      first
      | exact ⟨rfl, rfl, rfl, rfl, fun h7 => rfl⟩
      | exact ⟨rfl, rfl, rfl, rfl, fun h7 => absurd hc61 h7⟩
  rw [if_neg hc23]
  by_cases hc24 : op = OP_FSUB
  · rw [if_pos hc24]
    try simp only []
    repeat' split
    all_goals
      first
      | exact ⟨rfl, rfl, rfl, rfl, fun h7 => rfl⟩
      | exact ⟨rfl, rfl, rfl, rfl, fun h7 => absurd hc61 h7⟩
  rw [if_neg hc24]
  by_cases hc25 : op = OP_FMUL
  · rw [if_pos hc25]
    try simp only []
    repeat' split
    all_goals
      first
      | exact ⟨rfl, rfl, rfl, rfl, fun h7 => rfl⟩
      | exact ⟨rfl, rfl, rfl, rfl, fun h7 => absurd hc61 h7⟩
  rw [if_neg hc25]
  by_cases hc26 : op = OP_FDIV
  · rw [if_pos hc26]
    try simp only []
    repeat' split
    all_goals
      first
      | exact ⟨rfl, rfl, rfl, rfl, fun h7 => rfl⟩
      | exact ⟨rfl, rfl, rfl, rfl, fun h7 => absurd hc61 h7⟩
  rw [if_neg hc26]
  by_cases hc27 : op = OP_FFMA
  · rw [if_pos hc27]
    try simp only []
    repeat' split
    all_goals
      first
      | exact ⟨rfl, rfl, rfl, rfl, fun h7 => rfl⟩
      | exact ⟨rfl, rfl, rfl, rfl, fun h7 => absurd hc61 h7⟩
  rw [if_neg hc27]
  by_cases hc28 : op = OP_FNEG
  · rw [if_pos hc28]
    try simp only []
    repeat' split
    all_goals
      first
      | exact ⟨rfl, rfl, rfl, rfl, fun h7 => rfl⟩
      | exact ⟨rfl, rfl, rfl, rfl, fun h7 => absurd hc61 h7⟩
  rw [if_neg hc28]
  by_cases hc29 : op = OP_FABS
  · rw [if_pos hc29]
    try simp only []
    repeat' split
    all_goals
      first
      | exact ⟨rfl, rfl, rfl, rfl, fun h7 => rfl⟩
      | exact ⟨rfl, rfl, rfl, rfl, fun h7 => absurd hc61 h7⟩
  rw [if_neg hc29]
  by_cases hc30 : op = OP_FMIN
  · rw [if_pos hc30]
    try simp only []
    repeat' split
    all_goals
      first
      | exact ⟨rfl, rfl, rfl, rfl, fun h7 => rfl⟩
      | exact ⟨rfl, rfl, rfl, rfl, fun h7 => absurd hc61 h7⟩
  rw [if_neg hc30]
  by_cases hc31 : op = OP_FMAX
  · rw [if_pos hc31]
    try simp only []
    repeat' split
    all_goals
      first
      | exact ⟨rfl, rfl, rfl, rfl, fun h7 => rfl⟩
      | exact ⟨rfl, rfl, rfl, rfl, fun h7 => absurd hc61 h7⟩
  rw [if_neg hc31]
  by_cases hc32 : op = OP_FTOI
  · rw [if_pos hc32]
    try simp only []
    repeat' split
    all_goals
      first
      | exact ⟨rfl, rfl, rfl, rfl, fun h7 => rfl⟩
      | exact ⟨rfl, rfl, rfl, rfl, fun h7 => absurd hc61 h7⟩
  rw [if_neg hc32]
  by_cases hc33 : op = OP_ITOF
  · rw [if_pos hc33]
    try simp only []
    repeat' split
    all_goals
      first
      | exact ⟨rfl, rfl, rfl, rfl, fun h7 => rfl⟩
      | exact ⟨rfl, rfl, rfl, rfl, fun h7 => absurd hc61 h7⟩
  rw [if_neg hc33]
  by_cases hc34 : op = OP_FSLT
  · rw [if_pos hc34]
    try simp only []
    repeat' split
    all_goals
      first
      | exact ⟨rfl, rfl, rfl, rfl, fun h7 => rfl⟩
      | exact ⟨rfl, rfl, rfl, rfl, fun h7 => absurd hc61 h7⟩
  rw [if_neg hc34]
  by_cases hc35 : op = OP_FSLE
  · rw [if_pos hc35]
    try simp only []
    repeat' split
    all_goals
      first
      | exact ⟨rfl, rfl, rfl, rfl, fun h7 => rfl⟩
      | exact ⟨rfl, rfl, rfl, rfl, fun h7 => absurd hc61 h7⟩
  rw [if_neg hc35]
  by_cases hc36 : op = OP_FSEQ
  · rw [if_pos hc36]
    try simp only []
    repeat' split
    all_goals
      first
      | exact ⟨rfl, rfl, rfl, rfl, fun h7 => rfl⟩
      | exact ⟨rfl, rfl, rfl, rfl, fun h7 => absurd hc61 h7⟩
  rw [if_neg hc36]
  by_cases hc37 : op = OP_SFU_SIN
  · rw [if_pos hc37]
    try simp only []
    repeat' split
    all_goals
      first
      | exact ⟨rfl, rfl, rfl, rfl, fun h7 => rfl⟩
      | exact ⟨rfl, rfl, rfl, rfl, fun h7 => absurd hc61 h7⟩
  rw [if_neg hc37]
  by_cases hc38 : op = OP_SFU_COS
  · rw [if_pos hc38]
    try simp only []
    repeat' split
    all_goals
      first
      | exact ⟨rfl, rfl, rfl, rfl, fun h7 => rfl⟩
      | exact ⟨rfl, rfl, rfl, rfl, fun h7 => absurd hc61 h7⟩
  rw [if_neg hc38]
  by_cases hc39 : op = OP_SFU_EX2
  · rw [if_pos hc39]
    try simp only []
    repeat' split
    all_goals
      first
      | exact ⟨rfl, rfl, rfl, rfl, fun h7 => rfl⟩
      | exact ⟨rfl, rfl, rfl, rfl, fun h7 => absurd hc61 h7⟩
  rw [if_neg hc39]
  by_cases hc40 : op = OP_SFU_LG2
  · rw [if_pos hc40]
    try simp only []
    repeat' split
    all_goals
      first
      | exact ⟨rfl, rfl, rfl, rfl, fun h7 => rfl⟩
      | exact ⟨rfl, rfl, rfl, rfl, fun h7 => absurd hc61 h7⟩
  rw [if_neg hc40]
  by_cases hc41 : op = OP_SFU_RCP
  · rw [if_pos hc41]
    try simp only []
    repeat' split
    all_goals
      first
      | exact ⟨rfl, rfl, rfl, rfl, fun h7 => rfl⟩
      | exact ⟨rfl, rfl, rfl, rfl, fun h7 => absurd hc61 h7⟩
  rw [if_neg hc41]
  by_cases hc42 : op = OP_SFU_RSQ
  · rw [if_pos hc42]
    try simp only []
    repeat' split
    all_goals
      first
      | exact ⟨rfl, rfl, rfl, rfl, fun h7 => rfl⟩
      | exact ⟨rfl, rfl, rfl, rfl, fun h7 => absurd hc61 h7⟩
  rw [if_neg hc42]
  by_cases hc43 : op = OP_SFU_SQRT
  · rw [if_pos hc43]
    try simp only []
    repeat' split
    all_goals
      first
      | exact ⟨rfl, rfl, rfl, rfl, fun h7 => rfl⟩
      | exact ⟨rfl, rfl, rfl, rfl, fun h7 => absurd hc61 h7⟩
  rw [if_neg hc43]
  by_cases hc44 : op = OP_SFU_TANH
  · rw [if_pos hc44]
    try simp only []
    repeat' split
    all_goals
      first
      | exact ⟨rfl, rfl, rfl, rfl, fun h7 => rfl⟩
      | exact ⟨rfl, rfl, rfl, rfl, fun h7 => absurd hc61 h7⟩
  rw [if_neg hc44]
  by_cases hc45 : op = OP_POPC
  · rw [if_pos hc45]
    try simp only []
    repeat' split
    all_goals
      first
      | exact ⟨rfl, rfl, rfl, rfl, fun h7 => rfl⟩
      | exact ⟨rfl, rfl, rfl, rfl, fun h7 => absurd hc61 h7⟩
  rw [if_neg hc45]
  by_cases hc46 : op = OP_CLZ
  · rw [if_pos hc46]
    try simp only []
    repeat' split
    all_goals
      first
      | exact ⟨rfl, rfl, rfl, rfl, fun h7 => rfl⟩
      | exact ⟨rfl, rfl, rfl, rfl, fun h7 => absurd hc61 h7⟩
  rw [if_neg hc46]
  by_cases hc47 : op = OP_BREV
  · rw [if_pos hc47]
    try simp only []
    repeat' split
    all_goals
      first
      | exact ⟨rfl, rfl, rfl, rfl, fun h7 => rfl⟩
      | exact ⟨rfl, rfl, rfl, rfl, fun h7 => absurd hc61 h7⟩
  rw [if_neg hc47]
  by_cases hc48 : op = OP_CNOT
  · rw [if_pos hc48]
    try simp only []
    repeat' split
    all_goals
      first
      | exact ⟨rfl, rfl, rfl, rfl, fun h7 => rfl⟩
      | exact ⟨rfl, rfl, rfl, rfl, fun h7 => absurd hc61 h7⟩
  rw [if_neg hc48]
  by_cases hc49 : op = OP_SELP
  · rw [if_pos hc49]
    try simp only []
    repeat' split
    all_goals
      first
      | exact ⟨rfl, rfl, rfl, rfl, fun h7 => rfl⟩
      | exact ⟨rfl, rfl, rfl, rfl, fun h7 => absurd hc61 h7⟩
  rw [if_neg hc49]
  by_cases hc50 : op = OP_BRA
  · rw [if_pos hc50]
    try simp only []
    repeat' split
    all_goals
      first
      | exact ⟨rfl, rfl, rfl, rfl, fun h7 => rfl⟩
      | exact ⟨rfl, rfl, rfl, rfl, fun h7 => absurd hc61 h7⟩
  rw [if_neg hc50]
  by_cases hc51 : op = OP_BEQ
  · rw [if_pos hc51]
    try simp only []
    repeat' split
    all_goals
      first
      | exact ⟨rfl, rfl, rfl, rfl, fun h7 => rfl⟩
      | exact ⟨rfl, rfl, rfl, rfl, fun h7 => absurd hc61 h7⟩
  rw [if_neg hc51]
  by_cases hc52 : op = OP_BNE
  · rw [if_pos hc52]
    try simp only []
    repeat' split
    all_goals
      first
      | exact ⟨rfl, rfl, rfl, rfl, fun h7 => rfl⟩
      | exact ⟨rfl, rfl, rfl, rfl, fun h7 => absurd hc61 h7⟩
  rw [if_neg hc52]
  by_cases hc53 : op = OP_SSY
  · rw [if_pos hc53]
    try simp only []
    repeat' split
    all_goals
      first
      | exact ⟨rfl, rfl, rfl, rfl, fun h7 => rfl⟩
      | exact ⟨rfl, rfl, rfl, rfl, fun h7 => absurd hc61 h7⟩
  rw [if_neg hc53]
  by_cases hc54 : op = OP_JOIN
  · rw [if_pos hc54]
    try simp only []
    repeat' split
    all_goals
      first
      | exact ⟨rfl, rfl, rfl, rfl, fun h7 => rfl⟩
      | exact ⟨rfl, rfl, rfl, rfl, fun h7 => absurd hc61 h7⟩
  rw [if_neg hc54]
  by_cases hc55 : op = OP_CALL
  · rw [if_pos hc55]
    try simp only []
    repeat' split
    all_goals
      first
      | exact ⟨rfl, rfl, rfl, rfl, fun h7 => rfl⟩
      | exact ⟨rfl, rfl, rfl, rfl, fun h7 => absurd hc61 h7⟩
  rw [if_neg hc55]
  by_cases hc56 : op = OP_RET
  · rw [if_pos hc56]
    try simp only []
    repeat' split
    all_goals
      first
      | exact ⟨rfl, rfl, rfl, rfl, fun h7 => rfl⟩
      | exact ⟨rfl, rfl, rfl, rfl, fun h7 => absurd hc61 h7⟩
  rw [if_neg hc56]
  by_cases hc57 : op = OP_TID
  · rw [if_pos hc57]
    try simp only []
    repeat' split
    all_goals
      first
      | exact ⟨rfl, rfl, rfl, rfl, fun h7 => rfl⟩
      | exact ⟨rfl, rfl, rfl, rfl, fun h7 => absurd hc61 h7⟩
  rw [if_neg hc57]
  by_cases hc58 : op = OP_BAR
  · rw [if_pos hc58]
    try simp only []
    repeat' split
    all_goals
      first
      | exact ⟨rfl, rfl, rfl, rfl, fun h7 => rfl⟩
      | exact ⟨rfl, rfl, rfl, rfl, fun h7 => absurd hc61 h7⟩
  rw [if_neg hc58]
  by_cases hc59 : op = OP_TEX
  · rw [if_pos hc59]
    try simp only []
    repeat' split
    all_goals
      first
      | exact ⟨rfl, rfl, rfl, rfl, fun h7 => rfl⟩
      | exact ⟨rfl, rfl, rfl, rfl, fun h7 => absurd hc61 h7⟩
  rw [if_neg hc59]
  by_cases hc60 : op = OP_LDR
  · rw [if_pos hc60]
    try simp only []
    repeat' split
    all_goals
      first
      | exact ⟨rfl, rfl, rfl, rfl, fun h7 => rfl⟩
      | exact ⟨rfl, rfl, rfl, rfl, fun h7 => absurd hc61 h7⟩
  rw [if_neg hc60]
  by_cases hc61 : op = OP_STR
  · rw [if_pos hc61]
    try simp only []
    repeat' split
    all_goals
      first
      | exact ⟨rfl, rfl, rfl, rfl, fun h7 => rfl⟩
      | exact ⟨rfl, rfl, rfl, rfl, fun h7 => absurd hc61 h7⟩
  rw [if_neg hc61]
  by_cases hc62 : op = OP_LDS
  · rw [if_pos hc62]
    try simp only []
    repeat' split
    all_goals
      first
      | exact ⟨rfl, rfl, rfl, rfl, fun h7 => rfl⟩
      | exact ⟨rfl, rfl, rfl, rfl, fun h7 => absurd hc61 h7⟩
  rw [if_neg hc62]
  by_cases hc63 : op = OP_STS
  · rw [if_pos hc63]
    try simp only []
    repeat' split
    all_goals
      first
      | exact ⟨rfl, rfl, rfl, rfl, fun h7 => rfl⟩
      | exact ⟨rfl, rfl, rfl, rfl, fun h7 => absurd hc61 h7⟩
  rw [if_neg hc63]
  simp only []
  exact ⟨rfl, rfl, rfl, rfl, fun h7 => rfl⟩

/-- Equation form of the dispatch frame lemma. -/
theorem vm_dispatch_frame_eq (fops : FloatOps) (vm : milo_vm)
    (op rd rs1 rs2 rs3 imm u1 u2 : Nat) (i1 i2 : Int)
    (s : Sum (Bool × milo_vm) milo_vm)
    (hs : vm_dispatch fops vm op rd rs1 rs2 rs3 imm u1 u2 i1 i2 = s) :
    (dispatch_out s).uniforms = vm.uniforms ∧
    (dispatch_out s).code = vm.code ∧
    (dispatch_out s).textures = vm.textures ∧
    (dispatch_out s).max_cycles = vm.max_cycles ∧
    (op ≠ OP_STR → (dispatch_out s).mem = vm.mem) := by
  subst hs
  exact vm_dispatch_frame fops vm op rd rs1 rs2 rs3 imm u1 u2 i1 i2

/-- The fetched word is one of the loaded words. -/
theorem code_getD_mem (l : List Nat) (i : Nat) (h : i < l.length) :
    l.getD i 0 ∈ l := by
  rw [List.getD_eq_getElem?_getD, List.getElem?_eq_getElem h, Option.getD_some]
  exact List.getElem_mem h

/-- One step preserves uniforms, code, textures and the watchdog, and
preserves memory when no loaded word carries the `str` opcode. -/
theorem vm_step_frame (fops : FloatOps) (vm : milo_vm)
    (hcode : ∀ w ∈ vm.code, (w >>> 56) &&& 255 ≠ OP_STR) :
    ((vm_step fops vm).2).uniforms = vm.uniforms ∧
    ((vm_step fops vm).2).code = vm.code ∧
    ((vm_step fops vm).2).textures = vm.textures ∧
    ((vm_step fops vm).2).max_cycles = vm.max_cycles ∧
    ((vm_step fops vm).2).mem = vm.mem := by
  rw [vm_step.eq_def]
  by_cases hpc : vm.code.length ≤ vm.pc
  · rw [if_pos hpc]
    exact ⟨rfl, rfl, rfl, rfl, rfl⟩
  · rw [if_neg hpc]
    simp only []
    split
    next r heq =>
      have hf := vm_dispatch_frame_eq fops _ _ _ _ _ _ _ _ _ _ _ _ heq
      have hop := hcode _ (code_getD_mem _ _ (Nat.lt_of_not_le hpc))
      exact ⟨hf.1, hf.2.1, hf.2.2.1, hf.2.2.2.1, hf.2.2.2.2 hop⟩
    next vm2 heq =>
      have hf := vm_dispatch_frame_eq fops _ _ _ _ _ _ _ _ _ _ _ _ heq
      have hop := hcode _ (code_getD_mem _ _ (Nat.lt_of_not_le hpc))
      exact ⟨hf.1, hf.2.1, hf.2.2.1, hf.2.2.2.1, hf.2.2.2.2 hop⟩

/-- The run loop preserves uniforms, code, textures, the watchdog and (in
the absence of `str` words) memory. -/
theorem vm_run_frame (fops : FloatOps) (fuel : Nat) :
    ∀ vm : milo_vm, (∀ w ∈ vm.code, (w >>> 56) &&& 255 ≠ OP_STR) →
      (vm_run fops fuel vm).uniforms = vm.uniforms ∧
      (vm_run fops fuel vm).code = vm.code ∧
      (vm_run fops fuel vm).textures = vm.textures ∧
      (vm_run fops fuel vm).max_cycles = vm.max_cycles ∧
      (vm_run fops fuel vm).mem = vm.mem := by
  induction fuel with
  | zero => intro vm h; exact ⟨rfl, rfl, rfl, rfl, rfl⟩
  | succ n ih =>
    intro vm h
    rw [vm_run]
    split
    · split
      next vm2 heq =>
        have hs := vm_step_frame fops vm h
        rw [heq] at hs
        have h2 : ∀ w ∈ vm2.code, (w >>> 56) &&& 255 ≠ OP_STR := by
          rw [hs.2.1]
          exact h
        have hr := ih vm2 h2
        exact ⟨hr.1.trans hs.1, hr.2.1.trans hs.2.1, hr.2.2.1.trans hs.2.2.1,
          hr.2.2.2.1.trans hs.2.2.2.1, hr.2.2.2.2.trans hs.2.2.2.2⟩
      next vm2 heq =>
        have hs := vm_step_frame fops vm h
        rw [heq] at hs
        exact hs
    · exact ⟨rfl, rfl, rfl, rfl, rfl⟩

/-- The fragment entry point preserves linear memory and the uniform
array whenever the loaded program contains no `str` word. -/
theorem milo_vm_exec_fragment_frame (fops : FloatOps) (vm : milo_vm)
    (fin : milo_fragment_in)
    (hcode : ∀ w ∈ vm.code, (w >>> 56) &&& 255 ≠ OP_STR) :
    ((milo_vm_exec_fragment fops vm fin).2.1).mem = vm.mem ∧
    ((milo_vm_exec_fragment fops vm fin).2.1).uniforms = vm.uniforms := by
  have hfr : ∀ w ∈ (frag_reset vm fin).code, (w >>> 56) &&& 255 ≠ OP_STR := hcode
  have hr := vm_run_frame fops ((frag_reset vm fin).max_cycles + 1)
    (frag_reset vm fin) hfr
  simp only [milo_vm_exec_fragment]
  split
  · exact ⟨hr.2.2.2.2, hr.1⟩
  · exact ⟨hr.2.2.2.2, hr.1⟩

/-- `idiv` with a zero divisor writes 0 and falls through. -/
theorem vm_dispatch_idiv_zero (fops : FloatOps) (vm : milo_vm)
    (rd rs1 rs2 rs3 imm u1 u2 : Nat) (i1 : Int) :
    vm_dispatch fops vm OP_IDIV rd rs1 rs2 rs3 imm u1 u2 i1 0 =
      .inr (wreg vm rd 0) := by
  rw [vm_dispatch.eq_def]
  rw [if_neg (by decide)]
  rw [if_neg (by decide)]
  rw [if_neg (by decide)]
  rw [if_neg (by decide)]
  rw [if_neg (by decide)]
  rw [if_neg (by decide)]
  rw [if_neg (by decide)]
  rw [if_pos (by decide)]
  rw [if_pos (rfl : (0 : Int) = 0)]

/-- `irem` with a zero divisor writes 0 and falls through. -/
theorem vm_dispatch_irem_zero (fops : FloatOps) (vm : milo_vm)
    (rd rs1 rs2 rs3 imm u1 u2 : Nat) (i1 : Int) :
    vm_dispatch fops vm OP_IREM rd rs1 rs2 rs3 imm u1 u2 i1 0 =
      .inr (wreg vm rd 0) := by
  rw [vm_dispatch.eq_def]
  rw [if_neg (by decide)]
  rw [if_neg (by decide)]
  rw [if_neg (by decide)]
  rw [if_neg (by decide)]
  rw [if_neg (by decide)]
  rw [if_neg (by decide)]
  rw [if_neg (by decide)]
  rw [if_neg (by decide)]
  rw [if_pos (by decide)]
  rw [if_pos (rfl : (0 : Int) = 0)]

/-- `fdiv` with a zero divisor writes 0 and falls through. -/
theorem vm_dispatch_fdiv_zero (fops : FloatOps) (vm : milo_vm)
    (rd rs1 rs2 rs3 imm u1 u2 : Nat) (i1 i2 : Int)
    (hz : isZeroF u2 = true) :
    vm_dispatch fops vm OP_FDIV rd rs1 rs2 rs3 imm u1 u2 i1 i2 =
      .inr (wreg vm rd 0) := by
  rw [vm_dispatch.eq_def]
  rw [if_neg (by decide)]
  rw [if_neg (by decide)]
  rw [if_neg (by decide)]
  rw [if_neg (by decide)]
  rw [if_neg (by decide)]
  rw [if_neg (by decide)]
  rw [if_neg (by decide)]
  rw [if_neg (by decide)]
  rw [if_neg (by decide)]
  rw [if_neg (by decide)]
  rw [if_neg (by decide)]
  rw [if_neg (by decide)]
  rw [if_neg (by decide)]
  rw [if_neg (by decide)]
  rw [if_neg (by decide)]
  rw [if_neg (by decide)]
  rw [if_neg (by decide)]
  rw [if_neg (by decide)]
  rw [if_neg (by decide)]
  rw [if_neg (by decide)]
  rw [if_neg (by decide)]
  rw [if_neg (by decide)]
  rw [if_neg (by decide)]
  rw [if_neg (by decide)]
  rw [if_neg (by decide)]
  rw [if_neg (by decide)]
  rw [if_pos (by decide)]
  rw [if_pos hz]

/-- `ldr` from an out-of-range address writes 0 and falls through. -/
theorem vm_dispatch_ldr_oob (fops : FloatOps) (vm : milo_vm)
    (rd rs1 rs2 rs3 imm u1 u2 : Nat) (i1 i2 : Int)
    (hoob : 8192 ≤ (u1 + imm) % 4294967296) :
    vm_dispatch fops vm OP_LDR rd rs1 rs2 rs3 imm u1 u2 i1 i2 =
      .inr (wreg vm rd 0) := by
  rw [vm_dispatch.eq_def]
  rw [if_neg (by decide)]
  rw [if_neg (by decide)]
  rw [if_neg (by decide)]
  rw [if_neg (by decide)]
  rw [if_neg (by decide)]
  rw [if_neg (by decide)]
  rw [if_neg (by decide)]
  rw [if_neg (by decide)]
  rw [if_neg (by decide)]
  rw [if_neg (by decide)]
  rw [if_neg (by decide)]
  rw [if_neg (by decide)]
  rw [if_neg (by decide)]
  rw [if_neg (by decide)]
  rw [if_neg (by decide)]
  rw [if_neg (by decide)]
  rw [if_neg (by decide)]
  rw [if_neg (by decide)]
  rw [if_neg (by decide)]
  rw [if_neg (by decide)]
  rw [if_neg (by decide)]
  rw [if_neg (by decide)]
  rw [if_neg (by decide)]
  rw [if_neg (by decide)]
  rw [if_neg (by decide)]
  rw [if_neg (by decide)]
  rw [if_neg (by decide)]
  rw [if_neg (by decide)]
  rw [if_neg (by decide)]
  rw [if_neg (by decide)]
  rw [if_neg (by decide)]
  rw [if_neg (by decide)]
  rw [if_neg (by decide)]
  rw [if_neg (by decide)]
  rw [if_neg (by decide)]
  rw [if_neg (by decide)]
  rw [if_neg (by decide)]
  rw [if_neg (by decide)]
  rw [if_neg (by decide)]
  rw [if_neg (by decide)]
  rw [if_neg (by decide)]
  rw [if_neg (by decide)]
  rw [if_neg (by decide)]
  rw [if_neg (by decide)]
  rw [if_neg (by decide)]
  rw [if_neg (by decide)]
  rw [if_neg (by decide)]
  rw [if_neg (by decide)]
  rw [if_neg (by decide)]
  rw [if_neg (by decide)]
  rw [if_neg (by decide)]
  rw [if_neg (by decide)]
  rw [if_neg (by decide)]
  rw [if_neg (by decide)]
  rw [if_neg (by decide)]
  rw [if_neg (by decide)]
  rw [if_neg (by decide)]
  rw [if_neg (by decide)]
  rw [if_neg (by decide)]
  rw [if_neg (by decide)]
  rw [if_pos (by decide)]
  simp only []
  rw [if_neg (not_lt.mpr hoob)]

/-- `str` to an out-of-range address leaves the machine unchanged and
falls through. -/
theorem vm_dispatch_str_oob (fops : FloatOps) (vm : milo_vm)
    (rd rs1 rs2 rs3 imm u1 u2 : Nat) (i1 i2 : Int)
    (hoob : 8192 ≤ (u1 + imm) % 4294967296) :
    vm_dispatch fops vm OP_STR rd rs1 rs2 rs3 imm u1 u2 i1 i2 = .inr vm := by
  rw [vm_dispatch.eq_def]
  rw [if_neg (by decide)]
  rw [if_neg (by decide)]
  rw [if_neg (by decide)]
  rw [if_neg (by decide)]
  rw [if_neg (by decide)]
  rw [if_neg (by decide)]
  rw [if_neg (by decide)]
  rw [if_neg (by decide)]
  rw [if_neg (by decide)]
  rw [if_neg (by decide)]
  rw [if_neg (by decide)]
  rw [if_neg (by decide)]
  rw [if_neg (by decide)]
  rw [if_neg (by decide)]
  rw [if_neg (by decide)]
  rw [if_neg (by decide)]
  rw [if_neg (by decide)]
  rw [if_neg (by decide)]
  rw [if_neg (by decide)]
  rw [if_neg (by decide)]
  rw [if_neg (by decide)]
  rw [if_neg (by decide)]
  rw [if_neg (by decide)]
  rw [if_neg (by decide)]
  rw [if_neg (by decide)]
  rw [if_neg (by decide)]
  rw [if_neg (by decide)]
  rw [if_neg (by decide)]
  rw [if_neg (by decide)]
  rw [if_neg (by decide)]
  rw [if_neg (by decide)]
  rw [if_neg (by decide)]
  rw [if_neg (by decide)]
  rw [if_neg (by decide)]
  rw [if_neg (by decide)]
  rw [if_neg (by decide)]
  rw [if_neg (by decide)]
  rw [if_neg (by decide)]
  rw [if_neg (by decide)]
  rw [if_neg (by decide)]
  rw [if_neg (by decide)]
  rw [if_neg (by decide)]
  rw [if_neg (by decide)]
  rw [if_neg (by decide)]
  rw [if_neg (by decide)]
  rw [if_neg (by decide)]
  rw [if_neg (by decide)]
  rw [if_neg (by decide)]
  rw [if_neg (by decide)]
  rw [if_neg (by decide)]
  rw [if_neg (by decide)]
  rw [if_neg (by decide)]
  rw [if_neg (by decide)]
  rw [if_neg (by decide)]
  rw [if_neg (by decide)]
  rw [if_neg (by decide)]
  rw [if_neg (by decide)]
  rw [if_neg (by decide)]
  rw [if_neg (by decide)]
  rw [if_neg (by decide)]
  rw [if_neg (by decide)]
  rw [if_pos (by decide)]
  simp only []
  rw [if_neg (not_lt.mpr hoob)]

/-- Whenever the dispatch falls through, the step reports success and only
zeroes register 0 on top of the dispatch result. -/
theorem vm_step_inr (fops : FloatOps) (vm : milo_vm)
    (hpc : vm.pc < vm.code.length) (vm2 : milo_vm)
    (hd : vm_dispatch fops
      { vm with
        regs := updFn vm.regs 0 0, pc := vm.pc + 1,
        cycle_count := vm.cycle_count + 1 }
      ((vm.code.getD vm.pc 0 >>> 56) &&& 255) ((vm.code.getD vm.pc 0 >>> 48) &&& 255)
      ((vm.code.getD vm.pc 0 >>> 40) &&& 255) ((vm.code.getD vm.pc 0 >>> 32) &&& 255)
      ((vm.code.getD vm.pc 0 >>> 20) &&& 255) (inst_imm (vm.code.getD vm.pc 0))
      (updFn vm.regs 0 0 ((vm.code.getD vm.pc 0 >>> 40) &&& 255))
      (updFn vm.regs 0 0 ((vm.code.getD vm.pc 0 >>> 32) &&& 255))
      (toInt32 (updFn vm.regs 0 0 ((vm.code.getD vm.pc 0 >>> 40) &&& 255)))
      (toInt32 (updFn vm.regs 0 0 ((vm.code.getD vm.pc 0 >>> 32) &&& 255))) =
      .inr vm2) :
    vm_step fops vm = (true, { vm2 with regs := updFn vm2.regs 0 0 }) := by
  rw [vm_step.eq_def, if_neg (not_le.mpr hpc)]
  simp only []
  split
  next r heq => exact Sum.noConfusion (heq.symm.trans hd)
  next vm3 heq =>
    have h2 := heq.symm.trans hd
    injection h2 with h3
    rw [h3]

/-- C truncation agrees with the floor on non-negative rationals. -/
theorem ctrunc_eq_floor (q : ℚ) (h : 0 ≤ q) : ctrunc q = ⌊q⌋ := by
  unfold ctrunc
  rw [Rat.floor_def]
  exact Int.tdiv_eq_ediv (Rat.num_nonneg.mpr h) (Int.ofNat_nonneg _)

/-- Exact nearest-neighbour sampling at a pixel centre. -/
theorem tex_nearest_aux (tex : milo_texture) (x y : Int)
    (hpx : tex.pixels ≠ []) (hfilter : tex.filter = false)
    (hws : tex.wrap_s = false) (hwt : tex.wrap_t = false)
    (hx0 : 0 ≤ x) (hxw : x < tex.width) (hy0 : 0 ≤ y) (hyh : y < tex.height) :
    milo_texture_sample tex (((x : ℚ) + 1 / 2) / ((tex.width : Int) : ℚ))
      (((y : ℚ) + 1 / 2) / ((tex.height : Int) : ℚ)) =
      tex.pixels.getD (y * tex.width + x).toNat 0 := by
  have hw : (0 : ℚ) < ((tex.width : Int) : ℚ) := by
    exact_mod_cast lt_of_le_of_lt hx0 hxw
  have hh : (0 : ℚ) < ((tex.height : Int) : ℚ) := by
    exact_mod_cast lt_of_le_of_lt hy0 hyh
  have hxq : (0 : ℚ) ≤ (x : ℚ) := by exact_mod_cast hx0
  have hyq : (0 : ℚ) ≤ (y : ℚ) := by exact_mod_cast hy0
  have hxwq : (x : ℚ) + 1 ≤ ((tex.width : Int) : ℚ) := by exact_mod_cast hxw
  have hyhq : (y : ℚ) + 1 ≤ ((tex.height : Int) : ℚ) := by exact_mod_cast hyh
  set W : ℚ := ((tex.width : Int) : ℚ) with hWdef
  set H : ℚ := ((tex.height : Int) : ℚ) with hHdef
  set u : ℚ := ((x : ℚ) + 1 / 2) / W with hudef
  set v : ℚ := ((y : ℚ) + 1 / 2) / H with hvdef
  have hu0 : 0 ≤ u := div_nonneg (by linarith) hw.le
  have hv0 : 0 ≤ v := div_nonneg (by linarith) hh.le
  have hupos : 0 < u := div_pos (by linarith) hw
  have hvpos : 0 < v := div_pos (by linarith) hh
  have hu1 : u < 1 := by
    rw [hudef, div_lt_one hw]; linarith
  have hv1 : v < 1 := by
    rw [hvdef, div_lt_one hh]; linarith
  have huW : u * W = (x : ℚ) + 1 / 2 := by
    rw [hudef]; field_simp; ring
  have hvH : v * H = (y : ℚ) + 1 / 2 := by
    rw [hvdef]; field_simp; ring
  have hfx : u * (((tex.width - 1 : Int)) : ℚ) + 1 / 2 = (x : ℚ) + 1 - u := by
    push_cast
    rw [mul_sub, huW, mul_one]; ring
  have hfy : v * (((tex.height - 1 : Int)) : ℚ) + 1 / 2 = (y : ℚ) + 1 - v := by
    push_cast
    rw [mul_sub, hvH, mul_one]; ring
  have hctx : ctrunc (u * (((tex.width - 1 : Int)) : ℚ) + 1 / 2) = x := by
    rw [ctrunc_eq_floor _ (by rw [hfx]; linarith)]
    rw [hfx]
    rw [Int.floor_eq_iff]
    constructor
    · push_cast; linarith
    · push_cast; linarith
  have hcty : ctrunc (v * (((tex.height - 1 : Int)) : ℚ) + 1 / 2) = y := by
    rw [ctrunc_eq_floor _ (by rw [hfy]; linarith)]
    rw [hfy]
    rw [Int.floor_eq_iff]
    constructor
    · push_cast; linarith
    · push_cast; linarith
  unfold milo_texture_sample
  rw [if_neg hpx]
  simp only [hws, hwt, hfilter, Bool.false_eq_true, if_false]
  rw [min_eq_right hu1.le, max_eq_right hu0, min_eq_right hv1.le,
    max_eq_right hv0]
  rw [hctx, hcty]
  rw [if_neg (by omega), if_neg (by omega)]

/-- The 2-by-2 RGBA8888 test texture `[red, green, blue, white]` with
wrapping and filtering off. -/
def tex2x2 : milo_texture :=
  { pixels := [4278190335, 4278255360, 4294901760, 4294967295],
    width := 2, height := 2, wrap_s := false, wrap_t := false, filter := false }

/-- Sampling the 2x2 texture at (1/4, 1/4) yields the red texel. -/
theorem tex2x2_red : milo_texture_sample tex2x2 (1 / 4) (1 / 4) = 4278190335 := by
  have h := tex_nearest_aux tex2x2 0 0 (by simp [tex2x2]) rfl rfl rfl
    le_rfl (by norm_num [tex2x2]) le_rfl (by norm_num [tex2x2])
  have e : ((((0 : Int) : ℚ) + 1 / 2) / (((tex2x2.width : Int)) : ℚ)) = 1 / 4 := by
    norm_num [tex2x2]
  have e2 : ((((0 : Int) : ℚ) + 1 / 2) / (((tex2x2.height : Int)) : ℚ)) = 1 / 4 := by
    norm_num [tex2x2]
  rw [e, e2] at h
  rw [h]
  rfl

/-- Sampling the 2x2 texture at (3/4, 3/4) yields the white texel. -/
theorem tex2x2_white :
    milo_texture_sample tex2x2 (3 / 4) (3 / 4) = 4294967295 := by
  have h := tex_nearest_aux tex2x2 1 1 (by simp [tex2x2]) rfl rfl rfl
    (by norm_num) (by norm_num [tex2x2]) (by norm_num) (by norm_num [tex2x2])
  have e : ((((1 : Int) : ℚ) + 1 / 2) / (((tex2x2.width : Int)) : ℚ)) = 3 / 4 := by
    norm_num [tex2x2]
  have e2 : ((((1 : Int) : ℚ) + 1 / 2) / (((tex2x2.height : Int)) : ℚ)) = 3 / 4 := by
    norm_num [tex2x2]
  rw [e, e2] at h
  rw [h]
  rfl


/-- C7: register 0 reads as zero after any step from a state where it
reads zero, hence after any sequence of steps; the fragment prologue
establishes the invariant, so it holds along every fragment execution. -/
theorem C7_register0_reads_zero :
    (∀ (fops : FloatOps) (vm : milo_vm), vm.regs 0 = 0 →
        ((vm_step fops vm).2).regs 0 = 0) ∧
    (∀ (fops : FloatOps) (fuel : Nat) (vm : milo_vm), vm.regs 0 = 0 →
        (vm_run fops fuel vm).regs 0 = 0) ∧
    (∀ (vm : milo_vm) (fin : milo_fragment_in),
        (frag_reset vm fin).regs 0 = 0 ∧
        ∀ (fops : FloatOps) (fuel : Nat),
          (vm_run fops fuel (frag_reset vm fin)).regs 0 = 0) :=
  ⟨vm_step_reg0,
   fun fops fuel vm h => vm_run_reg0 fops fuel vm h,
   fun vm fin =>
     ⟨frag_reset_reg0 vm fin,
      fun fops fuel => vm_run_reg0 fops fuel _ (frag_reset_reg0 vm fin)⟩⟩

/-- C8: `idiv`, `irem` and `fdiv` with a zero divisor write 0 to the
destination register, `ldr` from a byte address at or beyond the 8192-byte
memory writes 0, and `str` to such an address leaves the machine (hence
memory) unchanged; all five fall through rather than early-return, the
register write never touches the error or running fields, and every
fall-through makes `vm_step` report success. -/
theorem C8_error_free_div_and_memory :
    (∀ (fops : FloatOps) (vm : milo_vm) (rd rs1 rs2 rs3 imm u1 u2 : Nat)
        (i1 : Int),
        vm_dispatch fops vm OP_IDIV rd rs1 rs2 rs3 imm u1 u2 i1 0 =
          .inr (wreg vm rd 0)) ∧
    (∀ (fops : FloatOps) (vm : milo_vm) (rd rs1 rs2 rs3 imm u1 u2 : Nat)
        (i1 : Int),
        vm_dispatch fops vm OP_IREM rd rs1 rs2 rs3 imm u1 u2 i1 0 =
          .inr (wreg vm rd 0)) ∧
    (∀ (fops : FloatOps) (vm : milo_vm) (rd rs1 rs2 rs3 imm u1 u2 : Nat)
        (i1 i2 : Int), isZeroF u2 = true →
        vm_dispatch fops vm OP_FDIV rd rs1 rs2 rs3 imm u1 u2 i1 i2 =
          .inr (wreg vm rd 0)) ∧
    (∀ (fops : FloatOps) (vm : milo_vm) (rd rs1 rs2 rs3 imm u1 u2 : Nat)
        (i1 i2 : Int), 8192 ≤ (u1 + imm) % 4294967296 →
        vm_dispatch fops vm OP_LDR rd rs1 rs2 rs3 imm u1 u2 i1 i2 =
          .inr (wreg vm rd 0)) ∧
    (∀ (fops : FloatOps) (vm : milo_vm) (rd rs1 rs2 rs3 imm u1 u2 : Nat)
        (i1 i2 : Int), 8192 ≤ (u1 + imm) % 4294967296 →
        vm_dispatch fops vm OP_STR rd rs1 rs2 rs3 imm u1 u2 i1 i2 =
          .inr vm) ∧
    (∀ (vm : milo_vm) (rd v : Nat),
        (wreg vm rd v).error = vm.error ∧ (wreg vm rd v).running = vm.running) ∧
    (∀ (fops : FloatOps) (vm : milo_vm), vm.pc < vm.code.length →
      ∀ vm2 : milo_vm,
        vm_dispatch fops
          { vm with
            regs := updFn vm.regs 0 0, pc := vm.pc + 1,
            cycle_count := vm.cycle_count + 1 }
          ((vm.code.getD vm.pc 0 >>> 56) &&& 255)
          ((vm.code.getD vm.pc 0 >>> 48) &&& 255)
          ((vm.code.getD vm.pc 0 >>> 40) &&& 255)
          ((vm.code.getD vm.pc 0 >>> 32) &&& 255)
          ((vm.code.getD vm.pc 0 >>> 20) &&& 255)
          (inst_imm (vm.code.getD vm.pc 0))
          (updFn vm.regs 0 0 ((vm.code.getD vm.pc 0 >>> 40) &&& 255))
          (updFn vm.regs 0 0 ((vm.code.getD vm.pc 0 >>> 32) &&& 255))
          (toInt32 (updFn vm.regs 0 0 ((vm.code.getD vm.pc 0 >>> 40) &&& 255)))
          (toInt32 (updFn vm.regs 0 0 ((vm.code.getD vm.pc 0 >>> 32) &&& 255))) =
          .inr vm2 →
        vm_step fops vm = (true, { vm2 with regs := updFn vm2.regs 0 0 })) :=
  ⟨vm_dispatch_idiv_zero, vm_dispatch_irem_zero, vm_dispatch_fdiv_zero,
   vm_dispatch_ldr_oob, vm_dispatch_str_oob,
   fun vm rd v => ⟨rfl, rfl⟩,
   fun fops vm hpc vm2 hd => vm_step_inr fops vm hpc vm2 hd⟩

/-- C9: in nearest mode with wrapping off, sampling any texture at the
centre of pixel (x, y) returns exactly `pixels[y*width+x]`; on the 2x2
texture `[red, green, blue, white]`, (0.25, 0.25) yields red and
(0.75, 0.75) yields white. -/
theorem C9_nearest_sampling_exact :
    (∀ (tex : milo_texture) (x y : Int),
        tex.pixels ≠ [] → tex.filter = false → tex.wrap_s = false →
        tex.wrap_t = false → 0 ≤ x → x < tex.width → 0 ≤ y →
        y < tex.height →
        milo_texture_sample tex (((x : ℚ) + 1 / 2) / ((tex.width : Int) : ℚ))
            (((y : ℚ) + 1 / 2) / ((tex.height : Int) : ℚ)) =
          tex.pixels.getD (y * tex.width + x).toNat 0) ∧
    milo_texture_sample tex2x2 (1 / 4) (1 / 4) = 4278190335 ∧
    milo_texture_sample tex2x2 (3 / 4) (3 / 4) = 4294967295 :=
  ⟨tex_nearest_aux, tex2x2_red, tex2x2_white⟩

/-- Registers 11 and up are cleared by the fragment prologue. -/
theorem frag_reset_regs_high (vm : milo_vm) (fin : milo_fragment_in)
    (i : Nat) (hi : 11 ≤ i) : (frag_reset vm fin).regs i = 0 := by
  simp only [frag_reset, updFn]
  repeat rw [if_neg (by omega)]

/-- C10: `milo_vm_exec_fragment` resets the per-fragment machine state (pc,
both stacks, cycle count, discard flag, error, run flag, and the register
file above the bound inputs) while leaving memory, uniforms, code and
textures alone at the prologue; and when the loaded program contains no
`str` word, the whole call leaves memory and uniforms unchanged, so
load-time constant-pool words persist across fragment executions. -/
theorem C10_fragment_frame :
    (∀ (vm : milo_vm) (fin : milo_fragment_in),
        (frag_reset vm fin).pc = 0 ∧
        (frag_reset vm fin).div_stack = [] ∧
        (frag_reset vm fin).ret_stack = [] ∧
        (frag_reset vm fin).cycle_count = 0 ∧
        (frag_reset vm fin).discarded = false ∧
        (frag_reset vm fin).error = none ∧
        (frag_reset vm fin).running = true ∧
        (∀ i : Nat, 11 ≤ i → (frag_reset vm fin).regs i = 0) ∧
        (frag_reset vm fin).mem = vm.mem ∧
        (frag_reset vm fin).uniforms = vm.uniforms ∧
        (frag_reset vm fin).code = vm.code ∧
        (frag_reset vm fin).textures = vm.textures) ∧
    (∀ (fops : FloatOps) (vm : milo_vm) (fin : milo_fragment_in),
        (∀ w ∈ vm.code, (w >>> 56) &&& 255 ≠ OP_STR) →
        ((milo_vm_exec_fragment fops vm fin).2.1).mem = vm.mem ∧
        ((milo_vm_exec_fragment fops vm fin).2.1).uniforms = vm.uniforms) :=
  ⟨fun vm fin =>
    ⟨rfl, rfl, rfl, rfl, rfl, rfl, rfl, frag_reset_regs_high vm fin,
     rfl, rfl, rfl, rfl⟩,
   fun fops vm fin h => milo_vm_exec_fragment_frame fops vm fin h⟩

/-- The assembler state after the single line `exit`. -/
def c4_exit_state : milo_asm_state :=
  { code := [18374686481550671872], labels := [], unresolved := [] }

/-- Witness for C4: the single line `exit` assembles to one word whose
predicate nibble is the default 0x7. -/
theorem C4_pred_nibble_default_witness :
    milo_asm_line noFp {} (chars "exit") 1 =
      .ok c4_exit_state ∧
    ∀ w ∈ (c4_exit_state : milo_asm_state).code, (w >>> 28) &&& 15 = 7 :=
  ⟨by decide,
   C4_pred_nibble_default noFp {} c4_exit_state
     (chars "exit") 1 (by decide) (by simp)⟩

end Milo
